import Mathlib

/-!
# Primal grid elements of SU2: a shallow embedding of `CPrimalGrid.cpp`

The member functions of `CPrimalGrid` are embedded as functions on an explicit
record of the member variables.  Heap arrays are lists, a null pointer is
`none`, every `for` loop of the source is a left fold over its index range
(`forLoop`), and storage returned by `new T[n]` holds arbitrary values that
are supplied by a `junk` argument, so that a result can only be fixed by the
assignments the source performs.  The donor counter
`nProcElemIsOnlyInterpolDonor` is an `unsigned short`: it is a natural number
that `++` increments modulo `2^16`.  The other indices and sizes
(`unsigned short` and `unsigned long` in the source) are natural numbers that
are not taken to wrap around.  Real numbers (`su2double`) are the elements of
a linearly ordered field `K` (exact arithmetic); the square root is an
argument of the embedding.
-/

namespace SU2

/-! ## Definitions -/

/-- The loop `for (i = 0; i < n; ++i) body`: the body is run for `i = 0, …, n-1`
in this order on the state `init`. -/
def forLoop {σ : Type} (n : Nat) (body : Nat → σ → σ) (init : σ) : σ :=
  (List.range n).foldl (fun s i => body i s) init

/-- The storage `new T[n]`: `n` slots whose contents are indeterminate
(slot `i` holds `junk i`). -/
def newArray {α : Type} (junk : Nat → α) (n : Nat) : List α :=
  (List.range n).map junk

/-- The member variables of `CPrimalGrid` that `CPrimalGrid.cpp` touches.
A pointer member is `none` when it is `NULL`. -/
structure CPrimalGrid (K : Type) where
  /-- Field `unsigned long *Nodes`. -/
  Nodes : Option (List Nat)
  /-- Field `long *Neighbor_Elements`. -/
  Neighbor_Elements : Option (List Int)
  /-- Field `bool *ElementOwnsFace`. -/
  ElementOwnsFace : Option (List Bool)
  /-- Field `short *PeriodIndexNeighbors`. -/
  PeriodIndexNeighbors : Option (List Int)
  /-- Field `su2double *Coord_CG`; an entry is `none` when the value stored in
  it is the result of a division by zero. -/
  Coord_CG : Option (List (Option K))
  /-- Field `su2double **Coord_FaceElems_CG`. -/
  Coord_FaceElems_CG : Option (List (List K))
  /-- Field `bool *JacobianFaceIsConstant`. -/
  JacobianFaceIsConstant : Option (List Bool)
  /-- Field `unsigned long GlobalIndex`. -/
  GlobalIndex : Nat
  /-- Field `unsigned short nProcElemIsOnlyInterpolDonor`, the number of stored
  donor ranks.  The declaration is in the class header; the counter has the
  type of the index `iProc` it is compared with, and `++` is taken modulo
  `65536 = 2^16`. -/
  nProcElemIsOnlyInterpolDonor : Nat
  /-- Field `unsigned long *ProcElemIsOnlyInterpolDonor`. -/
  ProcElemIsOnlyInterpolDonor : Option (List Nat)

/-- The constructor `CPrimalGrid::CPrimalGrid(void)`. -/
def CPrimalGrid.new (K : Type) : CPrimalGrid K where
  Nodes := none
  Neighbor_Elements := none
  ElementOwnsFace := none
  PeriodIndexNeighbors := none
  Coord_CG := none
  Coord_FaceElems_CG := none
  JacobianFaceIsConstant := none
  GlobalIndex := 0
  nProcElemIsOnlyInterpolDonor := 0
  ProcElemIsOnlyInterpolDonor := none

/-- The function `CPrimalGrid::InitializeNeighbors(val_nFaces)`: three fresh
arrays, then one loop that assigns slot `i` of each. -/
def InitializeNeighbors {K : Type} (junkN : Nat → Int) (junkO : Nat → Bool) (junkP : Nat → Int)
    (val_nFaces : Nat) (s : CPrimalGrid K) : CPrimalGrid K :=
  let Neighbor_Elements := newArray junkN val_nFaces
  let ElementOwnsFace := newArray junkO val_nFaces
  let PeriodIndexNeighbors := newArray junkP val_nFaces
  let r := forLoop val_nFaces
    (fun i (a : List Int × List Bool × List Int) =>
      (a.1.set i (-1), a.2.1.set i false, a.2.2.set i (-1)))
    (Neighbor_Elements, ElementOwnsFace, PeriodIndexNeighbors)
  { s with
    Neighbor_Elements := some r.1
    ElementOwnsFace := some r.2.1
    PeriodIndexNeighbors := some r.2.2 }

/-- The function `CPrimalGrid::InitializeJacobianConstantFaces(val_nFaces)`. -/
def InitializeJacobianConstantFaces {K : Type} (junkJ : Nat → Bool)
    (val_nFaces : Nat) (s : CPrimalGrid K) : CPrimalGrid K :=
  let JacobianFaceIsConstant := newArray junkJ val_nFaces
  { s with
    JacobianFaceIsConstant :=
      some (forLoop val_nFaces (fun i (a : List Bool) => a.set i false) JacobianFaceIsConstant) }

/-- The read `p[i]` of a heap array of `unsigned long`; the value read outside
the allocated storage is arbitrary (here `0`). -/
def readProc (p : Option (List Nat)) (i : Nat) : Nat :=
  (p.getD []).getD i 0

/-- The function `CPrimalGrid::AddProcElemIsOnlyInterpolDonor(procInterpol)`:
the search loop, then, when the rank was not found, the reallocation with its
two copy loops (or the first allocation), the store of the new rank and the
increment of the counter.  The counter is an `unsigned short`: the three loops
run their 16-bit index `iProc` up to a bound of its own type, the size
`nProcElemIsOnlyInterpolDonor+1` of the new array is computed in `int` and
does not wrap, and the final `++nProcElemIsOnlyInterpolDonor` wraps from
`65535` to `0`. -/
def AddProcElemIsOnlyInterpolDonor {K : Type} (junk : Nat → Nat)
    (procInterpol : Nat) (s : CPrimalGrid K) : CPrimalGrid K :=
  let n := s.nProcElemIsOnlyInterpolDonor
  let alreadyStored := forLoop n
    (fun iProc (found : Bool) =>
      if readProc s.ProcElemIsOnlyInterpolDonor iProc = procInterpol then true else found)
    false
  if !alreadyStored then
    let Proc : List Nat :=
      if n ≠ 0 then
        let tmpProc := forLoop n
          (fun iProc (t : List Nat) => t.set iProc (readProc s.ProcElemIsOnlyInterpolDonor iProc))
          (newArray junk n)
        forLoop n
          (fun iProc (a : List Nat) => a.set iProc (tmpProc.getD iProc 0))
          (newArray junk (n + 1))
      else
        newArray junk 1
    { s with
      ProcElemIsOnlyInterpolDonor := some (Proc.set n procInterpol)
      nProcElemIsOnlyInterpolDonor := (n + 1) % 65536 }
  else s

/-- The ranks stored in the donor set: the first `nProcElemIsOnlyInterpolDonor`
entries of `ProcElemIsOnlyInterpolDonor`. -/
def donors {K : Type} (s : CPrimalGrid K) : List Nat :=
  (s.ProcElemIsOnlyInterpolDonor.getD []).take s.nProcElemIsOnlyInterpolDonor

/-- Well-formedness of the donor set: the stored ranks lie in the allocated
storage, that is, the counter does not exceed the number of allocated slots of
`ProcElemIsOnlyInterpolDonor` (no slot when the pointer is null).  The two are
equal until the counter wraps; after the wrap the counter is `0` and the
array of `65536` slots is still allocated. -/
def DonorWF {K : Type} (s : CPrimalGrid K) : Prop :=
  s.nProcElemIsOnlyInterpolDonor ≤ (s.ProcElemIsOnlyInterpolDonor.getD []).length

/-- The calls `AddProcElemIsOnlyInterpolDonor(r)` for the ranks `r` of a
sequence, in order. -/
def addAll {K : Type} (junk : Nat → Nat) (ranks : List Nat) (s : CPrimalGrid K) : CPrimalGrid K :=
  ranks.foldl (fun t r => AddProcElemIsOnlyInterpolDonor junk r t) s

/-- The sequence with every repeated occurrence removed: the first occurrence
of each value is kept, in the original order. -/
def keepFirst : List Nat → List Nat
  | [] => []
  | x :: xs => x :: (keepFirst xs).filter (fun y => y ≠ x)

/-! ### `SetCoord_CG` -/

/-- The virtual member functions of the element classes derived from
`CPrimalGrid` that `SetCoord_CG` calls (the fixed topology of the element).
The classes are not part of `CPrimalGrid.cpp`; their functions are taken as
given. -/
structure Topology where
  /-- Number of nodes of the element. -/
  GetnNodes : Nat
  /-- Number of faces of the element. -/
  GetnFaces : Nat
  /-- Number of nodes of face `iFace`. -/
  GetnNodesFace : Nat → Nat
  /-- Local index in the element of node `iNode` of face `iFace`. -/
  GetFaces : Nat → Nat → Nat

/-- A shape object (`CElement`; `CTRIA1` and `CQUAD4` in the source).  Its
class is not part of `CPrimalGrid.cpp`: `ComputeArea` is taken as given, as a
function of the reference coordinates that `SetRef_Coord` has stored, one row
per node of the face in face order. -/
structure CElement (K : Type) where
  /-- The area of the face whose node coordinates were stored. -/
  ComputeArea : List (List K) → K

/-- A value of type `su2double` that may be undefined: `none` is the result
of a division by zero and of every operation on such a result. -/
abbrev Val (K : Type) := Option K

/-- Guarded division: undefined when the divisor is zero. -/
def Val.div {K : Type} [LinearOrderedField K] (x y : Val K) : Val K :=
  x.bind fun a => y.bind fun b => if b = 0 then none else some (a / b)

/-- Addition of possibly undefined values. -/
def Val.add {K : Type} [LinearOrderedField K] (x y : Val K) : Val K :=
  x.bind fun a => y.bind fun b => some (a + b)

/-- Multiplication of possibly undefined values. -/
def Val.mul {K : Type} [LinearOrderedField K] (x y : Val K) : Val K :=
  x.bind fun a => y.bind fun b => some (a * b)

/-- The call `pow(x, 2.0)` on a possibly undefined value. -/
def Val.sq {K : Type} [LinearOrderedField K] (x : Val K) : Val K :=
  x.bind fun a => some (a ^ 2)

/-- The read `p[iFace][iDim]` of a two-level array. -/
def read2 {α : Type} (dflt : α) (rows : List (List α)) (iFace iDim : Nat) : α :=
  (rows.getD iFace []).getD iDim dflt

/-- The write `p[iFace][iDim] = v` into a two-level array. -/
def write2 {α : Type} (rows : List (List α)) (iFace iDim : Nat) (v : α) : List (List α) :=
  rows.set iFace ((rows.getD iFace []).set iDim v)

/-- The first loop nest of `SetCoord_CG` (face centroids), run on the storage
`Coord_FaceElems_CG`. -/
def faceCentroidLoop {K : Type} [LinearOrderedField K] (nDim : Nat) (T : Topology)
    (val_coord : Nat → Nat → K) (Coord_FaceElems_CG : List (List K)) : List (List K) :=
  forLoop T.GetnFaces (fun iFace cg =>
    forLoop nDim (fun iDim cg =>
      let cg := write2 cg iFace iDim 0
      forLoop (T.GetnNodesFace iFace) (fun iNode cg =>
        let NodeFace := T.GetFaces iFace iNode
        write2 cg iFace iDim
          (read2 0 cg iFace iDim + val_coord NodeFace iDim / (T.GetnNodesFace iFace : K))) cg) cg)
    Coord_FaceElems_CG

/-- The table `elements` of `SetCoord_CG`: two null pointers, replaced by a
`CTRIA1` and a `CQUAD4` object when `nDim == 3`. -/
def elementTable {K : Type} (CTRIA1 CQUAD4 : CElement K) (nDim : Nat) : List (Option (CElement K)) :=
  if nDim = 3 then [some CTRIA1, some CQUAD4] else [none, none]

/-- The selection `elements[GetnNodesFace(iFace)-3]` followed by the use of the
selected object: the index is computed in `int`; there is no object to use
when the index is outside the table or the entry is a null pointer. -/
def selectElement {K : Type} (elements : List (Option (CElement K))) (nNodesFace : Nat) :
    Option (CElement K) :=
  let idx : Int := (nNodesFace : Int) - 3
  if 0 ≤ idx then (elements.getD idx.toNat none) else none

/-- The reference coordinates stored by the `SetRef_Coord` loop for face
`iFace`: row `iNode` holds the coordinates of node `GetFaces(iFace, iNode)`. -/
def refCoords {K : Type} (nDim : Nat) (T : Topology) (val_coord : Nat → Nat → K)
    (iFace : Nat) : List (List K) :=
  (List.range (T.GetnNodesFace iFace)).map fun iNode =>
    (List.range nDim).map fun iDim => val_coord (T.GetFaces iFace iNode) iDim

/-- The value assigned to `Area[iFace]` in the second loop of `SetCoord_CG`:
the area from the selected shape object when `nDim == 3`, else the expression
`sqrt(pow(val_coord[1][0]-val_coord[0][0],2)+pow(val_coord[1][1]-val_coord[0][1],2))`.
It is `none` when there is no shape object to call. -/
def faceMeasure {K : Type} [LinearOrderedField K] (sqrt : K → K) (CTRIA1 CQUAD4 : CElement K)
    (nDim : Nat) (T : Topology) (val_coord : Nat → Nat → K) (iFace : Nat) : Option K :=
  if nDim = 3 then
    (selectElement (elementTable CTRIA1 CQUAD4 nDim) (T.GetnNodesFace iFace)).map fun element =>
      element.ComputeArea (refCoords nDim T val_coord iFace)
  else
    some (sqrt ((val_coord 1 0 - val_coord 0 0) ^ 2 + (val_coord 1 1 - val_coord 0 1) ^ 2))

/-- A loop whose body can fail: it stops with `none` at the first failure. -/
def forLoopM {σ : Type} (n : Nat) (body : Nat → σ → Option σ) (init : σ) : Option σ :=
  (List.range n).foldlM (fun s i => body i s) init

/-- The second loop of `SetCoord_CG` on the pair `(Area, MaxArea)`.  Its last
statement, written `MaxArea = max(Area[iFace],MaxArea)` without the closing
semicolon in the source, is the assignment. -/
def areaLoop {K : Type} [LinearOrderedField K] (sqrt : K → K) (CTRIA1 CQUAD4 : CElement K)
    (junkA : Nat → K) (nDim : Nat) (T : Topology) (val_coord : Nat → Nat → K) :
    Option (List K × K) :=
  forLoopM T.GetnFaces (fun iFace (st : List K × K) =>
    (faceMeasure sqrt CTRIA1 CQUAD4 nDim T val_coord iFace).map fun a =>
      let Area := st.1.set iFace a
      (Area, max (Area.getD iFace 0) st.2))
    (newArray junkA T.GetnFaces, 0)

/-- The third loop of `SetCoord_CG` on the pair `(Area, TotalArea)`: every
area is replaced by the square of its quotient by `MaxArea`. -/
def weightLoop {K : Type} [LinearOrderedField K] (nFaces : Nat) (MaxArea : K)
    (Area : List (Val K)) : List (Val K) × Val K :=
  forLoop nFaces (fun iFace (st : List (Val K) × Val K) =>
    let Area := st.1.set iFace (Val.sq (Val.div (st.1.getD iFace none) (some MaxArea)))
    (Area, Val.add st.2 (Area.getD iFace none)))
    (Area, some 0)

/-- The last loop nest of `SetCoord_CG`, run on the storage `Coord_CG`. -/
def centroidLoop {K : Type} [LinearOrderedField K] (nDim nFaces : Nat)
    (Coord_FaceElems_CG : List (List K)) (Area : List (Val K)) (TotalArea : Val K)
    (Coord_CG : List (Val K)) : List (Val K) :=
  forLoop nDim (fun iDim cg =>
    let cg := cg.set iDim (some 0)
    forLoop nFaces (fun iFace cg =>
      cg.set iDim (Val.add (cg.getD iDim none)
        (Val.div (Val.mul (some (read2 0 Coord_FaceElems_CG iFace iDim)) (Area.getD iFace none))
          TotalArea))) cg)
    Coord_CG

/-- Every slot that `SetCoord_CG` writes exists: `Coord_CG[iDim]` for
`iDim < nDim` and `Coord_FaceElems_CG[iFace][iDim]` for `iFace < nFaces`,
`iDim < nDim` (a null pointer has no slot). -/
def storageAllocated {K : Type} (nDim nFaces : Nat) (s : CPrimalGrid K) : Bool :=
  decide (nDim ≤ (s.Coord_CG.getD []).length) &&
    (List.range nFaces).all fun iFace =>
      decide (nDim ≤ ((s.Coord_FaceElems_CG.getD []).getD iFace []).length)

/-- The function `CPrimalGrid::SetCoord_CG(val_coord)`.  The result is `none`
when the source has undefined behaviour: a write to a slot that does not exist
or a call through a shape object that does not exist.  The calls to `AD::`
record the computation and do not change it. -/
def SetCoord_CG {K : Type} [LinearOrderedField K] (sqrt : K → K) (CTRIA1 CQUAD4 : CElement K)
    (junkA : Nat → K) (nDim : Nat) (T : Topology) (val_coord : Nat → Nat → K)
    (s : CPrimalGrid K) : Option (CPrimalGrid K) :=
  if storageAllocated nDim T.GetnFaces s then
    let Coord_FaceElems_CG := s.Coord_FaceElems_CG.map (faceCentroidLoop nDim T val_coord)
    (areaLoop sqrt CTRIA1 CQUAD4 junkA nDim T val_coord).map fun st =>
      let MaxArea := st.2
      let w := weightLoop T.GetnFaces MaxArea (st.1.map some)
      { s with
        Coord_FaceElems_CG := Coord_FaceElems_CG
        Coord_CG := s.Coord_CG.map
          (centroidLoop nDim T.GetnFaces (Coord_FaceElems_CG.getD []) w.1 w.2) }
  else none

/-- The arithmetic mean of a list of values. -/
def mean {K : Type} [LinearOrderedField K] (xs : List K) : K :=
  xs.sum / (xs.length : K)

/-- The coordinates in dimension `iDim` of the nodes
`GetFaces(iFace, 0), …, GetFaces(iFace, GetnNodesFace(iFace)-1)` of a face. -/
def faceNodeCoords {K : Type} (T : Topology) (val_coord : Nat → Nat → K) (iFace iDim : Nat) :
    List K :=
  (List.range (T.GetnNodesFace iFace)).map fun iNode => val_coord (T.GetFaces iFace iNode) iDim

/-- The adjacency arrays `Neighbor_Elements`, `ElementOwnsFace` and
`PeriodIndexNeighbors` are all absent, or all present with one common length. -/
def AdjacencyConsistent {K : Type} (s : CPrimalGrid K) : Prop :=
  (s.Neighbor_Elements = none ∧ s.ElementOwnsFace = none ∧ s.PeriodIndexNeighbors = none) ∨
  ∃ N O P, s.Neighbor_Elements = some N ∧ s.ElementOwnsFace = some O ∧
    s.PeriodIndexNeighbors = some P ∧ N.length = O.length ∧ O.length = P.length

/-! ### `CNEMOCompOutput` -/

/-- The enumeration of the time-marching schemes, declared outside
`CNEMOCompOutput.cpp`: the value `STEADY` and the other values. -/
inductive TIME_MARCHING where
  | STEADY
  | unsteady (kind : Nat)
  deriving DecidableEq

/-- The options of `CConfig` that `CNEMOCompOutput.cpp` reads in the embedded
functions: `GetFixed_CL_Mode()`, `GetTime_Marching()`, `GetnInner_Iter()`. -/
structure CConfig where
  /-- Result of `GetFixed_CL_Mode()`. -/
  Fixed_CL_Mode : Bool
  /-- Result of `GetTime_Marching()`. -/
  Time_Marching : TIME_MARCHING
  /-- Result of `GetnInner_Iter()`. -/
  nInner_Iter : Nat

/-- The members of `CNEMOCompOutput` (inherited from `COutput`) that the
embedded functions read or write. -/
structure CNEMOCompOutput (K : Type) where
  /-- Member `vector<string> convFields`. -/
  convFields : List String
  /-- Member `vector<su2double> newFunc`. -/
  newFunc : List K
  /-- Member `vector<su2double> oldFunc`. -/
  oldFunc : List K
  /-- Member `vector<vector<su2double>> cauchySerie`. -/
  cauchySerie : List (List K)
  /-- Member `nCauchy_Elems`. -/
  nCauchy_Elems : Nat
  /-- Member `curInnerIter`. -/
  curInnerIter : Nat
  /-- Member `convergence`. -/
  convergence : Bool

/-- The function `CNEMOCompOutput::SetInit_Residuals(config)`. -/
def CNEMOCompOutput.SetInit_Residuals {K : Type} (o : CNEMOCompOutput K) (config : CConfig) :
    Bool :=
  (config.Time_Marching != TIME_MARCHING.STEADY && (o.curInnerIter == 0)) ||
    (config.Time_Marching == TIME_MARCHING.STEADY && decide (o.curInnerIter < 2))

/-- The function `CNEMOCompOutput::SetUpdate_Averages(config)`; the difference
`GetnInner_Iter() - 1` is taken in the unsigned arithmetic of `unsigned long`
(64 bits). -/
def CNEMOCompOutput.SetUpdate_Averages {K : Type} (o : CNEMOCompOutput K) (config : CConfig) :
    Bool :=
  config.Time_Marching != TIME_MARCHING.STEADY &&
    (o.curInnerIter == (config.nInner_Iter + 2 ^ 64 - 1) % 2 ^ 64 || o.convergence)

/-! ### Data of the worked examples -/

/-- An element that stores the donor ranks `4` and `7`. -/
def twoDonors : CPrimalGrid ℚ :=
  { CPrimalGrid.new ℚ with
    nProcElemIsOnlyInterpolDonor := 2
    ProcElemIsOnlyInterpolDonor := some [4, 7] }

/-- An element whose donor counter has its largest value: it stores the
`65535` ranks `0, …, 65534`. -/
def fullDonors : CPrimalGrid ℚ :=
  { CPrimalGrid.new ℚ with
    nProcElemIsOnlyInterpolDonor := 65535
    ProcElemIsOnlyInterpolDonor := some (List.range 65535) }

/-- The topology of a triangle: three nodes, three faces, face `f` joins the
nodes `f` and `f+1` (the last one joins node `2` and node `0`). -/
def triangle : Topology where
  GetnNodes := 3
  GetnFaces := 3
  GetnNodesFace := fun _ => 2
  GetFaces := fun iFace iNode => ([[0, 1], [1, 2], [2, 0]].getD iFace []).getD iNode 0

/-- Node coordinates given as a table, one row per node. -/
def coordTable {K : Type} [LinearOrderedField K] (rows : List (List K)) : Nat → Nat → K :=
  fun iNode iDim => (rows.getD iNode []).getD iDim 0

/-- An element whose centroid storage is allocated for `nFaces` faces in
`nDim` dimensions, with arbitrary contents. -/
def withCentroidStorage (K : Type) [LinearOrderedField K] (nDim nFaces : Nat) : CPrimalGrid K :=
  { CPrimalGrid.new K with
    Coord_CG := some (List.replicate nDim none)
    Coord_FaceElems_CG := some (List.replicate nFaces (List.replicate nDim 7)) }

/-- The topology of a quadrilateral: four nodes, four faces, face `f` joins
the consecutive nodes `f` and `f+1` (the last one joins node `3` and node `0`). -/
def quadrilateral : Topology where
  GetnNodes := 4
  GetnFaces := 4
  GetnNodesFace := fun _ => 2
  GetFaces := fun iFace iNode => ([[0, 1], [1, 2], [2, 3], [3, 0]].getD iFace []).getD iNode 0

/-- The topology of a tetrahedron: four nodes, four faces of three nodes. -/
def tetrahedron : Topology where
  GetnNodes := 4
  GetnFaces := 4
  GetnNodesFace := fun _ => 3
  GetFaces := fun iFace iNode =>
    ([[0, 2, 1], [0, 1, 3], [0, 3, 2], [1, 2, 3]].getD iFace []).getD iNode 0

/-- A shape object for the examples in three dimensions: the area of the
triangle whose three nodes are the first three rows, half the norm of the
cross product of two edge vectors. -/
def triangleArea {K : Type} [LinearOrderedField K] (sqrt : K → K) : CElement K where
  ComputeArea := fun rows =>
    let p : Nat → Nat → K := fun i d => (rows.getD i []).getD d 0
    let a : Nat → K := fun d => p 1 d - p 0 d
    let b : Nat → K := fun d => p 2 d - p 0 d
    sqrt ((a 1 * b 2 - a 2 * b 1) ^ 2 + (a 2 * b 0 - a 0 * b 2) ^ 2
      + (a 0 * b 1 - a 1 * b 0) ^ 2) / 2

/-- The topology of an element without faces (one node). -/
def noFaces : Topology where
  GetnNodes := 1
  GetnFaces := 0
  GetnNodesFace := fun _ => 0
  GetFaces := fun _ _ => 0

/-- An output object whose list of convergence fields holds two fields, none
of them `"LIFT"`. -/
def twoConvFields : CNEMOCompOutput ℚ where
  convFields := ["RMS_DENSITY", "DRAG"]
  newFunc := [1, 2]
  oldFunc := [3, 4]
  cauchySerie := [[0], [0]]
  nCauchy_Elems := 1
  curInnerIter := 0
  convergence := false

/-- A shape object whose areas are those of another shape object multiplied
by one factor. -/
def scaledShape {K : Type} [LinearOrderedField K] (factor : K) (element : CElement K) :
    CElement K where
  ComputeArea := fun rows => factor * element.ComputeArea rows

/-- A shape object for the examples in two dimensions, where no shape object
is called. -/
def noShape (K : Type) [LinearOrderedField K] : CElement K where
  ComputeArea := fun _ => 0

/-- The Euclidean distance between the two end nodes `GetFaces(iFace, 0)` and
`GetFaces(iFace, 1)` of a face in two dimensions. -/
def faceLength2D {K : Type} [LinearOrderedField K] (sqrt : K → K) (T : Topology)
    (val_coord : Nat → Nat → K) (iFace : Nat) : K :=
  sqrt ((val_coord (T.GetFaces iFace 1) 0 - val_coord (T.GetFaces iFace 0) 0) ^ 2
    + (val_coord (T.GetFaces iFace 1) 1 - val_coord (T.GetFaces iFace 0) 1) ^ 2)

/-! ## Loops and arrays -/

theorem forLoop_zero {σ : Type} (body : Nat → σ → σ) (init : σ) :
    forLoop 0 body init = init := by
  simp [forLoop]

theorem forLoop_succ {σ : Type} (n : Nat) (body : Nat → σ → σ) (init : σ) :
    forLoop (n + 1) body init = body n (forLoop n body init) := by
  simp [forLoop, List.range_succ, List.foldl_append]

theorem length_newArray {α : Type} (junk : Nat → α) (n : Nat) :
    (newArray junk n).length = n := by
  simp [newArray]

/-- A loop that assigns slot `i` a value computed from `i` and from the value
the slot holds: the first `m` slots hold the new values, the others are
untouched. -/
theorem forLoop_set_read {α : Type} (d : α) (h : Nat → α → α) (a : List α) (m : Nat)
    (hm : m ≤ a.length) :
    forLoop m (fun i t => t.set i (h i (t.getD i d))) a
      = (List.range m).map (fun i => h i (a.getD i d)) ++ a.drop m := by
  induction m with
  | zero => simp [forLoop_zero]
  | succ k ih =>
    have hk : k < a.length := hm
    rw [forLoop_succ, ih (Nat.le_of_lt hk)]
    have hlen : ((List.range k).map (fun i => h i (a.getD i d))).length = k := by simp
    have hdrop : a.drop k = a[k] :: a.drop (k + 1) := List.drop_eq_getElem_cons hk
    have hget : ((List.range k).map (fun i => h i (a.getD i d)) ++ a.drop k).getD k d
        = a.getD k d := by
      rw [List.getD_append_right _ _ _ _ (by simp), hdrop]
      simp [List.getD_eq_getElem _ _ hk]
    rw [hget, List.set_append_right _ _ (by simp), hlen, Nat.sub_self, hdrop, List.set_cons_zero,
      List.range_succ, List.map_append]
    simp

/-- A loop that assigns slot `i` the value `g i`. -/
theorem forLoop_set {α : Type} (g : Nat → α) (a : List α) (m : Nat) (hm : m ≤ a.length) :
    forLoop m (fun i t => t.set i (g i)) a = (List.range m).map g ++ a.drop m := by
  cases a with
  | nil =>
    have : m = 0 := by simpa using hm
    subst this
    simp [forLoop_zero]
  | cons x xs => exact forLoop_set_read x (fun i _ => g i) (x :: xs) m hm

theorem forLoop_set_full {α : Type} (g : Nat → α) (a : List α) :
    forLoop a.length (fun i t => t.set i (g i)) a = (List.range a.length).map g := by
  rw [forLoop_set g a a.length (Nat.le_refl _)]
  simp

theorem range_map_getD {α : Type} (d : α) (a : List α) :
    (List.range a.length).map (fun i => a.getD i d) = a := by
  apply List.ext_getElem
  · simp
  · intro i h1 h2
    simp [List.getElem?_eq_getElem h2]

theorem forLoop_set_const {α : Type} (v : α) (junk : Nat → α) (n : Nat) :
    forLoop n (fun i t => t.set i v) (newArray junk n) = List.replicate n v := by
  have h := forLoop_set_full (fun _ => v) (newArray junk n)
  rw [length_newArray] at h
  rw [h]
  apply List.ext_getElem <;> simp

theorem length_forLoop_set {α : Type} (d : α) (h : Nat → α → α) (a : List α) (m : Nat) :
    (forLoop m (fun i t => t.set i (h i (t.getD i d))) a).length = a.length := by
  induction m with
  | zero => rw [forLoop_zero]
  | succ k ih => rw [forLoop_succ, List.length_set, ih]

/-- The loop of `forLoop_set_read` without a bound on the number of rounds: a
round whose slot does not exist changes nothing. -/
theorem forLoop_set_read_min {α : Type} (d : α) (h : Nat → α → α) (a : List α) (m : Nat) :
    forLoop m (fun i t => t.set i (h i (t.getD i d))) a
      = (List.range (min m a.length)).map (fun i => h i (a.getD i d))
          ++ a.drop (min m a.length) := by
  induction m with
  | zero => simp [forLoop_zero]
  | succ k ih =>
    rcases Nat.lt_or_ge k a.length with hk | hk
    · rw [Nat.min_eq_left (Nat.succ_le_of_lt hk)]
      exact forLoop_set_read d h a (k + 1) hk
    · rw [forLoop_succ, List.set_eq_of_length_le (by rw [length_forLoop_set]; exact hk), ih,
        Nat.min_eq_right hk, Nat.min_eq_right (Nat.le_succ_of_le hk)]

theorem set_getD_self {α : Type} (a : List α) (i : Nat) (d : α) : a.set i (a.getD i d) = a := by
  induction a generalizing i with
  | nil => rfl
  | cons x xs ih =>
    cases i with
    | zero => rfl
    | succ j =>
      show x :: xs.set j (xs.getD j d) = x :: xs
      rw [ih]

theorem getD_set_self {α : Type} (a : List α) (i : Nat) (v d : α) (hi : i < a.length) :
    (a.set i v).getD i d = v := by
  rw [List.getD_eq_getElem _ _ (by simpa using hi)]
  simp

/-- A loop that rewrites one row of a two-level array is the loop on that row. -/
theorem forLoop_row {α : Type} (f : Nat) (g : Nat → List α → List α) (n : Nat)
    (cg : List (List α)) :
    forLoop n (fun i c => c.set f (g i (c.getD f []))) cg
      = cg.set f (forLoop n g (cg.getD f [])) := by
  induction n with
  | zero => rw [forLoop_zero, forLoop_zero, set_getD_self]
  | succ k ih =>
    rw [forLoop_succ, forLoop_succ, ih]
    rcases Nat.lt_or_ge f cg.length with hf | hf
    · rw [getD_set_self _ _ _ _ hf, List.set_set]
    · rw [List.set_eq_of_length_le hf, List.set_eq_of_length_le hf, List.set_eq_of_length_le hf]

/-- A loop that adds the terms `x 0, …, x (k-1)` to one slot of an array. -/
theorem forLoop_accumulate {K : Type} [LinearOrderedField K] (d : Nat) (x : Nat → K) (k : Nat)
    (r : List K) :
    forLoop k (fun i t => t.set d (t.getD d 0 + x i)) r
      = r.set d (r.getD d 0 + ((List.range k).map x).sum) := by
  induction k with
  | zero =>
    rw [forLoop_zero, List.range_zero, List.map_nil, List.sum_nil, add_zero, set_getD_self]
  | succ j ih =>
    rw [forLoop_succ, ih]
    rcases Nat.lt_or_ge d r.length with hd | hd
    · rw [getD_set_self _ _ _ _ hd, List.set_set, List.range_succ, List.map_append,
        List.sum_append, add_assoc]
      simp
    · rw [List.set_eq_of_length_le hd, List.set_eq_of_length_le hd, List.set_eq_of_length_le hd]

theorem sum_map_div {K : Type} [LinearOrderedField K] (xs : List K) (c : K) :
    (xs.map (fun x => x / c)).sum = xs.sum / c := by
  induction xs with
  | nil => simp
  | cons x xs ih => simp [ih, add_div]

/-- A loop that updates one slot of an array from the value the slot holds is
the loop on that value. -/
theorem forLoop_slot {α : Type} (d : Nat) (z : α) (op : Nat → α → α) (k : Nat) (r : List α) :
    forLoop k (fun i t => t.set d (op i (t.getD d z))) r
      = r.set d (forLoop k op (r.getD d z)) := by
  induction k with
  | zero => rw [forLoop_zero, forLoop_zero, set_getD_self]
  | succ j ih =>
    rw [forLoop_succ, forLoop_succ, ih]
    rcases Nat.lt_or_ge d r.length with hd | hd
    · rw [getD_set_self _ _ _ _ hd, List.set_set]
    · rw [List.set_eq_of_length_le hd, List.set_eq_of_length_le hd, List.set_eq_of_length_le hd]

theorem forLoopM_zero {σ : Type} (body : Nat → σ → Option σ) (init : σ) :
    forLoopM 0 body init = some init := by
  simp [forLoopM]

theorem forLoopM_succ {σ : Type} (n : Nat) (body : Nat → σ → Option σ) (init : σ) :
    forLoopM (n + 1) body init = (forLoopM n body init).bind (body n) := by
  simp [forLoopM, List.range_succ, List.foldlM_append]

/-- A loop whose body does not fail in any of its rounds is the loop without
failure. -/
theorem forLoopM_some {σ : Type} (n : Nat) (body : Nat → σ → Option σ) (step : Nat → σ → σ)
    (init : σ) (h : ∀ i, i < n → ∀ st, body i st = some (step i st)) :
    forLoopM n body init = some (forLoop n step init) := by
  induction n with
  | zero => rw [forLoopM_zero, forLoop_zero]
  | succ k ih =>
    rw [forLoopM_succ, ih (fun i hi => h i (Nat.lt_succ_of_lt hi)), forLoop_succ]
    exact h k (Nat.lt_succ_self k) _

/-- A loop that fails in one of its rounds fails. -/
theorem forLoopM_none {σ : Type} (n : Nat) (body : Nat → σ → Option σ) (init : σ) (i : Nat)
    (hi : i < n) (h : ∀ st, body i st = none) : forLoopM n body init = none := by
  induction n with
  | zero => exact absurd hi (Nat.not_lt_zero i)
  | succ k ih =>
    rw [forLoopM_succ]
    rcases Nat.lt_succ_iff_lt_or_eq.mp hi with h1 | h1
    · rw [ih h1]
      rfl
    · subst h1
      cases hres : forLoopM i body init with
      | none => rfl
      | some st => exact h st

theorem forLoop_congr {σ : Type} (n : Nat) (b1 b2 : Nat → σ → σ) (init : σ)
    (h : ∀ i, i < n → ∀ st, b1 i st = b2 i st) : forLoop n b1 init = forLoop n b2 init := by
  induction n with
  | zero => rw [forLoop_zero, forLoop_zero]
  | succ k ih =>
    rw [forLoop_succ, forLoop_succ, ih (fun i hi => h i (Nat.lt_succ_of_lt hi))]
    exact h k (Nat.lt_succ_self k) _

theorem getD_map_range {α : Type} (g : Nat → α) (k f : Nat) (d : α) (h : f < k) :
    ((List.range k).map g).getD f d = g f := by
  rw [List.getD_eq_getElem _ _ (by simpa using h)]
  simp

/-! ## Adjacency arrays -/

theorem forLoop_triple {α β γ : Type} (x : α) (y : β) (z : γ) (n : Nat)
    (A : List α) (B : List β) (C : List γ) :
    forLoop n (fun i (a : List α × List β × List γ) =>
        (a.1.set i x, a.2.1.set i y, a.2.2.set i z)) (A, B, C)
      = (forLoop n (fun i t => t.set i x) A, forLoop n (fun i t => t.set i y) B,
          forLoop n (fun i t => t.set i z) C) := by
  induction n with
  | zero => simp [forLoop_zero]
  | succ k ih => simp [forLoop_succ, ih]

theorem InitializeNeighbors_eq {K : Type} (junkN : Nat → Int) (junkO : Nat → Bool)
    (junkP : Nat → Int) (n : Nat) (s : CPrimalGrid K) :
    InitializeNeighbors junkN junkO junkP n s =
      { s with
        Neighbor_Elements := some (List.replicate n (-1))
        ElementOwnsFace := some (List.replicate n false)
        PeriodIndexNeighbors := some (List.replicate n (-1)) } := by
  simp only [InitializeNeighbors, forLoop_triple, forLoop_set_const]

/-- Claim C1: after `InitializeNeighbors(n)` the arrays `Neighbor_Elements`,
`ElementOwnsFace` and `PeriodIndexNeighbors` are allocated with exactly `n`
entries each, and for every face index `f < n` they hold `-1`, `false` and
`-1`, whatever the fresh storage contained. -/
theorem InitializeNeighbors_entries {K : Type} (junkN : Nat → Int) (junkO : Nat → Bool)
    (junkP : Nat → Int) (n : Nat) (s : CPrimalGrid K) :
    ∃ N O P,
      (InitializeNeighbors junkN junkO junkP n s).Neighbor_Elements = some N ∧
      (InitializeNeighbors junkN junkO junkP n s).ElementOwnsFace = some O ∧
      (InitializeNeighbors junkN junkO junkP n s).PeriodIndexNeighbors = some P ∧
      N.length = n ∧ O.length = n ∧ P.length = n ∧
      ∀ f, f < n → N[f]? = some (-1) ∧ O[f]? = some false ∧ P[f]? = some (-1) := by
  refine ⟨List.replicate n (-1), List.replicate n false, List.replicate n (-1), ?_⟩
  rw [InitializeNeighbors_eq]
  refine ⟨rfl, rfl, rfl, by simp, by simp, by simp, ?_⟩
  intro f hf
  simp [List.getElem?_replicate, hf]

/-! ## The interpolation-donor set -/

theorem search_loop (p : Option (List Nat)) (r : Nat) (n : Nat) :
    forLoop n (fun iProc (found : Bool) => if readProc p iProc = r then true else found) false
        = true ↔ ∃ i, i < n ∧ readProc p i = r := by
  induction n with
  | zero => simp [forLoop_zero]
  | succ k ih =>
    rw [forLoop_succ]
    by_cases hk : readProc p k = r
    · simp only [hk, if_true, true_iff]
      exact ⟨k, Nat.lt_succ_self k, hk⟩
    · simp only [hk, if_false, ih]
      constructor
      · rintro ⟨i, hi, h⟩
        exact ⟨i, Nat.lt_succ_of_lt hi, h⟩
      · rintro ⟨i, hi, h⟩
        rcases Nat.lt_succ_iff_lt_or_eq.mp hi with h1 | h1
        · exact ⟨i, h1, h⟩
        · subst h1
          exact absurd h hk

/-- The number of stored ranks of a well-formed donor set is its counter. -/
theorem length_donors {K : Type} (s : CPrimalGrid K) (h : DonorWF s) :
    (donors s).length = s.nProcElemIsOnlyInterpolDonor := by
  unfold donors
  rw [List.length_take]
  exact Nat.min_eq_left h

theorem range_map_readProc {K : Type} (s : CPrimalGrid K) (h : DonorWF s) :
    (List.range s.nProcElemIsOnlyInterpolDonor).map (readProc s.ProcElemIsOnlyInterpolDonor)
      = donors s := by
  have h1 := range_map_getD 0 (donors s)
  rw [length_donors s h] at h1
  rw [← h1]
  apply List.map_congr_left
  intro i hi
  have hi2 : i < s.nProcElemIsOnlyInterpolDonor := List.mem_range.mp hi
  unfold readProc donors
  rw [List.getD_eq_getElem?_getD, List.getD_eq_getElem?_getD, List.getElem?_take_of_lt hi2]

theorem mem_donors_iff {K : Type} (s : CPrimalGrid K) (h : DonorWF s) (r : Nat) :
    r ∈ donors s ↔
      ∃ i, i < s.nProcElemIsOnlyInterpolDonor ∧ readProc s.ProcElemIsOnlyInterpolDonor i = r := by
  rw [← range_map_readProc s h, List.mem_map]
  constructor
  · rintro ⟨i, hi, h1⟩
    exact ⟨i, List.mem_range.mp hi, h1⟩
  · rintro ⟨i, hi, h1⟩
    exact ⟨i, List.mem_range.mpr hi, h1⟩

/-- The array that `AddProcElemIsOnlyInterpolDonor` builds when the rank is
new: the old ranks followed by the new one. -/
theorem realloc_eq {K : Type} (junk : Nat → Nat) (r : Nat) (s : CPrimalGrid K) (h : DonorWF s) :
    (if s.nProcElemIsOnlyInterpolDonor ≠ 0 then
        forLoop s.nProcElemIsOnlyInterpolDonor
          (fun iProc (a : List Nat) => a.set iProc
            ((forLoop s.nProcElemIsOnlyInterpolDonor
              (fun iProc (t : List Nat) =>
                t.set iProc (readProc s.ProcElemIsOnlyInterpolDonor iProc))
              (newArray junk s.nProcElemIsOnlyInterpolDonor)).getD iProc 0))
          (newArray junk (s.nProcElemIsOnlyInterpolDonor + 1))
      else newArray junk 1).set s.nProcElemIsOnlyInterpolDonor r
      = donors s ++ [r] := by
  have hlen : (donors s).length = s.nProcElemIsOnlyInterpolDonor := length_donors s h
  by_cases hn : s.nProcElemIsOnlyInterpolDonor = 0
  · have hd : donors s = [] := by
      apply List.eq_nil_of_length_eq_zero
      rw [hlen, hn]
    simp [hn, hd, newArray, List.range_succ]
  · rw [if_pos hn]
    have htmp : forLoop s.nProcElemIsOnlyInterpolDonor
        (fun iProc (t : List Nat) => t.set iProc (readProc s.ProcElemIsOnlyInterpolDonor iProc))
        (newArray junk s.nProcElemIsOnlyInterpolDonor) = donors s := by
      have h1 := forLoop_set_full (readProc s.ProcElemIsOnlyInterpolDonor)
        (newArray junk s.nProcElemIsOnlyInterpolDonor)
      rw [length_newArray] at h1
      rw [h1, range_map_readProc s h]
    rw [htmp, forLoop_set (fun i => (donors s).getD i 0) _ _ (by simp [length_newArray])]
    have hcopy : (List.range s.nProcElemIsOnlyInterpolDonor).map (fun i => (donors s).getD i 0)
        = donors s := by
      rw [← hlen]
      exact range_map_getD 0 _
    rw [hcopy]
    have hdrop : (newArray junk (s.nProcElemIsOnlyInterpolDonor + 1)).drop
        s.nProcElemIsOnlyInterpolDonor = [junk s.nProcElemIsOnlyInterpolDonor] := by
      simp [newArray, List.range_succ]
    rw [hdrop, List.set_append_right _ _ (by simp [hlen]), hlen, Nat.sub_self]
    rfl

/-- The effect of `AddProcElemIsOnlyInterpolDonor` on a well-formed donor set:
the array holds the old ranks followed by the new one and the counter is
incremented modulo `2^16`. -/
theorem Add_eq {K : Type} (junk : Nat → Nat) (r : Nat) (s : CPrimalGrid K) (h : DonorWF s) :
    AddProcElemIsOnlyInterpolDonor junk r s =
      if r ∈ donors s then s
      else { s with
        ProcElemIsOnlyInterpolDonor := some (donors s ++ [r])
        nProcElemIsOnlyInterpolDonor := (s.nProcElemIsOnlyInterpolDonor + 1) % 65536 } := by
  unfold AddProcElemIsOnlyInterpolDonor
  by_cases hr : r ∈ donors s
  · have h1 := (search_loop s.ProcElemIsOnlyInterpolDonor r s.nProcElemIsOnlyInterpolDonor).mpr
      ((mem_donors_iff s h r).mp hr)
    simp only [h1, if_pos hr]
    rfl
  · have h1 : forLoop s.nProcElemIsOnlyInterpolDonor
        (fun iProc (found : Bool) =>
          if readProc s.ProcElemIsOnlyInterpolDonor iProc = r then true else found) false
        = false := by
      rw [← Bool.not_eq_true]
      intro h2
      exact hr ((mem_donors_iff s h r).mpr
        ((search_loop s.ProcElemIsOnlyInterpolDonor r s.nProcElemIsOnlyInterpolDonor).mp h2))
    simp only [h1, if_neg hr]
    have h3 := realloc_eq junk r s h
    simp only [Bool.not_false, if_true]
    rw [h3]

theorem Add_wf {K : Type} (junk : Nat → Nat) (r : Nat) (s : CPrimalGrid K) (h : DonorWF s) :
    DonorWF (AddProcElemIsOnlyInterpolDonor junk r s) := by
  rw [Add_eq junk r s h]
  by_cases hr : r ∈ donors s
  · rw [if_pos hr]
    exact h
  · rw [if_neg hr]
    have hlen : (donors s).length = s.nProcElemIsOnlyInterpolDonor := length_donors s h
    have hle : (s.nProcElemIsOnlyInterpolDonor + 1) % 65536
        ≤ (donors s ++ [r]).length := by
      rw [List.length_append, hlen]
      exact Nat.mod_le _ _
    exact hle

/-- The donor list after one call: unchanged when the rank is stored; the old
ranks followed by the new one, cut at the incremented counter, when it is
not. -/
theorem donors_Add {K : Type} (junk : Nat → Nat) (r : Nat) (s : CPrimalGrid K) (h : DonorWF s) :
    donors (AddProcElemIsOnlyInterpolDonor junk r s) =
      if r ∈ donors s then donors s
      else (donors s ++ [r]).take ((s.nProcElemIsOnlyInterpolDonor + 1) % 65536) := by
  rw [Add_eq junk r s h]
  by_cases hr : r ∈ donors s
  · rw [if_pos hr, if_pos hr]
  · rw [if_neg hr, if_neg hr]
    rfl

/-- Below the largest value of the counter a new rank is appended. -/
theorem donors_Add_of_lt {K : Type} (junk : Nat → Nat) (r : Nat) (s : CPrimalGrid K)
    (h : DonorWF s) (hn : s.nProcElemIsOnlyInterpolDonor < 65535) :
    donors (AddProcElemIsOnlyInterpolDonor junk r s) =
      if r ∈ donors s then donors s else donors s ++ [r] := by
  rw [donors_Add junk r s h]
  by_cases hr : r ∈ donors s
  · rw [if_pos hr, if_pos hr]
  · rw [if_neg hr, if_neg hr]
    have hmod : (s.nProcElemIsOnlyInterpolDonor + 1) % 65536
        = s.nProcElemIsOnlyInterpolDonor + 1 := Nat.mod_eq_of_lt (by omega)
    rw [hmod]
    apply List.take_of_length_le
    rw [List.length_append, length_donors s h]
    exact Nat.le_refl _

/-- At the largest value of the counter a new rank makes the counter wrap: the
counter is `0` and no rank is stored any more. -/
theorem Add_wrap {K : Type} (junk : Nat → Nat) (r : Nat) (s : CPrimalGrid K)
    (h : DonorWF s) (hn : s.nProcElemIsOnlyInterpolDonor = 65535) (hr : r ∉ donors s) :
    (AddProcElemIsOnlyInterpolDonor junk r s).nProcElemIsOnlyInterpolDonor = 0 ∧
    donors (AddProcElemIsOnlyInterpolDonor junk r s) = [] := by
  have hc : (AddProcElemIsOnlyInterpolDonor junk r s).nProcElemIsOnlyInterpolDonor = 0 := by
    rw [Add_eq junk r s h, if_neg hr]
    show (s.nProcElemIsOnlyInterpolDonor + 1) % 65536 = 0
    rw [hn]
  refine ⟨hc, ?_⟩
  unfold donors
  rw [hc, List.take_zero]

theorem new_wf (K : Type) : DonorWF (CPrimalGrid.new K) := Nat.le_refl 0

theorem donors_new (K : Type) : donors (CPrimalGrid.new K) = [] := rfl

theorem addAll_wf {K : Type} (junk : Nat → Nat) (ranks : List Nat) (s : CPrimalGrid K)
    (h : DonorWF s) : DonorWF (addAll junk ranks s) := by
  induction ranks generalizing s with
  | nil => exact h
  | cons x xs ih => exact ih _ (Add_wf junk x s h)

theorem mem_keepFirst (ranks : List Nat) (y : Nat) : y ∈ keepFirst ranks ↔ y ∈ ranks := by
  induction ranks with
  | nil => simp [keepFirst]
  | cons x xs ih =>
    simp only [keepFirst, List.mem_cons, List.mem_filter, ih, decide_eq_true_eq]
    constructor
    · rintro (h | ⟨h, _⟩)
      · exact Or.inl h
      · exact Or.inr h
    · intro h
      by_cases hx : y = x
      · exact Or.inl hx
      · rcases h with h | h
        · exact Or.inl h
        · exact Or.inr ⟨h, hx⟩

theorem nodup_keepFirst (ranks : List Nat) : (keepFirst ranks).Nodup := by
  induction ranks with
  | nil => simp [keepFirst]
  | cons x xs ih =>
    simp only [keepFirst, List.nodup_cons, List.mem_filter, decide_eq_true_eq]
    exact ⟨fun h => h.2 rfl, ih.filter _⟩

theorem length_keepFirst (ranks : List Nat) : (keepFirst ranks).length = ranks.toFinset.card := by
  rw [← List.toFinset_card_of_nodup (nodup_keepFirst ranks)]
  congr 1
  ext y
  simp [mem_keepFirst]

/-- The new ranks of a sequence whose first rank is stored already. -/
theorem newRanks_cons_mem (D : List Nat) (x : Nat) (xs : List Nat) (hx : x ∈ D) :
    (keepFirst (x :: xs)).filter (fun y => decide (y ∉ D))
      = (keepFirst xs).filter (fun y => decide (y ∉ D)) := by
  simp only [keepFirst, List.filter_cons, hx, not_true_eq_false, decide_False,
    List.filter_filter]
  apply List.filter_congr
  intro y _
  by_cases hy : y ∈ D
  · simp [hy]
  · have hne : y ≠ x := fun e => hy (e ▸ hx)
    simp [hy, hne]

/-- The new ranks of a sequence whose first rank is not stored yet. -/
theorem newRanks_cons_not_mem (D : List Nat) (x : Nat) (xs : List Nat) (hx : x ∉ D) :
    (keepFirst (x :: xs)).filter (fun y => decide (y ∉ D))
      = x :: (keepFirst xs).filter (fun y => decide (y ∉ D ++ [x])) := by
  simp only [keepFirst, List.filter_cons, hx, not_false_eq_true, decide_True, if_true,
    List.filter_filter]
  congr 1
  apply List.filter_congr
  intro y _
  by_cases hy : y ∈ D
  · simp [hy]
  · by_cases hne : y = x
    · simp [hne]
    · simp [hy, hne]

/-- The donor list after a sequence of additions that does not take the
counter beyond `65535`: the old ranks, then the new ranks of the sequence, each
once, in the order of their first occurrence. -/
theorem donors_addAll {K : Type} (junk : Nat → Nat) (ranks : List Nat) (s : CPrimalGrid K)
    (h : DonorWF s)
    (hb : s.nProcElemIsOnlyInterpolDonor
      + ((keepFirst ranks).filter (fun y => decide (y ∉ donors s))).length ≤ 65535) :
    donors (addAll junk ranks s)
      = donors s ++ (keepFirst ranks).filter (fun y => decide (y ∉ donors s)) := by
  induction ranks generalizing s with
  | nil => simp [addAll, keepFirst]
  | cons x xs ih =>
    have hstep : addAll junk (x :: xs) s
        = addAll junk xs (AddProcElemIsOnlyInterpolDonor junk x s) := rfl
    by_cases hx : x ∈ donors s
    · have he : AddProcElemIsOnlyInterpolDonor junk x s = s := by
        rw [Add_eq junk x s h, if_pos hx]
      rw [newRanks_cons_mem _ x xs hx] at hb
      rw [hstep, he, ih s h hb, newRanks_cons_mem _ x xs hx]
    · rw [newRanks_cons_not_mem _ x xs hx, List.length_cons] at hb
      have hlt : s.nProcElemIsOnlyInterpolDonor < 65535 := by omega
      have hd : donors (AddProcElemIsOnlyInterpolDonor junk x s) = donors s ++ [x] := by
        rw [donors_Add_of_lt junk x s h hlt, if_neg hx]
      have hwf := Add_wf junk x s h
      have hc : (AddProcElemIsOnlyInterpolDonor junk x s).nProcElemIsOnlyInterpolDonor
          = s.nProcElemIsOnlyInterpolDonor + 1 := by
        rw [← length_donors _ hwf, hd, List.length_append, length_donors s h]
        rfl
      have hb2 : (AddProcElemIsOnlyInterpolDonor junk x s).nProcElemIsOnlyInterpolDonor
          + ((keepFirst xs).filter (fun y => decide
              (y ∉ donors (AddProcElemIsOnlyInterpolDonor junk x s)))).length ≤ 65535 := by
        rw [hc, hd]
        omega
      rw [hstep, ih _ hwf hb2, hd, newRanks_cons_not_mem _ x xs hx, List.append_assoc]
      rfl

/-- The donor list of the fresh element after a sequence with at most `65535`
distinct ranks. -/
theorem donors_addAll_new (K : Type) (junk : Nat → Nat) (ranks : List Nat)
    (hb : ranks.toFinset.card ≤ 65535) :
    donors (addAll junk ranks (CPrimalGrid.new K)) = keepFirst ranks := by
  have hf : (keepFirst ranks).filter (fun y => decide (y ∉ donors (CPrimalGrid.new K)))
      = keepFirst ranks := by
    rw [donors_new]
    simp
  have hb2 : (CPrimalGrid.new K).nProcElemIsOnlyInterpolDonor
      + ((keepFirst ranks).filter
          (fun y => decide (y ∉ donors (CPrimalGrid.new K)))).length ≤ 65535 := by
    rw [hf, length_keepFirst]
    show 0 + ranks.toFinset.card ≤ 65535
    omega
  rw [donors_addAll junk ranks _ (new_wf K) hb2, hf, donors_new]
  rfl

/-- One call keeps a duplicate-free donor set duplicate-free, also when the
counter wraps. -/
theorem Add_nodup {K : Type} (junk : Nat → Nat) (r : Nat) (s : CPrimalGrid K)
    (h : DonorWF s) (hnd : (donors s).Nodup) :
    (donors (AddProcElemIsOnlyInterpolDonor junk r s)).Nodup := by
  rw [donors_Add junk r s h]
  by_cases hr : r ∈ donors s
  · rw [if_pos hr]
    exact hnd
  · rw [if_neg hr]
    have happ : (donors s ++ [r]).Nodup :=
      List.Nodup.append hnd (List.nodup_singleton r) (by simpa using hr)
    exact happ.sublist (List.take_sublist _ _)

theorem addAll_nodup {K : Type} (junk : Nat → Nat) (ranks : List Nat) (s : CPrimalGrid K)
    (h : DonorWF s) (hnd : (donors s).Nodup) : (donors (addAll junk ranks s)).Nodup := by
  induction ranks generalizing s with
  | nil => exact hnd
  | cons x xs ih => exact ih _ (Add_wf junk x s h) (Add_nodup junk x s h hnd)

theorem fullDonors_count : fullDonors.nProcElemIsOnlyInterpolDonor = 65535 := rfl

theorem fullDonors_array : fullDonors.ProcElemIsOnlyInterpolDonor = some (List.range 65535) := rfl

theorem fullDonors_wf : DonorWF fullDonors := by
  unfold DonorWF
  rw [fullDonors_count, fullDonors_array, Option.getD_some, List.length_range]

theorem donors_fullDonors : donors fullDonors = List.range 65535 := by
  unfold donors
  rw [fullDonors_count, fullDonors_array, Option.getD_some]
  apply List.take_of_length_le
  rw [List.length_range]

theorem not_mem_fullDonors : 65535 ∉ donors fullDonors := by
  rw [donors_fullDonors, List.mem_range]
  exact Nat.lt_irrefl _

/-- The state reached from the fresh element by the additions of the ranks
`0, …, 65534`: these ranks are stored and the counter is `65535`. -/
theorem addAll_range {K : Type} (junk : Nat → Nat) :
    DonorWF (addAll junk (List.range 65535) (CPrimalGrid.new K)) ∧
    (addAll junk (List.range 65535) (CPrimalGrid.new K)).nProcElemIsOnlyInterpolDonor = 65535 ∧
    65535 ∉ donors (addAll junk (List.range 65535) (CPrimalGrid.new K)) := by
  have hcard : (List.range 65535).toFinset.card = 65535 := by
    rw [List.toFinset_card_of_nodup (List.nodup_range 65535), List.length_range]
  have hwf := addAll_wf junk (List.range 65535) _ (new_wf K)
  have hd := donors_addAll_new K junk (List.range 65535) (Nat.le_of_eq hcard)
  refine ⟨hwf, ?_, ?_⟩
  · rw [← length_donors _ hwf, hd, length_keepFirst, hcard]
  · rw [hd, mem_keepFirst, List.mem_range]
    exact Nat.lt_irrefl _

/-- Claim C2: on a donor set that already stores the rank `r`,
`AddProcElemIsOnlyInterpolDonor(r)` changes nothing (the stored ranks, their
count and every other member are as before); in particular, after two
additions of one rank to a freshly constructed element the donor set has
size 1. -/
theorem AddProc_stored_noop {K : Type} (junk : Nat → Nat) (r : Nat) :
    (∀ s : CPrimalGrid K, DonorWF s → r ∈ donors s →
      AddProcElemIsOnlyInterpolDonor junk r s = s) ∧
    (AddProcElemIsOnlyInterpolDonor junk r
        (AddProcElemIsOnlyInterpolDonor junk r (CPrimalGrid.new K))).nProcElemIsOnlyInterpolDonor = 1 ∧
    donors (AddProcElemIsOnlyInterpolDonor junk r
        (AddProcElemIsOnlyInterpolDonor junk r (CPrimalGrid.new K))) = [r] := by
  have h1 := Add_wf junk r _ (new_wf K)
  have hlt : (CPrimalGrid.new K).nProcElemIsOnlyInterpolDonor < 65535 := by
    show 0 < 65535
    omega
  have hd : donors (AddProcElemIsOnlyInterpolDonor junk r (CPrimalGrid.new K)) = [r] := by
    rw [donors_Add_of_lt junk r _ (new_wf K) hlt]
    simp [donors_new]
  have h2 : r ∈ donors (AddProcElemIsOnlyInterpolDonor junk r (CPrimalGrid.new K)) := by
    rw [hd]
    exact List.mem_singleton.mpr rfl
  have he : AddProcElemIsOnlyInterpolDonor junk r
      (AddProcElemIsOnlyInterpolDonor junk r (CPrimalGrid.new K))
      = AddProcElemIsOnlyInterpolDonor junk r (CPrimalGrid.new K) := by
    rw [Add_eq junk r _ h1, if_pos h2]
  refine ⟨?_, ?_, ?_⟩
  · intro s hwf hr
    rw [Add_eq junk r s hwf, if_pos hr]
  · rw [he, ← length_donors _ h1, hd]
    rfl
  · rw [he, hd]

theorem AddProc_stored_noop_witness :
    AddProcElemIsOnlyInterpolDonor (fun _ => 0) 7 twoDonors = twoDonors ∧
    donors (AddProcElemIsOnlyInterpolDonor (fun _ => 0) 7
      (AddProcElemIsOnlyInterpolDonor (fun _ => 0) 7 (CPrimalGrid.new ℚ))) = [7] :=
  ⟨(AddProc_stored_noop (fun _ => 0) 7).1 twoDonors (Nat.le_refl 2) (by decide),
    (AddProc_stored_noop (fun _ => 0) 7).2.2⟩

/-- Claim C3, as amended: on a donor set with `k < 65535` stored ranks that does
not store the rank `r`, `AddProcElemIsOnlyInterpolDonor(r)` yields a donor set
with exactly `k+1` ranks (counter and stored ranks) whose entry of index `k`
is `r`; the array holds the old ranks followed by `r`. -/
theorem AddProc_new_appends {K : Type} (junk : Nat → Nat) (r : Nat) (s : CPrimalGrid K)
    (hwf : DonorWF s) (hk : s.nProcElemIsOnlyInterpolDonor < 65535) (hr : r ∉ donors s) :
    (donors s).length = s.nProcElemIsOnlyInterpolDonor ∧
    (AddProcElemIsOnlyInterpolDonor junk r s).nProcElemIsOnlyInterpolDonor
      = s.nProcElemIsOnlyInterpolDonor + 1 ∧
    (donors (AddProcElemIsOnlyInterpolDonor junk r s)).length = (donors s).length + 1 ∧
    (AddProcElemIsOnlyInterpolDonor junk r s).ProcElemIsOnlyInterpolDonor
      = some (donors s ++ [r]) ∧
    (donors (AddProcElemIsOnlyInterpolDonor junk r s))[s.nProcElemIsOnlyInterpolDonor]? = some r := by
  have hlen : (donors s).length = s.nProcElemIsOnlyInterpolDonor := length_donors s hwf
  have hd := donors_Add_of_lt junk r s hwf hk
  rw [if_neg hr] at hd
  have he := Add_eq junk r s hwf
  rw [if_neg hr] at he
  refine ⟨hlen, ?_, ?_, ?_, ?_⟩
  · rw [he]
    exact Nat.mod_eq_of_lt (by omega)
  · rw [hd]
    simp
  · rw [he]
  · rw [hd, ← hlen]
    simp

theorem AddProc_new_appends_witness :
    (AddProcElemIsOnlyInterpolDonor (fun _ => 0) 9 twoDonors).nProcElemIsOnlyInterpolDonor = 3 ∧
    (AddProcElemIsOnlyInterpolDonor (fun _ => 0) 9 twoDonors).ProcElemIsOnlyInterpolDonor
      = some [4, 7, 9] :=
  ⟨(AddProc_new_appends (fun _ => 0) 9 twoDonors (Nat.le_refl 2) (by decide) (by decide)).2.1,
    (AddProc_new_appends (fun _ => 0) 9 twoDonors (Nat.le_refl 2) (by decide)
      (by decide)).2.2.2.1⟩

/-- Claim C3 as stated fails at `k = 65535`: the donor set that stores the ranks
`0, …, 65534` is well formed and does not store `65535`; after
`AddProcElemIsOnlyInterpolDonor(65535)` the counter is `0`, so the donor set
has no rank instead of `65536` and no entry of index `65535`. -/
theorem AddProc_full_not_appended :
    DonorWF fullDonors ∧ (donors fullDonors).length = 65535 ∧ 65535 ∉ donors fullDonors ∧
    (AddProcElemIsOnlyInterpolDonor (fun _ => 0) 65535 fullDonors).nProcElemIsOnlyInterpolDonor
      = 0 ∧
    (donors (AddProcElemIsOnlyInterpolDonor (fun _ => 0) 65535 fullDonors)).length = 0 ∧
    ¬ ((donors (AddProcElemIsOnlyInterpolDonor (fun _ => 0) 65535 fullDonors)).length
          = (donors fullDonors).length + 1 ∧
        (donors (AddProcElemIsOnlyInterpolDonor (fun _ => 0) 65535 fullDonors))[65535]?
          = some 65535) := by
  have hw := Add_wrap (fun _ => 0) 65535 fullDonors fullDonors_wf fullDonors_count
    not_mem_fullDonors
  refine ⟨fullDonors_wf, ?_, not_mem_fullDonors, hw.1, ?_, ?_⟩
  · rw [donors_fullDonors, List.length_range]
  · rw [hw.2]
    rfl
  · rintro ⟨h1, _⟩
    rw [hw.2, List.length_nil] at h1
    omega

/-- Claim C4, as amended: after `AddProcElemIsOnlyInterpolDonor(r)` on a donor
set that stores `r` or has fewer than `65535` ranks, every rank stored before
is stored at the index it had (the old list is an initial segment of the new
one), and the same holds after any sequence of further additions that does
not take the number of stored ranks beyond `65535`, so that no rank is lost. -/
theorem AddProc_keeps_ranks {K : Type} (junk : Nat → Nat) (r : Nat) (s : CPrimalGrid K)
    (hwf : DonorWF s) :
    (s.nProcElemIsOnlyInterpolDonor < 65535 ∨ r ∈ donors s →
      donors s <+: donors (AddProcElemIsOnlyInterpolDonor junk r s) ∧
      (∀ (i x : Nat), (donors s)[i]? = some x →
        (donors (AddProcElemIsOnlyInterpolDonor junk r s))[i]? = some x)) ∧
    ∀ ranks : List Nat,
      s.nProcElemIsOnlyInterpolDonor
        + ((keepFirst ranks).filter (fun y => decide (y ∉ donors s))).length ≤ 65535 →
      donors s <+: donors (addAll junk ranks s) ∧
      (∀ (i x : Nat), (donors s)[i]? = some x → (donors (addAll junk ranks s))[i]? = some x) ∧
      ∀ x, x ∈ donors s → x ∈ donors (addAll junk ranks s) := by
  have key : ∀ ranks : List Nat,
      s.nProcElemIsOnlyInterpolDonor
        + ((keepFirst ranks).filter (fun y => decide (y ∉ donors s))).length ≤ 65535 →
      ∃ t, donors (addAll junk ranks s) = donors s ++ t :=
    fun ranks hb => ⟨_, donors_addAll junk ranks s hwf hb⟩
  have hget : ∀ (t : List Nat) (i x : Nat), (donors s)[i]? = some x → (donors s ++ t)[i]? = some x := by
    intro t i x hx
    have hi : i < (donors s).length := by
      rcases Nat.lt_or_ge i (donors s).length with h | h
      · exact h
      · rw [List.getElem?_eq_none h] at hx
        cases hx
    rw [List.getElem?_append_left hi]
    exact hx
  have hone : s.nProcElemIsOnlyInterpolDonor < 65535 ∨ r ∈ donors s →
      ∃ t, donors (AddProcElemIsOnlyInterpolDonor junk r s) = donors s ++ t := by
    intro h
    by_cases hr : r ∈ donors s
    · refine ⟨[], ?_⟩
      rw [donors_Add junk r s hwf, if_pos hr, List.append_nil]
    · rcases h with h | h
      · refine ⟨[r], ?_⟩
        rw [donors_Add_of_lt junk r s hwf h, if_neg hr]
      · exact absurd h hr
  refine ⟨?_, ?_⟩
  · intro h
    obtain ⟨t, ht⟩ := hone h
    refine ⟨⟨t, ht.symm⟩, ?_⟩
    intro i x hx
    rw [ht]
    exact hget t i x hx
  · intro ranks hb
    obtain ⟨t, ht⟩ := key ranks hb
    refine ⟨⟨t, ht.symm⟩, ?_, ?_⟩
    · intro i x hx
      rw [ht]
      exact hget t i x hx
    · intro x hx
      rw [ht]
      exact List.mem_append_left t hx

theorem AddProc_keeps_ranks_witness :
    [4, 7] <+: donors (AddProcElemIsOnlyInterpolDonor (fun _ => 0) 9 twoDonors) ∧
    [4, 7] <+: donors (addAll (fun _ => 0) [9, 4, 1, 9] twoDonors) :=
  ⟨((AddProc_keeps_ranks (fun _ => 0) 9 twoDonors (Nat.le_refl 2)).1 (Or.inl (by decide))).1,
    ((AddProc_keeps_ranks (fun _ => 0) 9 twoDonors (Nat.le_refl 2)).2 [9, 4, 1, 9]
      (by decide)).1⟩

/-- Claim C4 as stated fails on the donor set that stores the `65535` ranks
`0, …, 65534`: after `AddProcElemIsOnlyInterpolDonor(65535)` the counter has
wrapped to `0`, the rank `0` stored at index `0` is no longer stored and the
old list is not an initial segment of the new one. -/
theorem AddProc_full_loses_ranks :
    DonorWF fullDonors ∧ (donors fullDonors)[0]? = some 0 ∧
    (donors (AddProcElemIsOnlyInterpolDonor (fun _ => 0) 65535 fullDonors))[0]? = none ∧
    0 ∉ donors (AddProcElemIsOnlyInterpolDonor (fun _ => 0) 65535 fullDonors) ∧
    ¬ (donors fullDonors <+: donors (AddProcElemIsOnlyInterpolDonor (fun _ => 0) 65535 fullDonors)) := by
  have hw := Add_wrap (fun _ => 0) 65535 fullDonors fullDonors_wf fullDonors_count
    not_mem_fullDonors
  refine ⟨fullDonors_wf, ?_, ?_, ?_, ?_⟩
  · rw [donors_fullDonors]
    exact List.getElem?_range (by omega)
  · rw [hw.2]
    rfl
  · rw [hw.2]
    exact List.not_mem_nil 0
  · rw [hw.2, List.prefix_nil]
    intro h
    have h2 := congrArg List.length h
    rw [donors_fullDonors, List.length_range] at h2
    exact absurd h2 (by decide)

/-- Claim C5: the donor set never holds a rank twice: it is empty in the
freshly constructed element, `AddProcElemIsOnlyInterpolDonor` keeps a
well-formed duplicate-free donor set well-formed and duplicate-free, and the
donor set reached from the fresh element by any sequence of additions has
pairwise distinct ranks. -/
theorem donors_nodup (K : Type) (junk : Nat → Nat) :
    donors (CPrimalGrid.new K) = [] ∧
    (∀ (r : Nat) (s : CPrimalGrid K), DonorWF s → (donors s).Nodup →
      DonorWF (AddProcElemIsOnlyInterpolDonor junk r s) ∧
      (donors (AddProcElemIsOnlyInterpolDonor junk r s)).Nodup) ∧
    ∀ ranks : List Nat,
      DonorWF (addAll junk ranks (CPrimalGrid.new K)) ∧
      (donors (addAll junk ranks (CPrimalGrid.new K))).Nodup := by
  refine ⟨rfl, ?_, ?_⟩
  · intro r s hwf hnd
    exact ⟨Add_wf junk r s hwf, Add_nodup junk r s hwf hnd⟩
  · intro ranks
    refine ⟨addAll_wf junk ranks _ (new_wf K), ?_⟩
    apply addAll_nodup junk ranks _ (new_wf K)
    rw [donors_new]
    exact List.nodup_nil

/-- Claim C6, as amended: the donor list of a freshly constructed element after
the additions of a finite sequence with at most `65535` distinct ranks is the
sequence with every repeated occurrence removed (first occurrences kept, in
their order); its length is the number of distinct ranks of the sequence. -/
theorem addAll_eq_keepFirst (K : Type) (junk : Nat → Nat) (ranks : List Nat)
    (hb : ranks.toFinset.card ≤ 65535) :
    donors (addAll junk ranks (CPrimalGrid.new K)) = keepFirst ranks ∧
    (donors (addAll junk ranks (CPrimalGrid.new K))).length = ranks.toFinset.card := by
  have h := donors_addAll_new K junk ranks hb
  exact ⟨h, by rw [h, length_keepFirst]⟩

theorem addAll_eq_keepFirst_witness :
    [9, 4, 9, 1, 4].toFinset.card ≤ 65535 ∧
    donors (addAll (fun _ => 0) [9, 4, 9, 1, 4] (CPrimalGrid.new ℚ)) = [9, 4, 1] :=
  ⟨by decide, (addAll_eq_keepFirst ℚ (fun _ => 0) [9, 4, 9, 1, 4] (by decide)).1.trans
    (by decide)⟩

/-- Claim C6 as stated fails for the sequence `0, 1, …, 65535` of `65536`
distinct ranks: after its additions to the fresh element the counter has
wrapped and the donor list is empty, while the sequence without repeated
occurrences has `65536` entries. -/
theorem addAll_range_wraps :
    donors (addAll (fun _ => 0) (List.range 65536) (CPrimalGrid.new ℚ)) = [] ∧
    (keepFirst (List.range 65536)).length = 65536 ∧
    donors (addAll (fun _ => 0) (List.range 65536) (CPrimalGrid.new ℚ))
      ≠ keepFirst (List.range 65536) := by
  obtain ⟨hwf, hc, hr⟩ := addAll_range (fun (_ : Nat) => (0 : Nat)) (K := ℚ)
  have hstep : addAll (fun _ => 0) (List.range 65536) (CPrimalGrid.new ℚ)
      = AddProcElemIsOnlyInterpolDonor (fun _ => 0) 65535
          (addAll (fun _ => 0) (List.range 65535) (CPrimalGrid.new ℚ)) := by
    have hsucc : List.range 65536 = List.range 65535 ++ [65535] := List.range_succ 65535
    unfold addAll
    rw [hsucc, List.foldl_append, List.foldl_cons, List.foldl_nil]
  have hd : donors (addAll (fun _ => 0) (List.range 65536) (CPrimalGrid.new ℚ)) = [] := by
    rw [hstep]
    exact (Add_wrap (fun _ => 0) 65535 _ hwf hc hr).2
  have hl : (keepFirst (List.range 65536)).length = 65536 := by
    rw [length_keepFirst, List.toFinset_card_of_nodup (List.nodup_range 65536),
      List.length_range]
  refine ⟨hd, hl, ?_⟩
  intro h
  rw [hd] at h
  rw [← h] at hl
  exact absurd hl (by decide)

/-! ## Face centroids -/

/-- The rounds of the first loop nest of `SetCoord_CG` for one face and one
dimension leave the mean of the face's node coordinates in the slot. -/
theorem faceCentroid_slot {K : Type} [LinearOrderedField K] (T : Topology)
    (val_coord : Nat → Nat → K) (iFace iDim : Nat) (r : List K) :
    forLoop (T.GetnNodesFace iFace) (fun iNode t =>
        t.set iDim (t.getD iDim 0
          + val_coord (T.GetFaces iFace iNode) iDim / (T.GetnNodesFace iFace : K)))
        (r.set iDim 0)
      = r.set iDim (mean (faceNodeCoords T val_coord iFace iDim)) := by
  rw [forLoop_accumulate]
  have hsum : ((List.range (T.GetnNodesFace iFace)).map (fun iNode =>
      val_coord (T.GetFaces iFace iNode) iDim / (T.GetnNodesFace iFace : K))).sum
      = mean (faceNodeCoords T val_coord iFace iDim) := by
    unfold mean faceNodeCoords
    rw [← sum_map_div, List.map_map]
    simp [Function.comp_def]
  rw [hsum]
  rcases Nat.lt_or_ge iDim r.length with hd | hd
  · rw [getD_set_self _ _ _ _ hd, List.set_set, zero_add]
  · rw [List.set_eq_of_length_le hd, List.set_eq_of_length_le hd, List.set_eq_of_length_le hd]

/-- The rounds of the first loop nest for one face rewrite the row of the face. -/
theorem faceCentroid_row {K : Type} [LinearOrderedField K] (nDim : Nat) (T : Topology)
    (val_coord : Nat → Nat → K) (iFace : Nat) (cg : List (List K)) :
    forLoop nDim (fun iDim cg =>
      let cg := write2 cg iFace iDim 0
      forLoop (T.GetnNodesFace iFace) (fun iNode cg =>
        let NodeFace := T.GetFaces iFace iNode
        write2 cg iFace iDim
          (read2 0 cg iFace iDim + val_coord NodeFace iDim / (T.GetnNodesFace iFace : K))) cg) cg
      = cg.set iFace
          ((List.range (min nDim (cg.getD iFace []).length)).map
              (fun iDim => mean (faceNodeCoords T val_coord iFace iDim))
            ++ (cg.getD iFace []).drop (min nDim (cg.getD iFace []).length)) := by
  have hbody : (fun iDim (cg : List (List K)) =>
      let cg := write2 cg iFace iDim 0
      forLoop (T.GetnNodesFace iFace) (fun iNode cg =>
        let NodeFace := T.GetFaces iFace iNode
        write2 cg iFace iDim
          (read2 0 cg iFace iDim + val_coord NodeFace iDim / (T.GetnNodesFace iFace : K))) cg)
      = fun iDim (cg : List (List K)) => cg.set iFace
          ((cg.getD iFace []).set iDim (mean (faceNodeCoords T val_coord iFace iDim))) := by
    funext iDim cg
    have h1 := forLoop_row iFace (fun iNode (t : List K) =>
        t.set iDim (t.getD iDim 0
          + val_coord (T.GetFaces iFace iNode) iDim / (T.GetnNodesFace iFace : K)))
        (T.GetnNodesFace iFace) (write2 cg iFace iDim 0)
    simp only [write2, read2] at h1 ⊢
    rw [h1]
    rcases Nat.lt_or_ge iFace cg.length with hf | hf
    · rw [getD_set_self _ _ _ _ hf, List.set_set, faceCentroid_slot]
    · rw [List.set_eq_of_length_le hf, List.set_eq_of_length_le hf, List.set_eq_of_length_le hf]
  rw [hbody]
  have h2 := forLoop_row iFace
    (fun iDim (r : List K) => r.set iDim (mean (faceNodeCoords T val_coord iFace iDim))) nDim cg
  have h3 := forLoop_set_read_min (0 : K)
    (fun iDim _ => mean (faceNodeCoords T val_coord iFace iDim)) (cg.getD iFace []) nDim
  exact h2.trans (congrArg (cg.set iFace) h3)

/-- The result of the first loop nest of `SetCoord_CG`: in the row of every
face the slots of the dimensions hold the mean of the face's node coordinates;
slots and rows beyond those are untouched. -/
theorem faceCentroidLoop_eq {K : Type} [LinearOrderedField K] (nDim : Nat) (T : Topology)
    (val_coord : Nat → Nat → K) (cg : List (List K)) :
    faceCentroidLoop nDim T val_coord cg
      = (List.range (min T.GetnFaces cg.length)).map (fun iFace =>
            (List.range (min nDim (cg.getD iFace []).length)).map
                (fun iDim => mean (faceNodeCoords T val_coord iFace iDim))
              ++ (cg.getD iFace []).drop (min nDim (cg.getD iFace []).length))
          ++ cg.drop (min T.GetnFaces cg.length) := by
  unfold faceCentroidLoop
  simp only [faceCentroid_row]
  exact forLoop_set_read_min [] (fun iFace r =>
    (List.range (min nDim r.length)).map
        (fun iDim => mean (faceNodeCoords T val_coord iFace iDim))
      ++ r.drop (min nDim r.length)) cg T.GetnFaces

/-! ## Face measures, weights and the centroid -/

/-- The running maximum of the second loop of `SetCoord_CG`. -/
theorem maxLoop_spec {K : Type} [LinearOrderedField K] (m : Nat → K) (n : Nat) :
    0 ≤ forLoop n (fun f M => max (m f) M) (0 : K) ∧
    (∀ f, f < n → m f ≤ forLoop n (fun f M => max (m f) M) (0 : K)) ∧
    (forLoop n (fun f M => max (m f) M) (0 : K) = 0 ∨
      ∃ f, f < n ∧ m f = forLoop n (fun f M => max (m f) M) (0 : K)) := by
  induction n with
  | zero =>
    rw [forLoop_zero]
    exact ⟨le_refl _, fun f hf => absurd hf (Nat.not_lt_zero f), Or.inl rfl⟩
  | succ k ih =>
    rw [forLoop_succ]
    obtain ⟨h0, hle, hat⟩ := ih
    refine ⟨le_trans h0 (le_max_right _ _), ?_, ?_⟩
    · intro f hf
      rcases Nat.lt_succ_iff_lt_or_eq.mp hf with h1 | h1
      · exact le_trans (hle f h1) (le_max_right _ _)
      · subst h1
        exact le_max_left _ _
    · rcases le_total (m k) (forLoop k (fun f M => max (m f) M) (0 : K)) with h1 | h1
      · rw [max_eq_right h1]
        rcases hat with h2 | ⟨f, hf, h2⟩
        · exact Or.inl h2
        · exact Or.inr ⟨f, Nat.lt_succ_of_lt hf, h2⟩
      · rw [max_eq_left h1]
        exact Or.inr ⟨k, Nat.lt_succ_self k, rfl⟩

/-- The value of `MaxArea` after the second loop is the largest face measure
when the measures are not negative. -/
theorem maxLoop_eq {K : Type} [LinearOrderedField K] (m : Nat → K) (n : Nat) (M : K)
    (hnonneg : ∀ f, f < n → 0 ≤ m f) (hM : ∀ f, f < n → m f ≤ M)
    (hat : ∃ f, f < n ∧ m f = M) :
    forLoop n (fun f M => max (m f) M) (0 : K) = M := by
  obtain ⟨h0, hle, hor⟩ := maxLoop_spec m n
  obtain ⟨f0, hf0, hf0M⟩ := hat
  apply le_antisymm
  · rcases hor with h1 | ⟨f, hf, h1⟩
    · rw [h1, ← hf0M]
      exact hnonneg f0 hf0
    · rw [← h1]
      exact hM f hf
  · rw [← hf0M]
    exact hle f0 hf0

/-- The second loop of `SetCoord_CG` when every face has a measure: `Area`
holds the measures and `MaxArea` their running maximum from `0`. -/
theorem areaLoop_eq {K : Type} [LinearOrderedField K] (sqrt : K → K) (CTRIA1 CQUAD4 : CElement K)
    (junkA : Nat → K) (nDim : Nat) (T : Topology) (val_coord : Nat → Nat → K) (m : Nat → K)
    (hm : ∀ f, f < T.GetnFaces → faceMeasure sqrt CTRIA1 CQUAD4 nDim T val_coord f = some (m f)) :
    areaLoop sqrt CTRIA1 CQUAD4 junkA nDim T val_coord
      = some ((List.range T.GetnFaces).map m,
          forLoop T.GetnFaces (fun f M => max (m f) M) (0 : K)) := by
  unfold areaLoop
  rw [forLoopM_some T.GetnFaces _
    (fun iFace (st : List K × K) =>
      (st.1.set iFace (m iFace), max ((st.1.set iFace (m iFace)).getD iFace 0) st.2)) _
    (fun i hi st => by rw [hm i hi]; rfl)]
  have key : ∀ k, k ≤ T.GetnFaces →
      forLoop k (fun iFace (st : List K × K) =>
        (st.1.set iFace (m iFace), max ((st.1.set iFace (m iFace)).getD iFace 0) st.2))
        (newArray junkA T.GetnFaces, (0 : K))
      = ((List.range k).map m ++ (newArray junkA T.GetnFaces).drop k,
          forLoop k (fun f M => max (m f) M) (0 : K)) := by
    intro k
    induction k with
    | zero => intro _; simp [forLoop_zero]
    | succ j ih =>
      intro hj
      have hj1 : j < T.GetnFaces := hj
      rw [forLoop_succ, ih (Nat.le_of_lt hj1), forLoop_succ]
      have hlen : j < ((List.range j).map m ++ (newArray junkA T.GetnFaces).drop j).length := by
        simp [length_newArray]
        omega
      have hdrop : (newArray junkA T.GetnFaces).drop j
          = junkA j :: (newArray junkA T.GetnFaces).drop (j + 1) := by
        rw [List.drop_eq_getElem_cons (by rw [length_newArray]; exact hj1)]
        simp [newArray]
      simp only
      rw [getD_set_self _ _ _ _ hlen, List.set_append_right _ _ (by simp), hdrop]
      simp [List.range_succ]
  rw [key T.GetnFaces (Nat.le_refl _)]
  simp [length_newArray]

/-- The third loop of `SetCoord_CG`: every slot of `Area` holds its weight and
`TotalArea` the sum of the weights, accumulated from `0` in the order of the
faces. -/
theorem weightLoop_eq {K : Type} [LinearOrderedField K] (MaxArea : K) (Area : List (Val K)) :
    weightLoop Area.length MaxArea Area
      = ((List.range Area.length).map
            (fun f => Val.sq (Val.div (Area.getD f none) (some MaxArea))),
          forLoop Area.length
            (fun f t => Val.add t (Val.sq (Val.div (Area.getD f none) (some MaxArea)))) (some 0)) := by
  unfold weightLoop
  have key : ∀ k, k ≤ Area.length →
      forLoop k (fun iFace (st : List (Val K) × Val K) =>
        let A := st.1.set iFace (Val.sq (Val.div (st.1.getD iFace none) (some MaxArea)))
        (A, Val.add st.2 (A.getD iFace none))) (Area, some 0)
      = ((List.range k).map (fun f => Val.sq (Val.div (Area.getD f none) (some MaxArea)))
            ++ Area.drop k,
          forLoop k
            (fun f t => Val.add t (Val.sq (Val.div (Area.getD f none) (some MaxArea))))
            (some 0)) := by
    intro k
    induction k with
    | zero => intro _; simp [forLoop_zero]
    | succ j ih =>
      intro hj
      have hj1 : j < Area.length := hj
      rw [forLoop_succ, ih (Nat.le_of_lt hj1), forLoop_succ]
      have hlen : j < ((List.range j).map
          (fun f => Val.sq (Val.div (Area.getD f none) (some MaxArea))) ++ Area.drop j).length := by
        simp
        omega
      have hdrop : Area.drop j = Area[j] :: Area.drop (j + 1) := List.drop_eq_getElem_cons hj1
      have hget : ((List.range j).map
          (fun f => Val.sq (Val.div (Area.getD f none) (some MaxArea))) ++ Area.drop j).getD j none
          = Area.getD j none := by
        rw [List.getD_append_right _ _ _ _ (by simp), hdrop]
        simp [List.getD_eq_getElem _ _ hj1]
      simp only
      rw [getD_set_self _ _ _ _ hlen, hget, List.set_append_right _ _ (by simp)]
      simp only [List.length_map, List.length_range, Nat.sub_self, List.range_succ,
        List.map_append, List.map_cons, List.map_nil, List.append_assoc, List.singleton_append]
      rw [hdrop]
      rfl
  rw [key Area.length (Nat.le_refl _)]
  simp

/-- The last loop nest of `SetCoord_CG`: slot `iDim` of `Coord_CG` holds the
sum, accumulated from `0` in the order of the faces, of the quotients
`Coord_FaceElems_CG[iFace][iDim]*Area[iFace]/TotalArea`. -/
theorem centroidLoop_eq {K : Type} [LinearOrderedField K] (nDim nFaces : Nat)
    (faceCG : List (List K)) (Area : List (Val K)) (TotalArea : Val K) (cg : List (Val K)) :
    centroidLoop nDim nFaces faceCG Area TotalArea cg
      = (List.range (min nDim cg.length)).map (fun iDim =>
            forLoop nFaces (fun iFace acc =>
              Val.add acc (Val.div (Val.mul (some (read2 0 faceCG iFace iDim))
                (Area.getD iFace none)) TotalArea)) (some 0))
          ++ cg.drop (min nDim cg.length) := by
  unfold centroidLoop
  have hbody : (fun iDim (cg : List (Val K)) =>
      let cg := cg.set iDim (some 0)
      forLoop nFaces (fun iFace cg =>
        cg.set iDim (Val.add (cg.getD iDim none)
          (Val.div (Val.mul (some (read2 0 faceCG iFace iDim)) (Area.getD iFace none))
            TotalArea))) cg)
      = fun iDim (cg : List (Val K)) => cg.set iDim
          (forLoop nFaces (fun iFace acc =>
              Val.add acc (Val.div (Val.mul (some (read2 0 faceCG iFace iDim))
                (Area.getD iFace none)) TotalArea)) (some 0)) := by
    funext iDim cg
    have h1 := forLoop_slot iDim (none : Val K) (fun iFace acc =>
        Val.add acc (Val.div (Val.mul (some (read2 0 faceCG iFace iDim))
          (Area.getD iFace none)) TotalArea)) nFaces (cg.set iDim (some 0))
    simp only
    rw [h1]
    rcases Nat.lt_or_ge iDim cg.length with hd | hd
    · rw [getD_set_self _ _ _ _ hd, List.set_set]
    · rw [List.set_eq_of_length_le hd, List.set_eq_of_length_le hd, List.set_eq_of_length_le hd]
  rw [hbody]
  exact forLoop_set_read_min (none : Val K) (fun iDim _ =>
    forLoop nFaces (fun iFace acc =>
      Val.add acc (Val.div (Val.mul (some (read2 0 faceCG iFace iDim))
        (Area.getD iFace none)) TotalArea)) (some 0)) cg nDim

/-- A sum of defined values, accumulated from `0`, is defined. -/
theorem sumLoop_some {K : Type} [LinearOrderedField K] (x : Nat → K) (n : Nat) :
    forLoop n (fun f t => Val.add t (some (x f))) (some 0)
      = some (∑ f in Finset.range n, x f) := by
  induction n with
  | zero => simp [forLoop_zero]
  | succ k ih =>
    rw [forLoop_succ, ih, Finset.sum_range_succ]
    rfl

/-- The weights and their total when `MaxArea` is not zero. -/
theorem weightLoop_measures {K : Type} [LinearOrderedField K] (m : Nat → K) (n : Nat)
    (MaxArea : K) (hM : MaxArea ≠ 0) :
    weightLoop n MaxArea (((List.range n).map m).map some)
      = ((List.range n).map (fun f => some ((m f / MaxArea) ^ 2)),
          some (∑ f in Finset.range n, (m f / MaxArea) ^ 2)) := by
  have h := weightLoop_eq MaxArea (((List.range n).map m).map some)
  simp only [List.length_map, List.length_range] at h
  rw [h]
  have hget : ∀ f, f < n → (((List.range n).map m).map some).getD f none = some (m f) := by
    intro f hf
    rw [List.map_map]
    exact getD_map_range _ n f none hf
  have hw : ∀ f, f < n →
      Val.sq (Val.div ((((List.range n).map m).map some).getD f none) (some MaxArea))
        = some ((m f / MaxArea) ^ 2) := by
    intro f hf
    rw [hget f hf]
    simp [Val.sq, Val.div, hM]
  congr 1
  · apply List.map_congr_left
    intro f hf
    exact hw f (List.mem_range.mp hf)
  · rw [forLoop_congr n _ (fun f t => Val.add t (some ((m f / MaxArea) ^ 2))) _
      (fun f hf t => by rw [hw f hf])]
    exact sumLoop_some _ n

/-- The total weight is at least `1` when the largest measure is positive. -/
theorem one_le_totalWeight {K : Type} [LinearOrderedField K] (m : Nat → K) (n : Nat) (M : K)
    (hMpos : 0 < M) (hat : ∃ f, f < n ∧ m f = M) :
    1 ≤ ∑ f in Finset.range n, (m f / M) ^ 2 := by
  obtain ⟨f0, hf0, h0⟩ := hat
  have h1 : (m f0 / M) ^ 2 = 1 := by
    rw [h0, div_self (ne_of_gt hMpos), one_pow]
  rw [← h1]
  exact Finset.single_le_sum (f := fun f => (m f / M) ^ 2)
    (fun i _ => sq_nonneg _) (Finset.mem_range.mpr hf0)

/-- The slots that `SetCoord_CG` writes, read off its guard. -/
theorem storageAllocated_iff {K : Type} (nDim nFaces : Nat) (s : CPrimalGrid K) :
    storageAllocated nDim nFaces s = true ↔
      nDim ≤ (s.Coord_CG.getD []).length ∧
      ∀ f, f < nFaces → nDim ≤ ((s.Coord_FaceElems_CG.getD []).getD f []).length := by
  simp only [storageAllocated, Bool.and_eq_true, decide_eq_true_eq, List.all_eq_true,
    List.mem_range]

/-- The result of `SetCoord_CG` when its storage is allocated and every face
has a measure. -/
theorem SetCoord_CG_eq {K : Type} [LinearOrderedField K] (sqrt : K → K)
    (CTRIA1 CQUAD4 : CElement K) (junkA : Nat → K) (nDim : Nat) (T : Topology)
    (val_coord : Nat → Nat → K) (s : CPrimalGrid K) (m : Nat → K)
    (halloc : storageAllocated nDim T.GetnFaces s = true)
    (hm : ∀ f, f < T.GetnFaces → faceMeasure sqrt CTRIA1 CQUAD4 nDim T val_coord f = some (m f)) :
    SetCoord_CG sqrt CTRIA1 CQUAD4 junkA nDim T val_coord s =
      some { s with
        Coord_FaceElems_CG := s.Coord_FaceElems_CG.map (faceCentroidLoop nDim T val_coord)
        Coord_CG := s.Coord_CG.map
          (centroidLoop nDim T.GetnFaces
            ((s.Coord_FaceElems_CG.map (faceCentroidLoop nDim T val_coord)).getD [])
            (weightLoop T.GetnFaces (forLoop T.GetnFaces (fun f M => max (m f) M) (0 : K))
              (((List.range T.GetnFaces).map m).map some)).1
            (weightLoop T.GetnFaces (forLoop T.GetnFaces (fun f M => max (m f) M) (0 : K))
              (((List.range T.GetnFaces).map m).map some)).2) } := by
  unfold SetCoord_CG
  rw [if_pos halloc, areaLoop_eq sqrt CTRIA1 CQUAD4 junkA nDim T val_coord m hm]
  rfl

/-- The face centroid that the first loop nest stores in an allocated slot. -/
theorem read2_faceCentroidLoop {K : Type} [LinearOrderedField K] (nDim : Nat) (T : Topology)
    (val_coord : Nat → Nat → K) (cg : List (List K)) (f d : Nat) (hf : f < T.GetnFaces)
    (hd : d < nDim) (hrow : nDim ≤ (cg.getD f []).length) :
    d < ((faceCentroidLoop nDim T val_coord cg).getD f []).length ∧
    read2 0 (faceCentroidLoop nDim T val_coord cg) f d
      = mean (faceNodeCoords T val_coord f d) := by
  have hfl : f < cg.length := by
    rcases Nat.lt_or_ge f cg.length with h | h
    · exact h
    · rw [List.getD_eq_default _ _ h] at hrow
      exact absurd (Nat.lt_of_lt_of_le hd hrow) (Nat.not_lt_zero d)
  have hmin : f < min T.GetnFaces cg.length := Nat.lt_min.mpr ⟨hf, hfl⟩
  have hrowEq : (faceCentroidLoop nDim T val_coord cg).getD f []
      = (List.range nDim).map (fun iDim => mean (faceNodeCoords T val_coord f iDim))
          ++ (cg.getD f []).drop nDim := by
    rw [faceCentroidLoop_eq, List.getD_append _ _ _ _ (by simpa using hmin),
      getD_map_range _ _ f [] hmin, Nat.min_eq_left hrow]
  unfold read2
  rw [hrowEq]
  constructor
  · rw [List.length_append, List.length_map, List.length_range]
    exact Nat.lt_of_lt_of_le hd (Nat.le_add_right _ _)
  · rw [List.getD_append _ _ _ _ (by simpa using hd), getD_map_range _ _ d 0 hd]

theorem faceMeasure_2D {K : Type} [LinearOrderedField K] (sqrt : K → K)
    (CTRIA1 CQUAD4 : CElement K) (nDim : Nat) (T : Topology) (val_coord : Nat → Nat → K)
    (iFace : Nat) (h : nDim ≠ 3) :
    faceMeasure sqrt CTRIA1 CQUAD4 nDim T val_coord iFace
      = some (sqrt ((val_coord 1 0 - val_coord 0 0) ^ 2 + (val_coord 1 1 - val_coord 0 1) ^ 2)) := by
  unfold faceMeasure
  rw [if_neg h]

theorem faceMeasure_3D_tria {K : Type} [LinearOrderedField K] (sqrt : K → K)
    (CTRIA1 CQUAD4 : CElement K) (T : Topology) (val_coord : Nat → Nat → K)
    (iFace : Nat) (h : T.GetnNodesFace iFace = 3) :
    faceMeasure sqrt CTRIA1 CQUAD4 3 T val_coord iFace
      = some (CTRIA1.ComputeArea (refCoords 3 T val_coord iFace)) := by
  simp [faceMeasure, selectElement, elementTable, h]

theorem faceMeasure_3D_quad {K : Type} [LinearOrderedField K] (sqrt : K → K)
    (CTRIA1 CQUAD4 : CElement K) (T : Topology) (val_coord : Nat → Nat → K)
    (iFace : Nat) (h : T.GetnNodesFace iFace = 4) :
    faceMeasure sqrt CTRIA1 CQUAD4 3 T val_coord iFace
      = some (CQUAD4.ComputeArea (refCoords 3 T val_coord iFace)) := by
  simp [faceMeasure, selectElement, elementTable, h]

/-- Every face has a measure in two dimensions, and in three dimensions when
it has three or four nodes. -/
theorem faceMeasure_defined {K : Type} [LinearOrderedField K] (sqrt : K → K)
    (CTRIA1 CQUAD4 : CElement K) (nDim : Nat) (T : Topology) (val_coord : Nat → Nat → K)
    (iFace : Nat) (h : nDim = 3 → T.GetnNodesFace iFace = 3 ∨ T.GetnNodesFace iFace = 4) :
    faceMeasure sqrt CTRIA1 CQUAD4 nDim T val_coord iFace
      = some ((faceMeasure sqrt CTRIA1 CQUAD4 nDim T val_coord iFace).getD 0) := by
  by_cases h3 : nDim = 3
  · subst h3
    rcases h rfl with h1 | h1
    · rw [faceMeasure_3D_tria _ _ _ _ _ _ h1]
      rfl
    · rw [faceMeasure_3D_quad _ _ _ _ _ _ h1]
      rfl
  · rw [faceMeasure_2D _ _ _ _ _ _ _ h3]
    rfl

/-- Claim C7: when the centroid storage is allocated (and, in three dimensions,
every face has three or four nodes, so that its shape object exists),
`SetCoord_CG` returns, and for every face `f` and every dimension `d` the slot
`Coord_FaceElems_CG[f][d]` exists and holds the arithmetic mean of the
coordinates `val_coord[GetFaces(f, i)][d]`, `i < GetnNodesFace(f)`, of the
nodes of the face: one centroid for each face. -/
theorem SetCoord_CG_faceCentroids {K : Type} [LinearOrderedField K] (sqrt : K → K)
    (CTRIA1 CQUAD4 : CElement K) (junkA : Nat → K) (nDim : Nat) (T : Topology)
    (val_coord : Nat → Nat → K) (s : CPrimalGrid K)
    (halloc : storageAllocated nDim T.GetnFaces s = true)
    (h3 : nDim = 3 → ∀ f, f < T.GetnFaces → T.GetnNodesFace f = 3 ∨ T.GetnNodesFace f = 4) :
    ∃ t, SetCoord_CG sqrt CTRIA1 CQUAD4 junkA nDim T val_coord s = some t ∧
      ∀ f, f < T.GetnFaces → ∀ d, d < nDim →
        d < ((t.Coord_FaceElems_CG.getD []).getD f []).length ∧
        read2 0 (t.Coord_FaceElems_CG.getD []) f d
          = mean ((List.range (T.GetnNodesFace f)).map
              (fun iNode => val_coord (T.GetFaces f iNode) d)) := by
  have hm : ∀ f, f < T.GetnFaces →
      faceMeasure sqrt CTRIA1 CQUAD4 nDim T val_coord f
        = some ((fun f => (faceMeasure sqrt CTRIA1 CQUAD4 nDim T val_coord f).getD 0) f) :=
    fun f hf => faceMeasure_defined sqrt CTRIA1 CQUAD4 nDim T val_coord f (fun h => h3 h f hf)
  refine ⟨_, SetCoord_CG_eq sqrt CTRIA1 CQUAD4 junkA nDim T val_coord s _ halloc hm, ?_⟩
  intro f hf d hd
  have hrow := ((storageAllocated_iff nDim T.GetnFaces s).mp halloc).2 f hf
  cases hcg : s.Coord_FaceElems_CG with
  | none =>
    rw [hcg] at hrow
    exact absurd (Nat.lt_of_lt_of_le hd hrow) (Nat.not_lt_zero d)
  | some cg =>
    rw [hcg] at hrow
    exact read2_faceCentroidLoop nDim T val_coord cg f d hf hd hrow

theorem SetCoord_CG_faceCentroids_witness :
    ∃ t, SetCoord_CG Rat.sqrt (noShape ℚ) (noShape ℚ) (fun _ => 0) 2 triangle
        (coordTable [[0, 0], [3, 0], [0, 4]]) (withCentroidStorage ℚ 2 3) = some t ∧
      read2 0 (t.Coord_FaceElems_CG.getD []) 1 0 = 3 / 2 ∧
      read2 0 (t.Coord_FaceElems_CG.getD []) 1 1 = 2 := by
  obtain ⟨t, ht, h⟩ := SetCoord_CG_faceCentroids Rat.sqrt (noShape ℚ) (noShape ℚ)
    (fun _ => 0) 2 triangle (coordTable [[0, 0], [3, 0], [0, 4]]) (withCentroidStorage ℚ 2 3)
    (by decide) (fun h => absurd h (by decide))
  refine ⟨t, ht, ?_, ?_⟩
  · rw [(h 1 (by decide) 0 (by decide)).2]
    norm_num [mean, triangle, coordTable, List.range_succ]
  · rw [(h 1 (by decide) 1 (by decide)).2]
    norm_num [mean, triangle, coordTable, List.range_succ]

/-- The value of one slot of `Coord_CG` when the weights and their total are
defined and the total is not zero. -/
theorem centroid_slot {K : Type} [LinearOrderedField K] (n : Nat) (fc w : Nat → K) (Tot : K)
    (hTot : Tot ≠ 0) :
    forLoop n (fun iFace acc =>
        Val.add acc (Val.div (Val.mul (some (fc iFace))
          (((List.range n).map (fun f => some (w f))).getD iFace none)) (some Tot))) (some 0)
      = some ((∑ f in Finset.range n, fc f * w f) / Tot) := by
  rw [forLoop_congr n _ (fun f t => Val.add t (some (fc f * w f / Tot))) _
    (fun f hf t => by
      rw [getD_map_range _ n f none hf]
      simp [Val.div, Val.mul, hTot])]
  rw [sumLoop_some, Finset.sum_div]

/-- Claim C8: for an element whose face measures are `m f` (lengths or areas,
hence not negative), one of them not zero, with largest value `M`, `SetCoord_CG`
returns and stores in every slot `d` of `Coord_CG` the defined value
`(Σ_f faceCentroid[f][d] * w f) / Σ_f w f` with the weights `w f = (m f / M)^2`,
where `faceCentroid` is the array `Coord_FaceElems_CG` that the call stores. -/
theorem SetCoord_CG_centroid {K : Type} [LinearOrderedField K] (sqrt : K → K)
    (CTRIA1 CQUAD4 : CElement K) (junkA : Nat → K) (nDim : Nat) (T : Topology)
    (val_coord : Nat → Nat → K) (s : CPrimalGrid K) (m : Nat → K) (M : K)
    (halloc : storageAllocated nDim T.GetnFaces s = true)
    (hm : ∀ f, f < T.GetnFaces → faceMeasure sqrt CTRIA1 CQUAD4 nDim T val_coord f = some (m f))
    (hnonneg : ∀ f, f < T.GetnFaces → 0 ≤ m f)
    (hnonzero : ∃ f, f < T.GetnFaces ∧ m f ≠ 0)
    (hM : ∀ f, f < T.GetnFaces → m f ≤ M) (hat : ∃ f, f < T.GetnFaces ∧ m f = M) :
    ∃ t, SetCoord_CG sqrt CTRIA1 CQUAD4 junkA nDim T val_coord s = some t ∧
      ∀ d, d < nDim →
        (t.Coord_CG.getD []).getD d none
          = some ((∑ f in Finset.range T.GetnFaces,
                read2 0 (t.Coord_FaceElems_CG.getD []) f d * (m f / M) ^ 2)
              / ∑ f in Finset.range T.GetnFaces, (m f / M) ^ 2) := by
  have hMpos : 0 < M := by
    obtain ⟨f, hf, hne⟩ := hnonzero
    exact lt_of_lt_of_le (lt_of_le_of_ne (hnonneg f hf) (Ne.symm hne)) (hM f hf)
  have hTot : (∑ f in Finset.range T.GetnFaces, (m f / M) ^ 2) ≠ 0 :=
    ne_of_gt (lt_of_lt_of_le one_pos (one_le_totalWeight m T.GetnFaces M hMpos hat))
  refine ⟨_, SetCoord_CG_eq sqrt CTRIA1 CQUAD4 junkA nDim T val_coord s m halloc hm, ?_⟩
  intro d hd
  have hlen := ((storageAllocated_iff nDim T.GetnFaces s).mp halloc).1
  rw [maxLoop_eq m T.GetnFaces M hnonneg hM hat,
    weightLoop_measures m T.GetnFaces M (ne_of_gt hMpos)]
  cases hcg : s.Coord_CG with
  | none =>
    rw [hcg] at hlen
    exact absurd (Nat.lt_of_lt_of_le hd hlen) (Nat.not_lt_zero d)
  | some cg =>
    rw [hcg] at hlen
    have hlen2 : nDim ≤ cg.length := hlen
    show (centroidLoop nDim T.GetnFaces _ _ _ cg).getD d none = _
    rw [centroidLoop_eq, Nat.min_eq_left hlen2, List.getD_append _ _ _ _ (by simpa using hd),
      getD_map_range _ _ d none hd]
    exact centroid_slot T.GetnFaces _ _ _ hTot

/-- The array `Coord_FaceElems_CG` after a call of `SetCoord_CG` that returns. -/
theorem SetCoord_CG_faceField {K : Type} [LinearOrderedField K] (sqrt : K → K)
    (CTRIA1 CQUAD4 : CElement K) (junkA : Nat → K) (nDim : Nat) (T : Topology)
    (val_coord : Nat → Nat → K) (s t : CPrimalGrid K)
    (h : SetCoord_CG sqrt CTRIA1 CQUAD4 junkA nDim T val_coord s = some t) :
    t.Coord_FaceElems_CG = s.Coord_FaceElems_CG.map (faceCentroidLoop nDim T val_coord) := by
  unfold SetCoord_CG at h
  by_cases halloc : storageAllocated nDim T.GetnFaces s = true
  · rw [if_pos halloc] at h
    cases harea : areaLoop sqrt CTRIA1 CQUAD4 junkA nDim T val_coord with
    | none =>
      rw [harea] at h
      cases h
    | some st =>
      rw [harea] at h
      cases h
      rfl
  · rw [if_neg halloc] at h
    cases h

theorem SetCoord_CG_centroid_witness :
    ∃ t, SetCoord_CG Rat.sqrt (noShape ℚ) (noShape ℚ) (fun _ => 0) 2 triangle
        (coordTable [[0, 0], [3, 0], [0, 4]]) (withCentroidStorage ℚ 2 3) = some t ∧
      (t.Coord_CG.getD []).getD 0 none = some 1 ∧
      (t.Coord_CG.getD []).getD 1 none = some (4 / 3) := by
  have h9 : Rat.sqrt 9 = 3 := by
    rw [show (9 : ℚ) = 3 * 3 by norm_num, Rat.sqrt_eq, abs_of_nonneg (by norm_num)]
  obtain ⟨t, ht, h⟩ := SetCoord_CG_centroid Rat.sqrt (noShape ℚ) (noShape ℚ)
    (fun _ => 0) 2 triangle (coordTable [[0, 0], [3, 0], [0, 4]]) (withCentroidStorage ℚ 2 3)
    (fun _ => 3) 3 (by decide)
    (fun f _ => by
      rw [faceMeasure_2D _ _ _ _ _ _ _ (by decide)]
      norm_num [coordTable, h9])
    (fun _ _ => by norm_num) ⟨0, by decide, by norm_num⟩ (fun _ _ => le_refl _)
    ⟨0, by decide, rfl⟩
  have hf := SetCoord_CG_faceField _ _ _ _ _ _ _ _ _ ht
  have hfc : ∀ f, f < 3 → ∀ d, d < 2 → read2 0 (t.Coord_FaceElems_CG.getD []) f d
      = mean (faceNodeCoords triangle (coordTable [[0, 0], [3, 0], [0, 4]]) f d) := by
    intro f hf3 d hd
    rw [hf]
    exact (read2_faceCentroidLoop 2 triangle _ _ f d hf3 hd (by
      have h2 : f = 0 ∨ f = 1 ∨ f = 2 := by omega
      rcases h2 with h2 | h2 | h2 <;> subst h2 <;> decide)).2
  refine ⟨t, ht, ?_, ?_⟩
  · rw [h 0 (by decide)]
    simp only [triangle, Finset.sum_range_succ, Finset.sum_range_zero]
    rw [hfc 0 (by decide) 0 (by decide), hfc 1 (by decide) 0 (by decide),
      hfc 2 (by decide) 0 (by decide)]
    norm_num [mean, faceNodeCoords, triangle, coordTable, List.range_succ]
  · rw [h 1 (by decide)]
    simp only [triangle, Finset.sum_range_succ, Finset.sum_range_zero]
    rw [hfc 0 (by decide) 1 (by decide), hfc 1 (by decide) 1 (by decide),
      hfc 2 (by decide) 1 (by decide)]
    norm_num [mean, faceNodeCoords, triangle, coordTable, List.range_succ]

/-! ## The face measure in two dimensions -/

/-- In two dimensions the value that `SetCoord_CG` stores in `Area[iFace]` is
the distance between the nodes `0` and `1` of the element, for every face. -/
theorem faceMeasure_2D_all_faces {K : Type} [LinearOrderedField K] (sqrt : K → K)
    (CTRIA1 CQUAD4 : CElement K) (T : Topology) (val_coord : Nat → Nat → K) (f g : Nat) :
    faceMeasure sqrt CTRIA1 CQUAD4 2 T val_coord f
      = faceMeasure sqrt CTRIA1 CQUAD4 2 T val_coord g := by
  rw [faceMeasure_2D _ _ _ _ _ _ f (by decide), faceMeasure_2D _ _ _ _ _ _ g (by decide)]

/-- Claim C9, the code at the failing input: in the triangle with the nodes
`(0,0)`, `(3,0)`, `(0,4)` the face `1` joins the nodes `(3,0)` and `(0,4)`, at
distance `5`, and the measure that `SetCoord_CG` uses for it is `3`, the
distance between the nodes `0` and `1` of the element. -/
theorem faceMeasure_2D_triangle_face1 :
    faceMeasure Real.sqrt (noShape ℝ) (noShape ℝ) 2 triangle
        (coordTable [[0, 0], [3, 0], [0, 4]]) 1 = some 3 ∧
    faceLength2D Real.sqrt triangle (coordTable [[0, 0], [3, 0], [0, 4]]) 1 = 5 := by
  constructor
  · rw [faceMeasure_2D _ _ _ _ _ _ _ (by decide)]
    have h : ((coordTable [[0, 0], [3, 0], [0, 4]] 1 0 : ℝ) - coordTable [[0, 0], [3, 0], [0, 4]] 0 0) ^ 2
        + (coordTable [[0, 0], [3, 0], [0, 4]] 1 1 - coordTable [[0, 0], [3, 0], [0, 4]] 0 1) ^ 2
        = 3 ^ 2 := by
      norm_num [coordTable]
    rw [h, Real.sqrt_sq (by norm_num)]
  · unfold faceLength2D
    have h : ((coordTable [[0, 0], [3, 0], [0, 4]] (triangle.GetFaces 1 1) 0 : ℝ)
          - coordTable [[0, 0], [3, 0], [0, 4]] (triangle.GetFaces 1 0) 0) ^ 2
        + (coordTable [[0, 0], [3, 0], [0, 4]] (triangle.GetFaces 1 1) 1
          - coordTable [[0, 0], [3, 0], [0, 4]] (triangle.GetFaces 1 0) 1) ^ 2
        = 5 ^ 2 := by
      norm_num [coordTable, triangle]
    rw [h, Real.sqrt_sq (by norm_num)]

/-- Claim C10, the code at the failing input: in the triangle with the nodes
`(3,0)`, `(0,0)`, `(3,4)` the face `1` has its end nodes at `(0,0)` and `(3,4)`,
at distance `5`, and the length that `SetCoord_CG` computes for it is `3`; the
length `5` is computed when `(0,0)` and `(3,4)` are the nodes `0` and `1` of
the element. -/
theorem faceMeasure_2D_three_four_five :
    (coordTable [[3, 0], [0, 0], [3, 4]] (triangle.GetFaces 1 0) 0 = (0 : ℝ) ∧
      coordTable [[3, 0], [0, 0], [3, 4]] (triangle.GetFaces 1 0) 1 = (0 : ℝ) ∧
      coordTable [[3, 0], [0, 0], [3, 4]] (triangle.GetFaces 1 1) 0 = (3 : ℝ) ∧
      coordTable [[3, 0], [0, 0], [3, 4]] (triangle.GetFaces 1 1) 1 = (4 : ℝ)) ∧
    faceLength2D Real.sqrt triangle (coordTable [[3, 0], [0, 0], [3, 4]]) 1 = 5 ∧
    faceMeasure Real.sqrt (noShape ℝ) (noShape ℝ) 2 triangle
        (coordTable [[3, 0], [0, 0], [3, 4]]) 1 = some 3 ∧
    ∀ (T : Topology) (f : Nat), faceMeasure Real.sqrt (noShape ℝ) (noShape ℝ) 2 T
        (coordTable [[0, 0], [3, 4], [3, 0]]) f = some 5 := by
  refine ⟨by norm_num [coordTable, triangle], ?_, ?_, ?_⟩
  · unfold faceLength2D
    have h : ((coordTable [[3, 0], [0, 0], [3, 4]] (triangle.GetFaces 1 1) 0 : ℝ)
          - coordTable [[3, 0], [0, 0], [3, 4]] (triangle.GetFaces 1 0) 0) ^ 2
        + (coordTable [[3, 0], [0, 0], [3, 4]] (triangle.GetFaces 1 1) 1
          - coordTable [[3, 0], [0, 0], [3, 4]] (triangle.GetFaces 1 0) 1) ^ 2
        = 5 ^ 2 := by
      norm_num [coordTable, triangle]
    rw [h, Real.sqrt_sq (by norm_num)]
  · rw [faceMeasure_2D _ _ _ _ _ _ _ (by decide)]
    have h : ((coordTable [[3, 0], [0, 0], [3, 4]] 1 0 : ℝ) - coordTable [[3, 0], [0, 0], [3, 4]] 0 0) ^ 2
        + (coordTable [[3, 0], [0, 0], [3, 4]] 1 1 - coordTable [[3, 0], [0, 0], [3, 4]] 0 1) ^ 2
        = 3 ^ 2 := by
      norm_num [coordTable]
    rw [h, Real.sqrt_sq (by norm_num)]
  · intro T f
    rw [faceMeasure_2D _ _ _ _ _ _ _ (by decide)]
    have h : ((coordTable [[0, 0], [3, 4], [3, 0]] 1 0 : ℝ) - coordTable [[0, 0], [3, 4], [3, 0]] 0 0) ^ 2
        + (coordTable [[0, 0], [3, 4], [3, 0]] 1 1 - coordTable [[0, 0], [3, 4], [3, 0]] 0 1) ^ 2
        = 5 ^ 2 := by
      norm_num [coordTable]
    rw [h, Real.sqrt_sq (by norm_num)]

/-! ## The state of an element: construction, initialisation, frame -/

/-- Claim C14: after `InitializeJacobianConstantFaces(n)` the array
`JacobianFaceIsConstant` has exactly `n` entries and its entry is `false` for
every face index `f < n`, for every `n` (in particular for `n` from 1 to 8),
whatever the fresh storage contained. -/
theorem InitializeJacobianConstantFaces_entries {K : Type} (junkJ : Nat → Bool) (n : Nat)
    (s : CPrimalGrid K) :
    ∃ J, (InitializeJacobianConstantFaces junkJ n s).JacobianFaceIsConstant = some J ∧
      J.length = n ∧ J = List.replicate n false ∧ ∀ f, f < n → J[f]? = some false := by
  refine ⟨List.replicate n false, ?_, by simp, rfl, ?_⟩
  · simp only [InitializeJacobianConstantFaces, forLoop_set_const]
  · intro f hf
    simp [List.getElem?_replicate, hf]

/-- Claim C16: the freshly constructed element is uninitialised: the neighbour,
face-ownership, periodic-index and Jacobian-constant arrays are absent, the
centroid and the face centroids have no storage, the donor set is empty with
count `0` and no array, `GlobalIndex` is `0` (and the node list is absent). -/
theorem new_uninitialized (K : Type) :
    (CPrimalGrid.new K).Neighbor_Elements = none ∧
    (CPrimalGrid.new K).ElementOwnsFace = none ∧
    (CPrimalGrid.new K).PeriodIndexNeighbors = none ∧
    (CPrimalGrid.new K).JacobianFaceIsConstant = none ∧
    (CPrimalGrid.new K).Coord_CG = none ∧
    (CPrimalGrid.new K).Coord_FaceElems_CG = none ∧
    (CPrimalGrid.new K).nProcElemIsOnlyInterpolDonor = 0 ∧
    (CPrimalGrid.new K).ProcElemIsOnlyInterpolDonor = none ∧
    donors (CPrimalGrid.new K) = [] ∧
    (CPrimalGrid.new K).GlobalIndex = 0 ∧
    (CPrimalGrid.new K).Nodes = none :=
  ⟨rfl, rfl, rfl, rfl, rfl, rfl, rfl, rfl, rfl, rfl, rfl⟩

/-- Claim C17: `InitializeNeighbors(n)` on an element whose adjacency arrays
are initialised, with any length and any slot values, returns and resets
them: the three arrays are those that `InitializeNeighbors(n)` produces on a
fresh element, whatever the element held before; a second call after a call
with any face count `m` gives the state of the single call, so that two calls
of `InitializeNeighbors(n)` equal one. -/
theorem InitializeNeighbors_reset {K : Type} (junkN junkN2 : Nat → Int) (junkO junkO2 : Nat → Bool)
    (junkP junkP2 : Nat → Int) (n m : Nat) (s : CPrimalGrid K) :
    (InitializeNeighbors junkN junkO junkP n s).Neighbor_Elements
      = (InitializeNeighbors junkN2 junkO2 junkP2 n (CPrimalGrid.new K)).Neighbor_Elements ∧
    (InitializeNeighbors junkN junkO junkP n s).ElementOwnsFace
      = (InitializeNeighbors junkN2 junkO2 junkP2 n (CPrimalGrid.new K)).ElementOwnsFace ∧
    (InitializeNeighbors junkN junkO junkP n s).PeriodIndexNeighbors
      = (InitializeNeighbors junkN2 junkO2 junkP2 n (CPrimalGrid.new K)).PeriodIndexNeighbors ∧
    InitializeNeighbors junkN2 junkO2 junkP2 n (InitializeNeighbors junkN junkO junkP m s)
      = InitializeNeighbors junkN junkO junkP n s ∧
    InitializeNeighbors junkN2 junkO2 junkP2 n (InitializeNeighbors junkN junkO junkP n s)
      = InitializeNeighbors junkN junkO junkP n s := by
  rw [InitializeNeighbors_eq, InitializeNeighbors_eq, InitializeNeighbors_eq,
    InitializeNeighbors_eq, InitializeNeighbors_eq]
  exact ⟨rfl, rfl, rfl, rfl, rfl⟩

/-- The members that `AddProcElemIsOnlyInterpolDonor` leaves as they are. -/
theorem Add_frame {K : Type} (junk : Nat → Nat) (r : Nat) (s : CPrimalGrid K) :
    AddProcElemIsOnlyInterpolDonor junk r s =
      { s with
        nProcElemIsOnlyInterpolDonor :=
          (AddProcElemIsOnlyInterpolDonor junk r s).nProcElemIsOnlyInterpolDonor
        ProcElemIsOnlyInterpolDonor :=
          (AddProcElemIsOnlyInterpolDonor junk r s).ProcElemIsOnlyInterpolDonor } := by
  unfold AddProcElemIsOnlyInterpolDonor
  simp only
  split <;> rfl

/-- The members that a returning call of `SetCoord_CG` leaves as they are. -/
theorem SetCoord_CG_frame {K : Type} [LinearOrderedField K] (sqrt : K → K)
    (CTRIA1 CQUAD4 : CElement K) (junkA : Nat → K) (nDim : Nat) (T : Topology)
    (val_coord : Nat → Nat → K) (s t : CPrimalGrid K)
    (h : SetCoord_CG sqrt CTRIA1 CQUAD4 junkA nDim T val_coord s = some t) :
    t = { s with Coord_CG := t.Coord_CG, Coord_FaceElems_CG := t.Coord_FaceElems_CG } := by
  unfold SetCoord_CG at h
  by_cases halloc : storageAllocated nDim T.GetnFaces s = true
  · rw [if_pos halloc] at h
    cases harea : areaLoop sqrt CTRIA1 CQUAD4 junkA nDim T val_coord with
    | none =>
      rw [harea] at h
      cases h
    | some st =>
      rw [harea] at h
      cases h
      rfl
  · rw [if_neg halloc] at h
    cases h

/-- The consistency of the adjacency arrays depends on these arrays only. -/
theorem AdjacencyConsistent_of_eq {K : Type} (s t : CPrimalGrid K)
    (hN : t.Neighbor_Elements = s.Neighbor_Elements)
    (hO : t.ElementOwnsFace = s.ElementOwnsFace)
    (hP : t.PeriodIndexNeighbors = s.PeriodIndexNeighbors)
    (h : AdjacencyConsistent s) : AdjacencyConsistent t := by
  unfold AdjacencyConsistent at h ⊢
  rw [hN, hO, hP]
  exact h

/-- A concrete call of `SetCoord_CG` that returns. -/
theorem SetCoord_CG_triangle_returns :
    ∃ t, SetCoord_CG Rat.sqrt (noShape ℚ) (noShape ℚ) (fun _ => 0) 2 triangle
      (coordTable [[0, 0], [3, 0], [0, 4]]) (withCentroidStorage ℚ 2 3) = some t :=
  ⟨_, SetCoord_CG_eq Rat.sqrt (noShape ℚ) (noShape ℚ) (fun _ => 0) 2 triangle
    (coordTable [[0, 0], [3, 0], [0, 4]]) (withCentroidStorage ℚ 2 3)
    (fun f => (faceMeasure Rat.sqrt (noShape ℚ) (noShape ℚ) 2 triangle
      (coordTable [[0, 0], [3, 0], [0, 4]]) f).getD 0) (by decide)
    (fun f _ => faceMeasure_defined _ _ _ _ _ _ f (fun h => absurd h (by decide)))⟩

/-- Claim C15: the adjacency arrays `Neighbor_Elements`, `ElementOwnsFace` and
`PeriodIndexNeighbors` are all absent or all present with one common length:
this holds in the freshly constructed element, it holds after
`InitializeNeighbors(n)` (with the common length `n`), and it is preserved by
`InitializeJacobianConstantFaces`, by `AddProcElemIsOnlyInterpolDonor` and by
every call of `SetCoord_CG` that returns. -/
theorem adjacency_consistent (K : Type) [LinearOrderedField K] :
    AdjacencyConsistent (CPrimalGrid.new K) ∧
    (∀ (junkN : Nat → Int) (junkO : Nat → Bool) (junkP : Nat → Int) (n : Nat)
        (s : CPrimalGrid K),
      AdjacencyConsistent (InitializeNeighbors junkN junkO junkP n s) ∧
      ∃ N O P, (InitializeNeighbors junkN junkO junkP n s).Neighbor_Elements = some N ∧
        (InitializeNeighbors junkN junkO junkP n s).ElementOwnsFace = some O ∧
        (InitializeNeighbors junkN junkO junkP n s).PeriodIndexNeighbors = some P ∧
        N.length = n ∧ O.length = n ∧ P.length = n) ∧
    (∀ (junkJ : Nat → Bool) (n : Nat) (s : CPrimalGrid K), AdjacencyConsistent s →
      AdjacencyConsistent (InitializeJacobianConstantFaces junkJ n s)) ∧
    (∀ (junk : Nat → Nat) (r : Nat) (s : CPrimalGrid K), AdjacencyConsistent s →
      AdjacencyConsistent (AddProcElemIsOnlyInterpolDonor junk r s)) ∧
    (∀ (sqrt : K → K) (CTRIA1 CQUAD4 : CElement K) (junkA : Nat → K) (nDim : Nat)
        (T : Topology) (val_coord : Nat → Nat → K) (s t : CPrimalGrid K),
      AdjacencyConsistent s →
      SetCoord_CG sqrt CTRIA1 CQUAD4 junkA nDim T val_coord s = some t →
      AdjacencyConsistent t) := by
  refine ⟨Or.inl ⟨rfl, rfl, rfl⟩, ?_, ?_, ?_, ?_⟩
  · intro junkN junkO junkP n s
    rw [InitializeNeighbors_eq]
    exact ⟨Or.inr ⟨_, _, _, rfl, rfl, rfl, by simp, by simp⟩,
      _, _, _, rfl, rfl, rfl, by simp, by simp, by simp⟩
  · intro junkJ n s h
    exact AdjacencyConsistent_of_eq s _ rfl rfl rfl h
  · intro junk r s h
    rw [Add_frame]
    exact AdjacencyConsistent_of_eq s _ rfl rfl rfl h
  · intro sqrt CTRIA1 CQUAD4 junkA nDim T val_coord s t h ht
    rw [SetCoord_CG_frame sqrt CTRIA1 CQUAD4 junkA nDim T val_coord s t ht]
    exact AdjacencyConsistent_of_eq s _ rfl rfl rfl h

theorem adjacency_consistent_witness :
    AdjacencyConsistent (InitializeJacobianConstantFaces (fun _ => true) 3
      (InitializeNeighbors (fun _ => 5) (fun _ => true) (fun _ => 6) 3 (CPrimalGrid.new ℚ))) ∧
    ∃ t, SetCoord_CG Rat.sqrt (noShape ℚ) (noShape ℚ) (fun _ => 0) 2 triangle
        (coordTable [[0, 0], [3, 0], [0, 4]]) (withCentroidStorage ℚ 2 3) = some t ∧
      AdjacencyConsistent t := by
  refine ⟨(adjacency_consistent ℚ).2.2.1 _ 3 _
    ((adjacency_consistent ℚ).2.1 (fun _ => 5) (fun _ => true) (fun _ => 6) 3 _).1, ?_⟩
  obtain ⟨t, ht⟩ := SetCoord_CG_triangle_returns
  exact ⟨t, ht, (adjacency_consistent ℚ).2.2.2.2 _ _ _ _ _ _ _ _ t
    (Or.inl ⟨rfl, rfl, rfl⟩) ht⟩

/-- Claim C20: the components of the state of an element are independent:
`AddProcElemIsOnlyInterpolDonor` changes only the donor array and its count,
`InitializeNeighbors` only the three adjacency arrays,
`InitializeJacobianConstantFaces` only the array `JacobianFaceIsConstant`, and
a call of `SetCoord_CG` that returns only `Coord_CG` and `Coord_FaceElems_CG`;
none of the four changes `GlobalIndex` or the node list. -/
theorem frame_effects (K : Type) [LinearOrderedField K] :
    (∀ (junk : Nat → Nat) (r : Nat) (s : CPrimalGrid K),
      AddProcElemIsOnlyInterpolDonor junk r s =
        { s with
          nProcElemIsOnlyInterpolDonor :=
            (AddProcElemIsOnlyInterpolDonor junk r s).nProcElemIsOnlyInterpolDonor
          ProcElemIsOnlyInterpolDonor :=
            (AddProcElemIsOnlyInterpolDonor junk r s).ProcElemIsOnlyInterpolDonor } ∧
      (AddProcElemIsOnlyInterpolDonor junk r s).GlobalIndex = s.GlobalIndex ∧
      (AddProcElemIsOnlyInterpolDonor junk r s).Nodes = s.Nodes) ∧
    (∀ (junkN : Nat → Int) (junkO : Nat → Bool) (junkP : Nat → Int) (n : Nat)
        (s : CPrimalGrid K),
      InitializeNeighbors junkN junkO junkP n s =
        { s with
          Neighbor_Elements := (InitializeNeighbors junkN junkO junkP n s).Neighbor_Elements
          ElementOwnsFace := (InitializeNeighbors junkN junkO junkP n s).ElementOwnsFace
          PeriodIndexNeighbors :=
            (InitializeNeighbors junkN junkO junkP n s).PeriodIndexNeighbors } ∧
      (InitializeNeighbors junkN junkO junkP n s).GlobalIndex = s.GlobalIndex ∧
      (InitializeNeighbors junkN junkO junkP n s).Nodes = s.Nodes) ∧
    (∀ (junkJ : Nat → Bool) (n : Nat) (s : CPrimalGrid K),
      InitializeJacobianConstantFaces junkJ n s =
        { s with
          JacobianFaceIsConstant :=
            (InitializeJacobianConstantFaces junkJ n s).JacobianFaceIsConstant } ∧
      (InitializeJacobianConstantFaces junkJ n s).GlobalIndex = s.GlobalIndex ∧
      (InitializeJacobianConstantFaces junkJ n s).Nodes = s.Nodes) ∧
    (∀ (sqrt : K → K) (CTRIA1 CQUAD4 : CElement K) (junkA : Nat → K) (nDim : Nat)
        (T : Topology) (val_coord : Nat → Nat → K) (s t : CPrimalGrid K),
      SetCoord_CG sqrt CTRIA1 CQUAD4 junkA nDim T val_coord s = some t →
      t = { s with Coord_CG := t.Coord_CG, Coord_FaceElems_CG := t.Coord_FaceElems_CG } ∧
      t.GlobalIndex = s.GlobalIndex ∧ t.Nodes = s.Nodes) := by
  refine ⟨?_, ?_, ?_, ?_⟩
  · intro junk r s
    have h := Add_frame junk r s
    refine ⟨h, ?_, ?_⟩
    · rw [h]
    · rw [h]
  · intro junkN junkO junkP n s
    exact ⟨rfl, rfl, rfl⟩
  · intro junkJ n s
    exact ⟨rfl, rfl, rfl⟩
  · intro sqrt CTRIA1 CQUAD4 junkA nDim T val_coord s t ht
    have h := SetCoord_CG_frame sqrt CTRIA1 CQUAD4 junkA nDim T val_coord s t ht
    refine ⟨h, ?_, ?_⟩
    · rw [h]
    · rw [h]

theorem frame_effects_witness :
    (AddProcElemIsOnlyInterpolDonor (fun _ => 0) 9 twoDonors).GlobalIndex = 0 ∧
    ∃ t, SetCoord_CG Rat.sqrt (noShape ℚ) (noShape ℚ) (fun _ => 0) 2 triangle
        (coordTable [[0, 0], [3, 0], [0, 4]]) (withCentroidStorage ℚ 2 3) = some t ∧
      t.GlobalIndex = 0 ∧ t.Nodes = none ∧ t.ProcElemIsOnlyInterpolDonor = none := by
  refine ⟨((frame_effects ℚ).1 (fun _ => 0) 9 twoDonors).2.1, ?_⟩
  obtain ⟨t, ht⟩ := SetCoord_CG_triangle_returns
  have h := (frame_effects ℚ).2.2.2 _ _ _ _ _ _ _ _ t ht
  refine ⟨t, ht, h.2.1, h.2.2, ?_⟩
  rw [h.1]
  rfl

/-! ## The shape objects in three dimensions -/

/-- The entry of the table of shape objects that `GetnNodesFace(iFace)-3`
selects in three dimensions. -/
theorem selectElement_table {K : Type} (CTRIA1 CQUAD4 : CElement K) (n : Nat) :
    selectElement (elementTable CTRIA1 CQUAD4 3) n
      = if n = 3 then some CTRIA1 else if n = 4 then some CQUAD4 else none := by
  unfold selectElement elementTable
  rcases Nat.lt_or_ge n 3 with h | h
  · have h1 : ¬ (0 : Int) ≤ (n : Int) - 3 := by omega
    have h3 : n ≠ 3 := by omega
    have h4 : n ≠ 4 := by omega
    simp only [h1, h3, h4, if_false]
  · obtain ⟨k, rfl⟩ : ∃ k, n = k + 3 := ⟨n - 3, by omega⟩
    have h1 : (0 : Int) ≤ ((k + 3 : Nat) : Int) - 3 := by omega
    have h2 : (((k + 3 : Nat) : Int) - 3).toNat = k := by omega
    simp only [h1, h2, if_true]
    match k with
    | 0 => rfl
    | 1 => rfl
    | j + 2 =>
      have h3 : j + 2 + 3 ≠ 3 := by omega
      have h4 : j + 2 + 3 ≠ 4 := by omega
      simp only [h3, h4, if_false]
      rfl

/-- The measure of a face in three dimensions, by its number of nodes. -/
theorem faceMeasure_3D {K : Type} [LinearOrderedField K] (sqrt : K → K)
    (CTRIA1 CQUAD4 : CElement K) (T : Topology) (val_coord : Nat → Nat → K) (iFace : Nat) :
    faceMeasure sqrt CTRIA1 CQUAD4 3 T val_coord iFace
      = if T.GetnNodesFace iFace = 3 then
          some (CTRIA1.ComputeArea (refCoords 3 T val_coord iFace))
        else if T.GetnNodesFace iFace = 4 then
          some (CQUAD4.ComputeArea (refCoords 3 T val_coord iFace))
        else none := by
  unfold faceMeasure
  rw [if_pos rfl, selectElement_table]
  by_cases h3 : T.GetnNodesFace iFace = 3
  · rw [if_pos h3, if_pos h3]
    rfl
  · rw [if_neg h3, if_neg h3]
    by_cases h4 : T.GetnNodesFace iFace = 4
    · rw [if_pos h4, if_pos h4]
      rfl
    · rw [if_neg h4, if_neg h4]
      rfl

/-- The second loop of `SetCoord_CG` fails when one face has no measure. -/
theorem areaLoop_none {K : Type} [LinearOrderedField K] (sqrt : K → K)
    (CTRIA1 CQUAD4 : CElement K) (junkA : Nat → K) (nDim : Nat) (T : Topology)
    (val_coord : Nat → Nat → K) (f : Nat) (hf : f < T.GetnFaces)
    (h : faceMeasure sqrt CTRIA1 CQUAD4 nDim T val_coord f = none) :
    areaLoop sqrt CTRIA1 CQUAD4 junkA nDim T val_coord = none := by
  unfold areaLoop
  exact forLoopM_none T.GetnFaces _ _ f hf (fun st => by rw [h]; rfl)

/-- The call `SetCoord_CG` in terms of the result of its second loop. -/
theorem SetCoord_CG_of_areaLoop {K : Type} [LinearOrderedField K] (sqrt : K → K)
    (CTRIA1 CQUAD4 : CElement K) (junkA : Nat → K) (nDim : Nat) (T : Topology)
    (val_coord : Nat → Nat → K) (s : CPrimalGrid K)
    (halloc : storageAllocated nDim T.GetnFaces s = true) :
    SetCoord_CG sqrt CTRIA1 CQUAD4 junkA nDim T val_coord s =
      (areaLoop sqrt CTRIA1 CQUAD4 junkA nDim T val_coord).map fun st =>
        { s with
          Coord_FaceElems_CG := s.Coord_FaceElems_CG.map (faceCentroidLoop nDim T val_coord)
          Coord_CG := s.Coord_CG.map
            (centroidLoop nDim T.GetnFaces
              ((s.Coord_FaceElems_CG.map (faceCentroidLoop nDim T val_coord)).getD [])
              (weightLoop T.GetnFaces st.2 (st.1.map some)).1
              (weightLoop T.GetnFaces st.2 (st.1.map some)).2) } := by
  unfold SetCoord_CG
  rw [if_pos halloc]

/-- A call of `SetCoord_CG` that returns has its storage allocated. -/
theorem storageAllocated_of_some {K : Type} [LinearOrderedField K] (sqrt : K → K)
    (CTRIA1 CQUAD4 : CElement K) (junkA : Nat → K) (nDim : Nat) (T : Topology)
    (val_coord : Nat → Nat → K) (s t : CPrimalGrid K)
    (h : SetCoord_CG sqrt CTRIA1 CQUAD4 junkA nDim T val_coord s = some t) :
    storageAllocated nDim T.GetnFaces s = true := by
  by_cases halloc : storageAllocated nDim T.GetnFaces s = true
  · exact halloc
  · unfold SetCoord_CG at h
    rw [if_neg halloc] at h
    cases h

/-! ## The entries that `SetCoord_CG` stores -/

/-- The entries of `Coord_FaceElems_CG` and of `Coord_CG` after a call of
`SetCoord_CG` that returns, in terms of the node coordinates and of the result
`(Area, MaxArea)` of the second loop only. -/
theorem SetCoord_CG_entries {K : Type} [LinearOrderedField K] (sqrt : K → K)
    (CTRIA1 CQUAD4 : CElement K) (junkA : Nat → K) (nDim : Nat) (T : Topology)
    (val_coord : Nat → Nat → K) (s t : CPrimalGrid K)
    (h : SetCoord_CG sqrt CTRIA1 CQUAD4 junkA nDim T val_coord s = some t) :
    ∃ st, areaLoop sqrt CTRIA1 CQUAD4 junkA nDim T val_coord = some st ∧
      (∀ f, f < T.GetnFaces → ∀ d, d < nDim →
        d < ((t.Coord_FaceElems_CG.getD []).getD f []).length ∧
        read2 0 (t.Coord_FaceElems_CG.getD []) f d = mean (faceNodeCoords T val_coord f d)) ∧
      (∀ d, d < nDim →
        d < (t.Coord_CG.getD []).length ∧
        (t.Coord_CG.getD []).getD d none
          = forLoop T.GetnFaces (fun f acc =>
              Val.add acc (Val.div (Val.mul (some (mean (faceNodeCoords T val_coord f d)))
                ((weightLoop T.GetnFaces st.2 (st.1.map some)).1.getD f none))
                (weightLoop T.GetnFaces st.2 (st.1.map some)).2)) (some 0)) := by
  have halloc := storageAllocated_of_some sqrt CTRIA1 CQUAD4 junkA nDim T val_coord s t h
  obtain ⟨hlen, hrows⟩ := (storageAllocated_iff nDim T.GetnFaces s).mp halloc
  rw [SetCoord_CG_of_areaLoop sqrt CTRIA1 CQUAD4 junkA nDim T val_coord s halloc] at h
  cases harea : areaLoop sqrt CTRIA1 CQUAD4 junkA nDim T val_coord with
  | none =>
    rw [harea] at h
    cases h
  | some st =>
    rw [harea] at h
    have ht := (Option.some.inj h).symm
    have hface : ∀ f, f < T.GetnFaces → ∀ d, d < nDim →
        d < ((t.Coord_FaceElems_CG.getD []).getD f []).length ∧
        read2 0 (t.Coord_FaceElems_CG.getD []) f d
          = mean (faceNodeCoords T val_coord f d) := by
      intro f hf d hd
      have hrow := hrows f hf
      rw [ht]
      cases hcg : s.Coord_FaceElems_CG with
      | none =>
        rw [hcg] at hrow
        exact absurd (Nat.lt_of_lt_of_le hd hrow) (Nat.not_lt_zero d)
      | some cg =>
        rw [hcg] at hrow
        exact read2_faceCentroidLoop nDim T val_coord cg f d hf hd hrow
    refine ⟨st, rfl, hface, ?_⟩
    intro d hd
    have hval : ∀ f, f < T.GetnFaces →
        read2 0 ((s.Coord_FaceElems_CG.map (faceCentroidLoop nDim T val_coord)).getD []) f d
          = mean (faceNodeCoords T val_coord f d) := by
      intro f hf
      have h1 := (hface f hf d hd).2
      rw [ht] at h1
      exact h1
    rw [ht]
    cases hcg : s.Coord_CG with
    | none =>
      rw [hcg] at hlen
      exact absurd (Nat.lt_of_lt_of_le hd hlen) (Nat.not_lt_zero d)
    | some cg =>
      rw [hcg] at hlen
      have hlen2 : nDim ≤ cg.length := hlen
      show d < (centroidLoop nDim T.GetnFaces _ _ _ cg).length ∧
        (centroidLoop nDim T.GetnFaces _ _ _ cg).getD d none = _
      rw [centroidLoop_eq, Nat.min_eq_left hlen2]
      constructor
      · rw [List.length_append, List.length_map, List.length_range]
        exact Nat.lt_of_lt_of_le hd (Nat.le_add_right _ _)
      · rw [List.getD_append _ _ _ _ (by simpa using hd), getD_map_range _ _ d none hd]
        exact forLoop_congr T.GetnFaces _ _ _ (fun f hf acc => by rw [hval f hf])

/-- The second loop of `SetCoord_CG` does not depend on the contents of the
fresh storage of `Area`. -/
theorem areaLoop_junk {K : Type} [LinearOrderedField K] (sqrt : K → K)
    (CTRIA1 CQUAD4 : CElement K) (junk1 junk2 : Nat → K) (nDim : Nat) (T : Topology)
    (val_coord : Nat → Nat → K) :
    areaLoop sqrt CTRIA1 CQUAD4 junk1 nDim T val_coord
      = areaLoop sqrt CTRIA1 CQUAD4 junk2 nDim T val_coord := by
  by_cases hall : ∀ f, f < T.GetnFaces →
      faceMeasure sqrt CTRIA1 CQUAD4 nDim T val_coord f
        = some ((faceMeasure sqrt CTRIA1 CQUAD4 nDim T val_coord f).getD 0)
  · rw [areaLoop_eq sqrt CTRIA1 CQUAD4 junk1 nDim T val_coord _ hall,
      areaLoop_eq sqrt CTRIA1 CQUAD4 junk2 nDim T val_coord _ hall]
  · have hex : ∃ f, f < T.GetnFaces ∧
        faceMeasure sqrt CTRIA1 CQUAD4 nDim T val_coord f = none := by
      by_contra hno
      apply hall
      intro f hf
      cases hfm : faceMeasure sqrt CTRIA1 CQUAD4 nDim T val_coord f with
      | none => exact absurd ⟨f, hf, hfm⟩ hno
      | some a => rfl
    obtain ⟨f, hf, hnone⟩ := hex
    rw [areaLoop_none sqrt CTRIA1 CQUAD4 junk1 nDim T val_coord f hf hnone,
      areaLoop_none sqrt CTRIA1 CQUAD4 junk2 nDim T val_coord f hf hnone]

/-- The centroid that `SetCoord_CG` stores for face measures `m f` that are
not negative, one of them not zero, with largest value `M`: the weighted mean
of the face centroids, which are the means of the node coordinates of the
faces. -/
theorem SetCoord_CG_formula {K : Type} [LinearOrderedField K] (sqrt : K → K)
    (CTRIA1 CQUAD4 : CElement K) (junkA : Nat → K) (nDim : Nat) (T : Topology)
    (val_coord : Nat → Nat → K) (s : CPrimalGrid K) (m : Nat → K) (M : K)
    (halloc : storageAllocated nDim T.GetnFaces s = true)
    (hm : ∀ f, f < T.GetnFaces → faceMeasure sqrt CTRIA1 CQUAD4 nDim T val_coord f = some (m f))
    (hnonneg : ∀ f, f < T.GetnFaces → 0 ≤ m f)
    (hM : ∀ f, f < T.GetnFaces → m f ≤ M) (hat : ∃ f, f < T.GetnFaces ∧ m f = M)
    (hMpos : 0 < M) :
    ∃ t, SetCoord_CG sqrt CTRIA1 CQUAD4 junkA nDim T val_coord s = some t ∧
      ∀ d, d < nDim →
        d < (t.Coord_CG.getD []).length ∧
        (t.Coord_CG.getD []).getD d none
          = some ((∑ f in Finset.range T.GetnFaces,
                mean (faceNodeCoords T val_coord f d) * (m f / M) ^ 2)
              / ∑ f in Finset.range T.GetnFaces, (m f / M) ^ 2) := by
  have hTot : (∑ f in Finset.range T.GetnFaces, (m f / M) ^ 2) ≠ 0 :=
    ne_of_gt (lt_of_lt_of_le one_pos (one_le_totalWeight m T.GetnFaces M hMpos hat))
  have hret := SetCoord_CG_eq sqrt CTRIA1 CQUAD4 junkA nDim T val_coord s m halloc hm
  refine ⟨_, hret, ?_⟩
  obtain ⟨st, hst, _, hcg⟩ :=
    SetCoord_CG_entries sqrt CTRIA1 CQUAD4 junkA nDim T val_coord s _ hret
  rw [areaLoop_eq sqrt CTRIA1 CQUAD4 junkA nDim T val_coord m hm] at hst
  have hst2 := (Option.some.inj hst).symm
  intro d hd
  refine ⟨(hcg d hd).1, ?_⟩
  rw [(hcg d hd).2, hst2]
  simp only
  rw [maxLoop_eq m T.GetnFaces M hnonneg hM hat,
    weightLoop_measures m T.GetnFaces M (ne_of_gt hMpos)]
  exact centroid_slot T.GetnFaces _ _ _ hTot

/-- Claim C11: for a quadrilateral in two dimensions (faces joining consecutive
nodes) whose four faces have one common length `L`, not zero, `SetCoord_CG`
returns and stores as centroid, in each dimension, the simple average of the
coordinates of the four nodes. -/
theorem SetCoord_CG_regular_quadrilateral {K : Type} [LinearOrderedField K] (sqrt : K → K)
    (CTRIA1 CQUAD4 : CElement K) (junkA : Nat → K) (val_coord : Nat → Nat → K)
    (s : CPrimalGrid K) (L : K)
    (halloc : storageAllocated 2 4 s = true)
    (hL : ∀ f, f < 4 → faceLength2D sqrt quadrilateral val_coord f = L) (hpos : 0 < L) :
    ∃ t, SetCoord_CG sqrt CTRIA1 CQUAD4 junkA 2 quadrilateral val_coord s = some t ∧
      ∀ d, d < 2 →
        d < (t.Coord_CG.getD []).length ∧
        (t.Coord_CG.getD []).getD d none
          = some (mean [val_coord 0 d, val_coord 1 d, val_coord 2 d, val_coord 3 d]) := by
  have h0 : sqrt ((val_coord 1 0 - val_coord 0 0) ^ 2 + (val_coord 1 1 - val_coord 0 1) ^ 2)
      = L := hL 0 (by decide)
  obtain ⟨t, ht, h⟩ := SetCoord_CG_formula sqrt CTRIA1 CQUAD4 junkA 2 quadrilateral val_coord s
    (fun _ => L) L halloc
    (fun f _ => by rw [faceMeasure_2D _ _ _ _ _ _ _ (by decide), h0])
    (fun _ _ => le_of_lt hpos) (fun _ _ => le_refl _) ⟨0, by decide, rfl⟩ hpos
  refine ⟨t, ht, ?_⟩
  intro d hd
  refine ⟨(h d hd).1, ?_⟩
  rw [(h d hd).2]
  have hq : quadrilateral.GetnFaces = 4 := rfl
  rw [hq, div_self (ne_of_gt hpos)]
  simp only [Finset.sum_range_succ, Finset.sum_range_zero, mean, faceNodeCoords]
  simp only [quadrilateral, List.range_succ, List.range_zero, List.nil_append,
    List.cons_append, List.map_cons, List.map_nil, List.sum_cons, List.sum_nil,
    List.length_cons, List.length_nil, List.getD_cons_zero, List.getD_cons_succ]
  congr 1
  push_cast
  ring

theorem SetCoord_CG_regular_quadrilateral_witness :
    ∃ t, SetCoord_CG Rat.sqrt (noShape ℚ) (noShape ℚ) (fun _ => 0) 2 quadrilateral
        (coordTable [[0, 0], [1, 0], [1, 1], [0, 1]]) (withCentroidStorage ℚ 2 4) = some t ∧
      (t.Coord_CG.getD []).getD 0 none = some (1 / 2) ∧
      (t.Coord_CG.getD []).getD 1 none = some (1 / 2) := by
  have h1 : Rat.sqrt 1 = 1 := by
    have h := Rat.sqrt_eq 1
    rw [mul_one, abs_one] at h
    exact h
  obtain ⟨t, ht, h⟩ := SetCoord_CG_regular_quadrilateral Rat.sqrt (noShape ℚ) (noShape ℚ)
    (fun _ => 0) (coordTable [[0, 0], [1, 0], [1, 1], [0, 1]]) (withCentroidStorage ℚ 2 4) 1
    (by decide)
    (fun f hf => by
      have h2 : f = 0 ∨ f = 1 ∨ f = 2 ∨ f = 3 := by omega
      rcases h2 with h2 | h2 | h2 | h2 <;> subst h2 <;>
        norm_num [faceLength2D, quadrilateral, coordTable, h1])
    one_pos
  refine ⟨t, ht, ?_, ?_⟩
  · rw [(h 0 (by decide)).2]
    norm_num [mean, coordTable]
  · rw [(h 1 (by decide)).2]
    norm_num [mean, coordTable]

/-- Claim C12: for face measures `m f` that are not negative, one of them
positive, the second loop of `SetCoord_CG` ends with `MaxArea > 0`, the third
loop gives every face a defined weight, the weight `0` to every face of measure
zero, and a total weight `TotalArea ≥ 1`; `SetCoord_CG` returns, every
slot of `Coord_CG` holds a defined value (no division by zero), and this
value is the weighted sum over the faces of measure not zero only, divided by
the total weight. -/
theorem SetCoord_CG_zero_faces_suppressed {K : Type} [LinearOrderedField K] (sqrt : K → K)
    (CTRIA1 CQUAD4 : CElement K) (junkA : Nat → K) (nDim : Nat) (T : Topology)
    (val_coord : Nat → Nat → K) (s : CPrimalGrid K) (m : Nat → K)
    (halloc : storageAllocated nDim T.GetnFaces s = true)
    (hm : ∀ f, f < T.GetnFaces → faceMeasure sqrt CTRIA1 CQUAD4 nDim T val_coord f = some (m f))
    (hnonneg : ∀ f, f < T.GetnFaces → 0 ≤ m f)
    (hpos : ∃ f, f < T.GetnFaces ∧ 0 < m f) :
    ∃ Area MaxArea W TotalArea t,
      areaLoop sqrt CTRIA1 CQUAD4 junkA nDim T val_coord = some (Area, MaxArea) ∧
      0 < MaxArea ∧
      weightLoop T.GetnFaces MaxArea (Area.map some) = (W, some TotalArea) ∧
      1 ≤ TotalArea ∧
      (∀ f, f < T.GetnFaces → W.getD f none = some ((m f / MaxArea) ^ 2)) ∧
      (∀ f, f < T.GetnFaces → m f = 0 → W.getD f none = some 0) ∧
      SetCoord_CG sqrt CTRIA1 CQUAD4 junkA nDim T val_coord s = some t ∧
      ∀ d, d < nDim →
        (t.Coord_CG.getD []).getD d none
          = some ((∑ f in (Finset.range T.GetnFaces).filter (fun f => m f ≠ 0),
                mean (faceNodeCoords T val_coord f d) * (m f / MaxArea) ^ 2) / TotalArea) := by
  obtain ⟨h0, hle, hor⟩ := maxLoop_spec m T.GetnFaces
  obtain ⟨f0, hf0, hf0pos⟩ := hpos
  have hMpos : 0 < forLoop T.GetnFaces (fun f M => max (m f) M) (0 : K) :=
    lt_of_lt_of_le hf0pos (hle f0 hf0)
  have hat : ∃ f, f < T.GetnFaces ∧ m f = forLoop T.GetnFaces (fun f M => max (m f) M) (0 : K) := by
    rcases hor with h1 | h1
    · exact absurd h1 (ne_of_gt hMpos)
    · exact h1
  have hW := weightLoop_measures m T.GetnFaces _ (ne_of_gt hMpos)
  obtain ⟨t, ht, hcg⟩ := SetCoord_CG_formula sqrt CTRIA1 CQUAD4 junkA nDim T val_coord s m _
    halloc hm hnonneg hle hat hMpos
  have hWf : ∀ f, f < T.GetnFaces →
      ((List.range T.GetnFaces).map (fun f => some
        ((m f / forLoop T.GetnFaces (fun f M => max (m f) M) (0 : K)) ^ 2))).getD f none
        = some ((m f / forLoop T.GetnFaces (fun f M => max (m f) M) (0 : K)) ^ 2) :=
    fun f hf => getD_map_range _ _ f none hf
  refine ⟨_, _, _, _, t, areaLoop_eq sqrt CTRIA1 CQUAD4 junkA nDim T val_coord m hm, hMpos, hW,
    one_le_totalWeight m T.GetnFaces _ hMpos hat, hWf, ?_, ht, ?_⟩
  · intro f hf hzero
    rw [hWf f hf, hzero, zero_div]
    simp
  · intro d hd
    rw [(hcg d hd).2, Finset.sum_filter]
    congr 2
    apply Finset.sum_congr rfl
    intro f _
    by_cases hz : m f = 0
    · simp [hz]
    · simp [hz]

/-- Claim C18: in three dimensions the measure that `SetCoord_CG` stores for a
face of three nodes is the area given by the shape object `CTRIA1`, for a face
of four nodes the area given by `CQUAD4`, each for the coordinates of the nodes
of the face in the order of the face; the index `GetnNodesFace(f)-3` lies in
the table of two shape objects exactly when the face has three or four nodes,
a face with another number of nodes has no shape object, and a call of
`SetCoord_CG` for an element with such a face is undefined. -/
theorem shape_selection {K : Type} [LinearOrderedField K] (sqrt : K → K)
    (CTRIA1 CQUAD4 : CElement K) (junkA : Nat → K) (T : Topology)
    (val_coord : Nat → Nat → K) (s : CPrimalGrid K) (f : Nat) :
    faceMeasure sqrt CTRIA1 CQUAD4 3 T val_coord f
      = (if T.GetnNodesFace f = 3 then
          some (CTRIA1.ComputeArea ((List.range 3).map fun iNode =>
            [val_coord (T.GetFaces f iNode) 0, val_coord (T.GetFaces f iNode) 1,
              val_coord (T.GetFaces f iNode) 2]))
        else if T.GetnNodesFace f = 4 then
          some (CQUAD4.ComputeArea ((List.range 4).map fun iNode =>
            [val_coord (T.GetFaces f iNode) 0, val_coord (T.GetFaces f iNode) 1,
              val_coord (T.GetFaces f iNode) 2]))
        else none) ∧
    ((0 ≤ (T.GetnNodesFace f : Int) - 3 ∧ (T.GetnNodesFace f : Int) - 3 < 2) ↔
      (T.GetnNodesFace f = 3 ∨ T.GetnNodesFace f = 4)) ∧
    ((selectElement (elementTable CTRIA1 CQUAD4 3) (T.GetnNodesFace f)).isSome = true ↔
      (T.GetnNodesFace f = 3 ∨ T.GetnNodesFace f = 4)) ∧
    (f < T.GetnFaces → ¬ (T.GetnNodesFace f = 3 ∨ T.GetnNodesFace f = 4) →
      SetCoord_CG sqrt CTRIA1 CQUAD4 junkA 3 T val_coord s = none) ∧
    ((∀ g, g < T.GetnFaces → T.GetnNodesFace g = 3 ∨ T.GetnNodesFace g = 4) →
      (areaLoop sqrt CTRIA1 CQUAD4 junkA 3 T val_coord).map Prod.fst
        = some ((List.range T.GetnFaces).map fun g =>
            if T.GetnNodesFace g = 3 then CTRIA1.ComputeArea (refCoords 3 T val_coord g)
            else CQUAD4.ComputeArea (refCoords 3 T val_coord g))) := by
  refine ⟨?_, by omega, ?_, ?_, ?_⟩
  · rw [faceMeasure_3D]
    by_cases h3 : T.GetnNodesFace f = 3
    · rw [if_pos h3, if_pos h3]
      simp [refCoords, h3, List.range_succ]
    · rw [if_neg h3, if_neg h3]
      by_cases h4 : T.GetnNodesFace f = 4
      · rw [if_pos h4, if_pos h4]
        simp [refCoords, h4, List.range_succ]
      · rw [if_neg h4, if_neg h4]
  · rw [selectElement_table]
    by_cases h3 : T.GetnNodesFace f = 3
    · simp [h3]
    · by_cases h4 : T.GetnNodesFace f = 4
      · simp [h4]
      · simp [h3, h4]
  · intro hf hbad
    have hnone : faceMeasure sqrt CTRIA1 CQUAD4 3 T val_coord f = none := by
      rw [faceMeasure_3D, if_neg (fun h => hbad (Or.inl h)), if_neg (fun h => hbad (Or.inr h))]
    by_cases halloc : storageAllocated 3 T.GetnFaces s = true
    · rw [SetCoord_CG_of_areaLoop sqrt CTRIA1 CQUAD4 junkA 3 T val_coord s halloc,
        areaLoop_none sqrt CTRIA1 CQUAD4 junkA 3 T val_coord f hf hnone]
      rfl
    · unfold SetCoord_CG
      rw [if_neg halloc]
  · intro hall
    rw [areaLoop_eq sqrt CTRIA1 CQUAD4 junkA 3 T val_coord
      (fun g => if T.GetnNodesFace g = 3 then CTRIA1.ComputeArea (refCoords 3 T val_coord g)
        else CQUAD4.ComputeArea (refCoords 3 T val_coord g))
      (fun g hg => by
        rw [faceMeasure_3D]
        rcases hall g hg with h3 | h4
        · rw [if_pos h3]
          simp only [h3, if_true]
        · have h3 : T.GetnNodesFace g ≠ 3 := by omega
          rw [if_neg h3, if_pos h4]
          simp only [h3, if_false])]
    rfl

/-- The measures of the faces of the tetrahedron with the nodes `(0,0,0)`,
`(3,0,0)`, `(0,4,0)`, `(0,0,0)`: two faces of area `6` and two faces of area `0`. -/
theorem faceMeasure_flat_tetrahedron (f : Nat) (hf : f < 4) :
    faceMeasure Rat.sqrt (triangleArea Rat.sqrt) (noShape ℚ) 3 tetrahedron
        (coordTable [[0, 0, 0], [3, 0, 0], [0, 4, 0], [0, 0, 0]]) f
      = some (([6, 0, 0, 6] : List ℚ).getD f 0) := by
  have h144 : Rat.sqrt 144 = 12 := by
    rw [show (144 : ℚ) = 12 * 12 by norm_num, Rat.sqrt_eq, abs_of_nonneg (by norm_num)]
  have h0 : Rat.sqrt 0 = 0 := by
    have h := Rat.sqrt_eq 0
    rw [mul_zero, abs_zero] at h
    exact h
  have h2 : f = 0 ∨ f = 1 ∨ f = 2 ∨ f = 3 := by omega
  rcases h2 with h2 | h2 | h2 | h2 <;> subst h2 <;>
    rw [faceMeasure_3D_tria _ _ _ _ _ _ rfl] <;>
    norm_num [triangleArea, refCoords, tetrahedron, coordTable, List.range_succ, h144, h0]

theorem SetCoord_CG_zero_faces_suppressed_witness :
    ∃ Area MaxArea W TotalArea t,
      areaLoop Rat.sqrt (triangleArea Rat.sqrt) (noShape ℚ) (fun _ => 0) 3 tetrahedron
        (coordTable [[0, 0, 0], [3, 0, 0], [0, 4, 0], [0, 0, 0]]) = some (Area, MaxArea) ∧
      0 < MaxArea ∧
      weightLoop 4 MaxArea (Area.map some) = (W, some TotalArea) ∧
      1 ≤ TotalArea ∧
      W.getD 1 none = some 0 ∧ W.getD 2 none = some 0 ∧
      SetCoord_CG Rat.sqrt (triangleArea Rat.sqrt) (noShape ℚ) (fun _ => 0) 3 tetrahedron
        (coordTable [[0, 0, 0], [3, 0, 0], [0, 4, 0], [0, 0, 0]]) (withCentroidStorage ℚ 3 4)
        = some t := by
  obtain ⟨Area, MaxArea, W, TotalArea, t, h1, h2, h3, h4, _, h6, h7, _⟩ :=
    SetCoord_CG_zero_faces_suppressed Rat.sqrt (triangleArea Rat.sqrt) (noShape ℚ) (fun _ => 0)
      3 tetrahedron (coordTable [[0, 0, 0], [3, 0, 0], [0, 4, 0], [0, 0, 0]])
      (withCentroidStorage ℚ 3 4) (fun f => ([6, 0, 0, 6] : List ℚ).getD f 0)
      (by decide) faceMeasure_flat_tetrahedron
      (fun f hf => by
        have h2 : f = 0 ∨ f = 1 ∨ f = 2 ∨ f = 3 := by
          have hf4 : f < 4 := hf
          omega
        rcases h2 with h2 | h2 | h2 | h2 <;> subst h2 <;> norm_num)
      ⟨0, by decide, by norm_num⟩
  exact ⟨Area, MaxArea, W, TotalArea, t, h1, h2, h3, h4, h6 1 (by decide) (by norm_num),
    h6 2 (by decide) (by norm_num), h7⟩

theorem shape_selection_witness :
    faceMeasure Rat.sqrt (triangleArea Rat.sqrt) (noShape ℚ) 3 tetrahedron
        (coordTable [[0, 0, 0], [3, 0, 0], [0, 4, 0], [0, 0, 0]]) 0
      = some ((triangleArea Rat.sqrt).ComputeArea [[0, 0, 0], [0, 4, 0], [3, 0, 0]]) ∧
    SetCoord_CG Rat.sqrt (triangleArea Rat.sqrt) (noShape ℚ) (fun _ => 0) 3 triangle
        (coordTable [[0, 0, 0], [3, 0, 0], [0, 4, 0]]) (withCentroidStorage ℚ 3 3) = none := by
  constructor
  · rw [(shape_selection Rat.sqrt (triangleArea Rat.sqrt) (noShape ℚ) (fun _ => 0) tetrahedron
      (coordTable [[0, 0, 0], [3, 0, 0], [0, 4, 0], [0, 0, 0]]) (withCentroidStorage ℚ 3 4) 0).1]
    norm_num [tetrahedron, coordTable, List.range_succ]
  · exact (shape_selection Rat.sqrt (triangleArea Rat.sqrt) (noShape ℚ) (fun _ => 0) triangle
      (coordTable [[0, 0, 0], [3, 0, 0], [0, 4, 0]]) (withCentroidStorage ℚ 3 3) 0).2.2.2.1
      (by decide) (by decide)

/-! ## The element whose faces all have measure zero -/

theorem Val.add_none {K : Type} [LinearOrderedField K] (x : Val K) : Val.add x none = none := by
  cases x <;> rfl

theorem Val.div_none {K : Type} [LinearOrderedField K] (x : Val K) : Val.div x none = none := by
  cases x <;> rfl

theorem Val.div_zero {K : Type} [LinearOrderedField K] (x : Val K) :
    Val.div x (some 0) = none := by
  cases x with
  | none => rfl
  | some a => simp [Val.div]

/-- A sum with undefined terms only, over at least one term, is undefined. -/
theorem sumLoop_none {K : Type} [LinearOrderedField K] (g : Nat → Val K) (n : Nat) (hn : 0 < n)
    (hg : ∀ f, f < n → g f = none) (init : Val K) :
    forLoop n (fun f acc => Val.add acc (g f)) init = none := by
  obtain ⟨k, rfl⟩ : ∃ k, n = k + 1 := ⟨n - 1, by omega⟩
  rw [forLoop_succ, hg k (Nat.lt_succ_self k), Val.add_none]

/-- The weights and their total when `MaxArea` is zero: all undefined. -/
theorem weightLoop_zero {K : Type} [LinearOrderedField K] (m : Nat → K) (n : Nat) (hn : 0 < n) :
    weightLoop n 0 (((List.range n).map m).map some)
      = ((List.range n).map (fun _ => none), none) := by
  have h := weightLoop_eq (0 : K) (((List.range n).map m).map some)
  simp only [List.length_map, List.length_range] at h
  rw [h]
  have hw : ∀ v : Val K, Val.sq (Val.div v (some 0)) = none := by
    intro v
    rw [Val.div_zero]
    rfl
  congr 1
  · apply List.map_congr_left
    intro f _
    exact hw _
  · exact sumLoop_none _ n hn (fun f _ => hw _) _

/-- Claim C13, as amended: for an element with at least one face whose faces
all have measure zero, `SetCoord_CG` returns with `MaxArea = 0`, so that the
division `Area[iFace]/MaxArea` is a division by zero for every face: every
weight and `TotalArea` are undefined, and every slot of `Coord_CG` holds an
undefined value; no other value is stored in its place.  The face centroids
are stored as for every element. -/
theorem SetCoord_CG_degenerate {K : Type} [LinearOrderedField K] (sqrt : K → K)
    (CTRIA1 CQUAD4 : CElement K) (junkA : Nat → K) (nDim : Nat) (T : Topology)
    (val_coord : Nat → Nat → K) (s : CPrimalGrid K)
    (halloc : storageAllocated nDim T.GetnFaces s = true)
    (hfaces : 0 < T.GetnFaces)
    (hm : ∀ f, f < T.GetnFaces → faceMeasure sqrt CTRIA1 CQUAD4 nDim T val_coord f = some 0) :
    ∃ Area t,
      areaLoop sqrt CTRIA1 CQUAD4 junkA nDim T val_coord = some (Area, 0) ∧
      (∀ f, f < T.GetnFaces → Val.div ((Area.map some).getD f none) (some 0) = none ∧
        ((weightLoop T.GetnFaces 0 (Area.map some)).1)[f]? = some none) ∧
      (weightLoop T.GetnFaces 0 (Area.map some)).2 = none ∧
      SetCoord_CG sqrt CTRIA1 CQUAD4 junkA nDim T val_coord s = some t ∧
      (∀ d, d < nDim → (t.Coord_CG.getD [])[d]? = some none) ∧
      ∀ f, f < T.GetnFaces → ∀ d, d < nDim →
        read2 0 (t.Coord_FaceElems_CG.getD []) f d = mean (faceNodeCoords T val_coord f d) := by
  have hmax : forLoop T.GetnFaces (fun f M => max ((fun _ => (0 : K)) f) M) (0 : K) = 0 :=
    maxLoop_eq (fun _ => (0 : K)) T.GetnFaces 0 (fun _ _ => le_refl _) (fun _ _ => le_refl _)
      ⟨0, hfaces, rfl⟩
  have harea := areaLoop_eq sqrt CTRIA1 CQUAD4 junkA nDim T val_coord (fun _ => 0) hm
  rw [hmax] at harea
  have hret := SetCoord_CG_eq sqrt CTRIA1 CQUAD4 junkA nDim T val_coord s (fun _ => 0) halloc hm
  obtain ⟨st, hst, hface, hcg⟩ :=
    SetCoord_CG_entries sqrt CTRIA1 CQUAD4 junkA nDim T val_coord s _ hret
  rw [harea] at hst
  have hst2 := (Option.some.inj hst).symm
  have hW := weightLoop_zero (fun _ => (0 : K)) T.GetnFaces hfaces
  refine ⟨_, _, harea, ?_, ?_, hret, ?_, fun f hf d hd => (hface f hf d hd).2⟩
  · intro f hf
    refine ⟨Val.div_zero _, ?_⟩
    rw [hW]
    simp [hf]
  · rw [hW]
  · intro d hd
    obtain ⟨hlen, hval⟩ := hcg d hd
    rw [hst2] at hval
    simp only at hval
    rw [hW] at hval
    simp only [Val.div_none] at hval
    rw [sumLoop_none _ T.GetnFaces hfaces (fun _ _ => rfl)] at hval
    rw [List.getElem?_eq_getElem hlen, ← List.getD_eq_getElem _ none hlen, hval]

theorem SetCoord_CG_degenerate_witness :
    ∃ Area t,
      areaLoop Rat.sqrt (noShape ℚ) (noShape ℚ) (fun _ => 5) 2 triangle
        (coordTable [[1, 2], [1, 2], [1, 2]]) = some (Area, 0) ∧
      SetCoord_CG Rat.sqrt (noShape ℚ) (noShape ℚ) (fun _ => 5) 2 triangle
        (coordTable [[1, 2], [1, 2], [1, 2]]) (withCentroidStorage ℚ 2 3) = some t ∧
      (t.Coord_CG.getD [])[0]? = some none ∧ (t.Coord_CG.getD [])[1]? = some none := by
  have h0 : Rat.sqrt 0 = 0 := by
    have h := Rat.sqrt_eq 0
    rw [mul_zero, abs_zero] at h
    exact h
  obtain ⟨Area, t, h1, _, _, h4, h5, _⟩ := SetCoord_CG_degenerate Rat.sqrt (noShape ℚ)
    (noShape ℚ) (fun _ => 5) 2 triangle (coordTable [[1, 2], [1, 2], [1, 2]])
    (withCentroidStorage ℚ 2 3) (by decide) (by decide)
    (fun f _ => by
      rw [faceMeasure_2D _ _ _ _ _ _ _ (by decide)]
      norm_num [coordTable, h0])
  exact ⟨Area, t, h1, h4, h5 0 (by decide), h5 1 (by decide)⟩

/-- Claim C13, as stated, at two elements.  In the triangle whose three nodes
are at `(1,2)` every face has measure zero: the second loop ends with
`MaxArea = 0`, the division by zero is the division by `MaxArea`, and
`TotalArea` is undefined, not zero.  In the element without faces every face
has measure zero and no division by zero is reached: the centroid `(0,0)` is
stored. -/
theorem degenerate_totalWeight_not_zero :
    areaLoop Rat.sqrt (noShape ℚ) (noShape ℚ) (fun _ => 5) 2 triangle
        (coordTable [[1, 2], [1, 2], [1, 2]]) = some ([0, 0, 0], 0) ∧
    (weightLoop 3 0 (([0, 0, 0] : List ℚ).map some)).2 = none ∧
    (weightLoop 3 0 (([0, 0, 0] : List ℚ).map some)).2 ≠ some 0 ∧
    (SetCoord_CG Rat.sqrt (noShape ℚ) (noShape ℚ) (fun _ => 5) 2 noFaces
        (coordTable [[1, 2]]) (withCentroidStorage ℚ 2 0)).map (fun t => t.Coord_CG)
      = some (some [some 0, some 0]) := by
  have h0 : Rat.sqrt 0 = 0 := by
    have h := Rat.sqrt_eq 0
    rw [mul_zero, abs_zero] at h
    exact h
  have hW := weightLoop_zero (fun _ => (0 : ℚ)) 3 (by decide)
  have hlist : ((List.range 3).map (fun _ => (0 : ℚ))).map some
      = (([0, 0, 0] : List ℚ).map some) := rfl
  rw [hlist] at hW
  refine ⟨?_, ?_, ?_, ?_⟩
  · have harea := areaLoop_eq Rat.sqrt (noShape ℚ) (noShape ℚ) (fun _ => 5) 2 triangle
      (coordTable [[1, 2], [1, 2], [1, 2]]) (fun _ => 0)
      (fun f _ => by
        rw [faceMeasure_2D _ _ _ _ _ _ _ (by decide)]
        norm_num [coordTable, h0])
    rw [harea, maxLoop_eq (fun _ => (0 : ℚ)) triangle.GetnFaces 0 (fun _ _ => le_refl _)
      (fun _ _ => le_refl _) ⟨0, by decide, rfl⟩]
    rfl
  · rw [hW]
  · rw [hW]
    exact fun h => Option.noConfusion h
  · rfl

/-! ## Repeated calls of `SetCoord_CG` -/

theorem ext_getD {α : Type} (d : α) (l1 l2 : List α) (hl : l1.length = l2.length)
    (h : ∀ i, l1.getD i d = l2.getD i d) : l1 = l2 := by
  apply List.ext_getElem hl
  intro i h1 h2
  rw [← List.getD_eq_getElem _ d h1, ← List.getD_eq_getElem _ d h2]
  exact h i

/-- The slots after a loop that assigns slot `i` a value computed from `i` and
from the value the slot holds. -/
theorem forLoop_set_read_getD {α : Type} (d : α) (h : Nat → α → α) (a : List α) (m i : Nat) :
    (forLoop m (fun i t => t.set i (h i (t.getD i d))) a).getD i d
      = if i < min m a.length then h i (a.getD i d) else a.getD i d := by
  rw [forLoop_set_read_min]
  by_cases hi : i < min m a.length
  · rw [if_pos hi, List.getD_append _ _ _ _ (by simpa using hi), getD_map_range _ _ i d hi]
  · have hle : min m a.length ≤ i := Nat.le_of_not_lt hi
    rw [if_neg hi, List.getD_append_right _ _ _ _
      (by rw [List.length_map, List.length_range]; exact hle)]
    simp only [List.length_map, List.length_range, List.getD_eq_getElem?_getD,
      List.getElem?_drop]
    rw [Nat.add_sub_cancel' hle]

/-- Such a loop, run a second time, changes nothing when the assigned value
does not change under a second computation. -/
theorem forLoop_set_read_idem {α : Type} (d : α) (h : Nat → α → α) (a : List α) (m : Nat)
    (hh : ∀ i x, h i (h i x) = h i x) :
    forLoop m (fun i t => t.set i (h i (t.getD i d)))
        (forLoop m (fun i t => t.set i (h i (t.getD i d))) a)
      = forLoop m (fun i t => t.set i (h i (t.getD i d))) a := by
  apply ext_getD d
  · rw [length_forLoop_set]
  · intro i
    rw [forLoop_set_read_getD, length_forLoop_set, forLoop_set_read_getD]
    by_cases hi : i < min m a.length
    · simp only [if_pos hi, hh]
    · simp only [if_neg hi]

/-- The row that the first loop nest of `SetCoord_CG` leaves for one face. -/
theorem faceCentroidLoop_rows {K : Type} [LinearOrderedField K] (nDim : Nat) (T : Topology)
    (val_coord : Nat → Nat → K) (cg : List (List K)) :
    faceCentroidLoop nDim T val_coord cg
      = forLoop T.GetnFaces (fun iFace c => c.set iFace
          ((fun iFace (r : List K) =>
            (List.range (min nDim r.length)).map
                (fun iDim => mean (faceNodeCoords T val_coord iFace iDim))
              ++ r.drop (min nDim r.length)) iFace (c.getD iFace []))) cg := by
  unfold faceCentroidLoop
  simp only [faceCentroid_row]

theorem faceCentroidLoop_idem {K : Type} [LinearOrderedField K] (nDim : Nat) (T : Topology)
    (val_coord : Nat → Nat → K) (cg : List (List K)) :
    faceCentroidLoop nDim T val_coord (faceCentroidLoop nDim T val_coord cg)
      = faceCentroidLoop nDim T val_coord cg := by
  rw [faceCentroidLoop_rows nDim T val_coord (faceCentroidLoop nDim T val_coord cg),
    faceCentroidLoop_rows nDim T val_coord cg]
  refine forLoop_set_read_idem ([] : List K) (fun iFace (r : List K) =>
    (List.range (min nDim r.length)).map
        (fun iDim => mean (faceNodeCoords T val_coord iFace iDim))
      ++ r.drop (min nDim r.length)) cg T.GetnFaces ?_
  intro f r
  have hl : ((List.range (min nDim r.length)).map
      (fun iDim => mean (faceNodeCoords T val_coord f iDim))
        ++ r.drop (min nDim r.length)).length = r.length := by
    rw [List.length_append, List.length_map, List.length_range, List.length_drop]
    omega
  simp only [hl]
  rw [List.drop_left' (by simp)]

/-- The rows keep their lengths in the first loop nest of `SetCoord_CG`. -/
theorem length_row_faceCentroidLoop {K : Type} [LinearOrderedField K] (nDim : Nat)
    (T : Topology) (val_coord : Nat → Nat → K) (cg : List (List K)) (f : Nat) :
    ((faceCentroidLoop nDim T val_coord cg).getD f []).length = (cg.getD f []).length := by
  rw [faceCentroidLoop_rows]
  have h := forLoop_set_read_getD ([] : List K) (fun iFace (r : List K) =>
    (List.range (min nDim r.length)).map
        (fun iDim => mean (faceNodeCoords T val_coord iFace iDim))
      ++ r.drop (min nDim r.length)) cg T.GetnFaces f
  simp only at h ⊢
  rw [h]
  by_cases hi : f < min T.GetnFaces cg.length
  · rw [if_pos hi, List.length_append, List.length_map, List.length_range, List.length_drop]
    omega
  · rw [if_neg hi]

/-- The last loop nest of `SetCoord_CG` as one assignment for each slot. -/
theorem centroidLoop_slots {K : Type} [LinearOrderedField K] (nDim nFaces : Nat)
    (faceCG : List (List K)) (Area : List (Val K)) (TotalArea : Val K) (cg : List (Val K)) :
    centroidLoop nDim nFaces faceCG Area TotalArea cg
      = forLoop nDim (fun iDim c => c.set iDim
          ((fun iDim (_ : Val K) =>
            forLoop nFaces (fun iFace acc =>
              Val.add acc (Val.div (Val.mul (some (read2 0 faceCG iFace iDim))
                (Area.getD iFace none)) TotalArea)) (some 0)) iDim (c.getD iDim none))) cg := by
  unfold centroidLoop
  apply forLoop_congr
  intro iDim _ c
  have h1 := forLoop_slot iDim (none : Val K) (fun iFace acc =>
      Val.add acc (Val.div (Val.mul (some (read2 0 faceCG iFace iDim))
        (Area.getD iFace none)) TotalArea)) nFaces (c.set iDim (some 0))
  simp only
  rw [h1]
  rcases Nat.lt_or_ge iDim c.length with hd | hd
  · rw [getD_set_self _ _ _ _ hd, List.set_set]
  · rw [List.set_eq_of_length_le hd, List.set_eq_of_length_le hd, List.set_eq_of_length_le hd]

theorem centroidLoop_idem {K : Type} [LinearOrderedField K] (nDim nFaces : Nat)
    (faceCG : List (List K)) (Area : List (Val K)) (TotalArea : Val K) (cg : List (Val K)) :
    centroidLoop nDim nFaces faceCG Area TotalArea
        (centroidLoop nDim nFaces faceCG Area TotalArea cg)
      = centroidLoop nDim nFaces faceCG Area TotalArea cg := by
  rw [centroidLoop_slots nDim nFaces faceCG Area TotalArea
      (centroidLoop nDim nFaces faceCG Area TotalArea cg),
    centroidLoop_slots nDim nFaces faceCG Area TotalArea cg]
  exact forLoop_set_read_idem (none : Val K) (fun iDim (_ : Val K) =>
    forLoop nFaces (fun iFace acc =>
      Val.add acc (Val.div (Val.mul (some (read2 0 faceCG iFace iDim))
        (Area.getD iFace none)) TotalArea)) (some 0)) cg nDim (fun _ _ => rfl)

theorem length_centroidLoop {K : Type} [LinearOrderedField K] (nDim nFaces : Nat)
    (faceCG : List (List K)) (Area : List (Val K)) (TotalArea : Val K) (cg : List (Val K)) :
    (centroidLoop nDim nFaces faceCG Area TotalArea cg).length = cg.length := by
  rw [centroidLoop_slots]
  exact length_forLoop_set (none : Val K) (fun iDim (_ : Val K) =>
    forLoop nFaces (fun iFace acc =>
      Val.add acc (Val.div (Val.mul (some (read2 0 faceCG iFace iDim))
        (Area.getD iFace none)) TotalArea)) (some 0)) cg nDim

theorem CPrimalGrid.eq_of_fields {K : Type} (a b : CPrimalGrid K)
    (h1 : a.Nodes = b.Nodes) (h2 : a.Neighbor_Elements = b.Neighbor_Elements)
    (h3 : a.ElementOwnsFace = b.ElementOwnsFace)
    (h4 : a.PeriodIndexNeighbors = b.PeriodIndexNeighbors)
    (h5 : a.Coord_CG = b.Coord_CG) (h6 : a.Coord_FaceElems_CG = b.Coord_FaceElems_CG)
    (h7 : a.JacobianFaceIsConstant = b.JacobianFaceIsConstant)
    (h8 : a.GlobalIndex = b.GlobalIndex)
    (h9 : a.nProcElemIsOnlyInterpolDonor = b.nProcElemIsOnlyInterpolDonor)
    (h10 : a.ProcElemIsOnlyInterpolDonor = b.ProcElemIsOnlyInterpolDonor) : a = b := by
  cases a
  cases b
  simp only [CPrimalGrid.mk.injEq]
  exact ⟨h1, h2, h3, h4, h5, h6, h7, h8, h9, h10⟩

/-- A second call of `SetCoord_CG` with the same coordinates, on the element
that a first call has returned, returns this element unchanged. -/
theorem SetCoord_CG_again {K : Type} [LinearOrderedField K] (sqrt : K → K)
    (CTRIA1 CQUAD4 : CElement K) (junk1 junk2 : Nat → K) (nDim : Nat) (T : Topology)
    (val_coord : Nat → Nat → K) (s t : CPrimalGrid K)
    (h : SetCoord_CG sqrt CTRIA1 CQUAD4 junk1 nDim T val_coord s = some t) :
    SetCoord_CG sqrt CTRIA1 CQUAD4 junk2 nDim T val_coord t = some t := by
  have halloc := storageAllocated_of_some sqrt CTRIA1 CQUAD4 junk1 nDim T val_coord s t h
  obtain ⟨hlen, hrows⟩ := (storageAllocated_iff nDim T.GetnFaces s).mp halloc
  rw [SetCoord_CG_of_areaLoop sqrt CTRIA1 CQUAD4 junk1 nDim T val_coord s halloc] at h
  cases harea : areaLoop sqrt CTRIA1 CQUAD4 junk1 nDim T val_coord with
  | none =>
    rw [harea] at h
    cases h
  | some st =>
    rw [harea] at h
    have ht := (Option.some.inj h).symm
    have hF : t.Coord_FaceElems_CG
        = s.Coord_FaceElems_CG.map (faceCentroidLoop nDim T val_coord) := by rw [ht]
    have hC : t.Coord_CG = s.Coord_CG.map
        (centroidLoop nDim T.GetnFaces
          ((s.Coord_FaceElems_CG.map (faceCentroidLoop nDim T val_coord)).getD [])
          (weightLoop T.GetnFaces st.2 (st.1.map some)).1
          (weightLoop T.GetnFaces st.2 (st.1.map some)).2) := by rw [ht]
    have hFF : t.Coord_FaceElems_CG.map (faceCentroidLoop nDim T val_coord)
        = t.Coord_FaceElems_CG := by
      rw [hF]
      cases s.Coord_FaceElems_CG with
      | none => rfl
      | some cg =>
        show some _ = some _
        rw [faceCentroidLoop_idem]
    have halloc2 : storageAllocated nDim T.GetnFaces t = true := by
      rw [storageAllocated_iff]
      constructor
      · rw [hC]
        cases hcg : s.Coord_CG with
        | none =>
          rw [hcg] at hlen
          exact hlen
        | some cg =>
          rw [hcg] at hlen
          show nDim ≤ (centroidLoop nDim T.GetnFaces _ _ _ cg).length
          rw [length_centroidLoop]
          exact hlen
      · intro f hf
        have hrow := hrows f hf
        rw [hF]
        cases hcg : s.Coord_FaceElems_CG with
        | none =>
          rw [hcg] at hrow
          exact hrow
        | some cg =>
          rw [hcg] at hrow
          show nDim ≤ ((faceCentroidLoop nDim T val_coord cg).getD f []).length
          rw [length_row_faceCentroidLoop]
          exact hrow
    rw [SetCoord_CG_of_areaLoop sqrt CTRIA1 CQUAD4 junk2 nDim T val_coord t halloc2,
      areaLoop_junk sqrt CTRIA1 CQUAD4 junk2 junk1 nDim T val_coord, harea]
    show some _ = some t
    congr 1
    apply CPrimalGrid.eq_of_fields
    · rfl
    · rfl
    · rfl
    · rfl
    · show t.Coord_CG.map _ = t.Coord_CG
      rw [hFF, hC, hF]
      cases s.Coord_CG with
      | none => rfl
      | some cg =>
        show some _ = some _
        rw [centroidLoop_idem]
    · exact hFF
    · rfl
    · rfl
    · rfl
    · rfl

/-- Claim C19: the centroid and the face centroids that `SetCoord_CG` stores
are a function of the node coordinates and of the topology only.  For two
elements with allocated centroid storage, whatever values the storage holds
and whatever the fresh array `Area` contains, the two calls both return or
both are undefined, and when they return every slot `Coord_CG[d]` and every
slot `Coord_FaceElems_CG[f][d]` exists and holds the same value in both
results; a second call on the returned element returns it unchanged. -/
theorem SetCoord_CG_deterministic {K : Type} [LinearOrderedField K] (sqrt : K → K)
    (CTRIA1 CQUAD4 : CElement K) (junk1 junk2 : Nat → K) (nDim : Nat) (T : Topology)
    (val_coord : Nat → Nat → K) (s1 s2 : CPrimalGrid K)
    (h1 : storageAllocated nDim T.GetnFaces s1 = true)
    (h2 : storageAllocated nDim T.GetnFaces s2 = true) :
    (SetCoord_CG sqrt CTRIA1 CQUAD4 junk1 nDim T val_coord s1).isSome
      = (SetCoord_CG sqrt CTRIA1 CQUAD4 junk2 nDim T val_coord s2).isSome ∧
    (∀ t1 t2, SetCoord_CG sqrt CTRIA1 CQUAD4 junk1 nDim T val_coord s1 = some t1 →
      SetCoord_CG sqrt CTRIA1 CQUAD4 junk2 nDim T val_coord s2 = some t2 →
      (∀ d, d < nDim →
        d < (t1.Coord_CG.getD []).length ∧
        (t1.Coord_CG.getD [])[d]? = (t2.Coord_CG.getD [])[d]?) ∧
      (∀ f, f < T.GetnFaces → ∀ d, d < nDim →
        d < ((t1.Coord_FaceElems_CG.getD []).getD f []).length ∧
        ((t1.Coord_FaceElems_CG.getD []).getD f [])[d]?
          = ((t2.Coord_FaceElems_CG.getD []).getD f [])[d]?)) ∧
    (∀ t1, SetCoord_CG sqrt CTRIA1 CQUAD4 junk1 nDim T val_coord s1 = some t1 →
      SetCoord_CG sqrt CTRIA1 CQUAD4 junk2 nDim T val_coord t1 = some t1) := by
  refine ⟨?_, ?_, ?_⟩
  · rw [SetCoord_CG_of_areaLoop sqrt CTRIA1 CQUAD4 junk1 nDim T val_coord s1 h1,
      SetCoord_CG_of_areaLoop sqrt CTRIA1 CQUAD4 junk2 nDim T val_coord s2 h2,
      areaLoop_junk sqrt CTRIA1 CQUAD4 junk1 junk2 nDim T val_coord]
    cases areaLoop sqrt CTRIA1 CQUAD4 junk2 nDim T val_coord <;> rfl
  · intro t1 t2 ht1 ht2
    obtain ⟨st1, hst1, hf1, hc1⟩ :=
      SetCoord_CG_entries sqrt CTRIA1 CQUAD4 junk1 nDim T val_coord s1 t1 ht1
    obtain ⟨st2, hst2, hf2, hc2⟩ :=
      SetCoord_CG_entries sqrt CTRIA1 CQUAD4 junk2 nDim T val_coord s2 t2 ht2
    rw [areaLoop_junk sqrt CTRIA1 CQUAD4 junk1 junk2 nDim T val_coord, hst2] at hst1
    have hst : st2 = st1 := Option.some.inj hst1
    subst hst
    constructor
    · intro d hd
      obtain ⟨hl1, hv1⟩ := hc1 d hd
      obtain ⟨hl2, hv2⟩ := hc2 d hd
      refine ⟨hl1, ?_⟩
      rw [List.getElem?_eq_getElem hl1, List.getElem?_eq_getElem hl2,
        ← List.getD_eq_getElem _ none hl1, ← List.getD_eq_getElem _ none hl2, hv1, hv2]
    · intro f hf d hd
      obtain ⟨hl1, hv1⟩ := hf1 f hf d hd
      obtain ⟨hl2, hv2⟩ := hf2 f hf d hd
      refine ⟨hl1, ?_⟩
      unfold read2 at hv1 hv2
      rw [List.getElem?_eq_getElem hl1, List.getElem?_eq_getElem hl2,
        ← List.getD_eq_getElem _ 0 hl1, ← List.getD_eq_getElem _ 0 hl2, hv1, hv2]
  · intro t1 ht1
    exact SetCoord_CG_again sqrt CTRIA1 CQUAD4 junk1 junk2 nDim T val_coord s1 t1 ht1

theorem SetCoord_CG_deterministic_witness :
    ∃ t1 t2,
      SetCoord_CG Rat.sqrt (noShape ℚ) (noShape ℚ) (fun _ => 0) 2 triangle
        (coordTable [[0, 0], [3, 0], [0, 4]]) (withCentroidStorage ℚ 2 3) = some t1 ∧
      SetCoord_CG Rat.sqrt (noShape ℚ) (noShape ℚ) (fun _ => 9) 2 triangle
        (coordTable [[0, 0], [3, 0], [0, 4]])
        { withCentroidStorage ℚ 2 3 with
          Coord_CG := some [some 1, none]
          Coord_FaceElems_CG := some [[1, 2], [3, 4], [5, 6]] } = some t2 ∧
      (t1.Coord_CG.getD [])[0]? = (t2.Coord_CG.getD [])[0]? ∧
      (t1.Coord_CG.getD [])[1]? = (t2.Coord_CG.getD [])[1]? ∧
      SetCoord_CG Rat.sqrt (noShape ℚ) (noShape ℚ) (fun _ => 9) 2 triangle
        (coordTable [[0, 0], [3, 0], [0, 4]]) t1 = some t1 := by
  have h := SetCoord_CG_deterministic Rat.sqrt (noShape ℚ) (noShape ℚ) (fun _ => 0)
    (fun _ => 9) 2 triangle (coordTable [[0, 0], [3, 0], [0, 4]]) (withCentroidStorage ℚ 2 3)
    { withCentroidStorage ℚ 2 3 with
      Coord_CG := some [some 1, none]
      Coord_FaceElems_CG := some [[1, 2], [3, 4], [5, 6]] }
    (by decide) (by decide)
  obtain ⟨t1, ht1⟩ := SetCoord_CG_triangle_returns
  have hsome := h.1
  rw [ht1] at hsome
  cases ht2 : SetCoord_CG Rat.sqrt (noShape ℚ) (noShape ℚ) (fun _ => 9) 2 triangle
      (coordTable [[0, 0], [3, 0], [0, 4]])
      { withCentroidStorage ℚ 2 3 with
        Coord_CG := some [some 1, none]
        Coord_FaceElems_CG := some [[1, 2], [3, 4], [5, 6]] } with
  | none =>
    rw [ht2] at hsome
    cases hsome
  | some t2 =>
    exact ⟨t1, t2, ht1, rfl, ((h.2.1 t1 t2 ht1 ht2).1 0 (by decide)).2,
      ((h.2.1 t1 t2 ht1 ht2).1 1 (by decide)).2, h.2.2 t1 ht1⟩

/-! ## The output class `CNEMOCompOutput` -/

/-- Claim C25: `SetInit_Residuals` returns `true` exactly when the time
marching is not `STEADY` and the current inner iteration is `0`, or the time
marching is `STEADY` and the current inner iteration is less than `2`;
`SetUpdate_Averages` returns `false` for every configuration whose time
marching is `STEADY`. -/
theorem SetInit_Residuals_iff {K : Type} (o : CNEMOCompOutput K) (config : CConfig) :
    (o.SetInit_Residuals config = true ↔
      (config.Time_Marching ≠ TIME_MARCHING.STEADY ∧ o.curInnerIter = 0) ∨
      (config.Time_Marching = TIME_MARCHING.STEADY ∧ o.curInnerIter < 2)) ∧
    (config.Time_Marching = TIME_MARCHING.STEADY → o.SetUpdate_Averages config = false) := by
  constructor
  · simp [CNEMOCompOutput.SetInit_Residuals]
  · intro h
    simp [CNEMOCompOutput.SetUpdate_Averages, h]

theorem SetInit_Residuals_iff_witness :
    twoConvFields.SetInit_Residuals ⟨true, TIME_MARCHING.STEADY, 10⟩ = true ∧
    twoConvFields.SetInit_Residuals ⟨true, TIME_MARCHING.unsteady 1, 10⟩ = true ∧
    twoConvFields.SetUpdate_Averages ⟨true, TIME_MARCHING.STEADY, 10⟩ = false :=
  ⟨(SetInit_Residuals_iff twoConvFields ⟨true, TIME_MARCHING.STEADY, 10⟩).1.mpr
      (Or.inr ⟨rfl, by decide⟩),
    (SetInit_Residuals_iff twoConvFields ⟨true, TIME_MARCHING.unsteady 1, 10⟩).1.mpr
      (Or.inl ⟨by decide, rfl⟩),
    (SetInit_Residuals_iff twoConvFields ⟨true, TIME_MARCHING.STEADY, 10⟩).2 rfl⟩

/-! ## The centroid as a convex combination -/

/-- A combination with coefficients that are not negative and add up to `1`
lies between every lower and every upper bound of its terms. -/
theorem convex_bounds {K : Type} [LinearOrderedField K] (lam a : Nat → K) (n : Nat) (lo hi : K)
    (hlam : ∀ f, f < n → 0 ≤ lam f) (hsum : ∑ f in Finset.range n, lam f = 1)
    (hlo : ∀ f, f < n → lo ≤ a f) (hhi : ∀ f, f < n → a f ≤ hi) :
    lo ≤ ∑ f in Finset.range n, lam f * a f ∧ ∑ f in Finset.range n, lam f * a f ≤ hi := by
  constructor
  · have h1 : ∑ f in Finset.range n, lam f * lo ≤ ∑ f in Finset.range n, lam f * a f :=
      Finset.sum_le_sum (fun f hf =>
        mul_le_mul_of_nonneg_left (hlo f (Finset.mem_range.mp hf))
          (hlam f (Finset.mem_range.mp hf)))
    rw [← Finset.sum_mul, hsum, one_mul] at h1
    exact h1
  · have h1 : ∑ f in Finset.range n, lam f * a f ≤ ∑ f in Finset.range n, lam f * hi :=
      Finset.sum_le_sum (fun f hf =>
        mul_le_mul_of_nonneg_left (hhi f (Finset.mem_range.mp hf))
          (hlam f (Finset.mem_range.mp hf)))
    rw [← Finset.sum_mul, hsum, one_mul] at h1
    exact h1

/-- Among finitely many values, at least one, a least and a largest one exist. -/
theorem exists_min_max {K : Type} [LinearOrderedField K] (a : Nat → K) (n : Nat) (hn : 0 < n) :
    ∃ fmin fmax, fmin < n ∧ fmax < n ∧ ∀ f, f < n → a fmin ≤ a f ∧ a f ≤ a fmax := by
  have hne : (Finset.range n).Nonempty := ⟨0, Finset.mem_range.mpr hn⟩
  obtain ⟨fmin, hfmin, hmin⟩ := Finset.exists_min_image (Finset.range n) a hne
  obtain ⟨fmax, hfmax, hmax⟩ := Finset.exists_max_image (Finset.range n) a hne
  exact ⟨fmin, fmax, Finset.mem_range.mp hfmin, Finset.mem_range.mp hfmax,
    fun f hf => ⟨hmin f (Finset.mem_range.mpr hf), hmax f (Finset.mem_range.mpr hf)⟩⟩

/-- Claim C21: for face measures `m f` that are not negative, one of them
positive, `SetCoord_CG` returns and the centroid it stores is a convex
combination of the stored face centroids: there are coefficients, not
negative and of sum `1`, the same in every dimension, such that slot `d` of
`Coord_CG` holds the combination of the values `Coord_FaceElems_CG[f][d]`; this
value lies between the least and the largest of the face-centroid coordinates
in dimension `d`. -/
theorem SetCoord_CG_convex {K : Type} [LinearOrderedField K] (sqrt : K → K)
    (CTRIA1 CQUAD4 : CElement K) (junkA : Nat → K) (nDim : Nat) (T : Topology)
    (val_coord : Nat → Nat → K) (s : CPrimalGrid K) (m : Nat → K)
    (halloc : storageAllocated nDim T.GetnFaces s = true)
    (hm : ∀ f, f < T.GetnFaces → faceMeasure sqrt CTRIA1 CQUAD4 nDim T val_coord f = some (m f))
    (hnonneg : ∀ f, f < T.GetnFaces → 0 ≤ m f)
    (hpos : ∃ f, f < T.GetnFaces ∧ 0 < m f) :
    ∃ t, SetCoord_CG sqrt CTRIA1 CQUAD4 junkA nDim T val_coord s = some t ∧
      ∃ lam : Nat → K, (∀ f, f < T.GetnFaces → 0 ≤ lam f) ∧
        ∑ f in Finset.range T.GetnFaces, lam f = 1 ∧
        ∀ d, d < nDim → ∃ c,
          (t.Coord_CG.getD [])[d]? = some (some c) ∧
          c = ∑ f in Finset.range T.GetnFaces,
                lam f * read2 0 (t.Coord_FaceElems_CG.getD []) f d ∧
          ∃ fmin fmax, fmin < T.GetnFaces ∧ fmax < T.GetnFaces ∧
            (∀ f, f < T.GetnFaces →
              read2 0 (t.Coord_FaceElems_CG.getD []) fmin d
                  ≤ read2 0 (t.Coord_FaceElems_CG.getD []) f d ∧
              read2 0 (t.Coord_FaceElems_CG.getD []) f d
                  ≤ read2 0 (t.Coord_FaceElems_CG.getD []) fmax d) ∧
            read2 0 (t.Coord_FaceElems_CG.getD []) fmin d ≤ c ∧
            c ≤ read2 0 (t.Coord_FaceElems_CG.getD []) fmax d := by
  obtain ⟨h0, hle, hor⟩ := maxLoop_spec m T.GetnFaces
  obtain ⟨f0, hf0, hf0pos⟩ := hpos
  have hMpos : 0 < forLoop T.GetnFaces (fun f M => max (m f) M) (0 : K) :=
    lt_of_lt_of_le hf0pos (hle f0 hf0)
  have hat : ∃ f, f < T.GetnFaces ∧ m f = forLoop T.GetnFaces (fun f M => max (m f) M) (0 : K) := by
    rcases hor with h1 | h1
    · exact absurd h1 (ne_of_gt hMpos)
    · exact h1
  obtain ⟨t, ht, hcg⟩ := SetCoord_CG_formula sqrt CTRIA1 CQUAD4 junkA nDim T val_coord s m _
    halloc hm hnonneg hle hat hMpos
  obtain ⟨_, _, hface, _⟩ :=
    SetCoord_CG_entries sqrt CTRIA1 CQUAD4 junkA nDim T val_coord s t ht
  have hTot1 := one_le_totalWeight m T.GetnFaces _ hMpos hat
  have hTotpos : 0 < ∑ f in Finset.range T.GetnFaces,
      (m f / forLoop T.GetnFaces (fun f M => max (m f) M) (0 : K)) ^ 2 :=
    lt_of_lt_of_le one_pos hTot1
  have hlam : ∀ f, f < T.GetnFaces →
      0 ≤ (m f / forLoop T.GetnFaces (fun f M => max (m f) M) (0 : K)) ^ 2
        / ∑ f in Finset.range T.GetnFaces,
            (m f / forLoop T.GetnFaces (fun f M => max (m f) M) (0 : K)) ^ 2 :=
    fun f _ => div_nonneg (sq_nonneg _) (le_of_lt hTotpos)
  have hsum : ∑ f in Finset.range T.GetnFaces,
      (m f / forLoop T.GetnFaces (fun f M => max (m f) M) (0 : K)) ^ 2
        / ∑ f in Finset.range T.GetnFaces,
            (m f / forLoop T.GetnFaces (fun f M => max (m f) M) (0 : K)) ^ 2 = 1 := by
    rw [← Finset.sum_div, div_self (ne_of_gt hTotpos)]
  refine ⟨t, ht, _, hlam, hsum, ?_⟩
  intro d hd
  obtain ⟨hlen, hval⟩ := hcg d hd
  have hc : (∑ f in Finset.range T.GetnFaces,
        mean (faceNodeCoords T val_coord f d)
          * (m f / forLoop T.GetnFaces (fun f M => max (m f) M) (0 : K)) ^ 2)
      / ∑ f in Finset.range T.GetnFaces,
          (m f / forLoop T.GetnFaces (fun f M => max (m f) M) (0 : K)) ^ 2
      = ∑ f in Finset.range T.GetnFaces,
          (m f / forLoop T.GetnFaces (fun f M => max (m f) M) (0 : K)) ^ 2
            / (∑ f in Finset.range T.GetnFaces,
                (m f / forLoop T.GetnFaces (fun f M => max (m f) M) (0 : K)) ^ 2)
            * read2 0 (t.Coord_FaceElems_CG.getD []) f d := by
    rw [Finset.sum_div]
    apply Finset.sum_congr rfl
    intro f hf
    rw [(hface f (Finset.mem_range.mp hf) d hd).2]
    ring
  refine ⟨_, ?_, hc, ?_⟩
  · rw [List.getElem?_eq_getElem hlen, ← List.getD_eq_getElem _ none hlen, hval]
  · obtain ⟨fmin, fmax, hmin, hmax, hall⟩ :=
      exists_min_max (fun f => read2 0 (t.Coord_FaceElems_CG.getD []) f d) T.GetnFaces
        (Nat.lt_of_le_of_lt (Nat.zero_le f0) hf0)
    have hb := convex_bounds _ (fun f => read2 0 (t.Coord_FaceElems_CG.getD []) f d)
      T.GetnFaces _ _ hlam hsum (fun f hf => (hall f hf).1) (fun f hf => (hall f hf).2)
    rw [hc]
    exact ⟨fmin, fmax, hmin, hmax, hall, hb.1, hb.2⟩

theorem SetCoord_CG_convex_witness :
    ∃ t, SetCoord_CG Rat.sqrt (triangleArea Rat.sqrt) (noShape ℚ) (fun _ => 0) 3 tetrahedron
        (coordTable [[0, 0, 0], [3, 0, 0], [0, 4, 0], [0, 0, 0]]) (withCentroidStorage ℚ 3 4)
        = some t ∧
      ∃ c fmin fmax, (t.Coord_CG.getD [])[0]? = some (some c) ∧
        read2 0 (t.Coord_FaceElems_CG.getD []) fmin 0 ≤ c ∧
        c ≤ read2 0 (t.Coord_FaceElems_CG.getD []) fmax 0 := by
  obtain ⟨t, ht, lam, _, _, h⟩ :=
    SetCoord_CG_convex Rat.sqrt (triangleArea Rat.sqrt) (noShape ℚ) (fun _ => 0)
      3 tetrahedron (coordTable [[0, 0, 0], [3, 0, 0], [0, 4, 0], [0, 0, 0]])
      (withCentroidStorage ℚ 3 4) (fun f => ([6, 0, 0, 6] : List ℚ).getD f 0)
      (by decide) faceMeasure_flat_tetrahedron
      (fun f hf => by
        have h2 : f = 0 ∨ f = 1 ∨ f = 2 ∨ f = 3 := by
          have hf4 : f < 4 := hf
          omega
        rcases h2 with h2 | h2 | h2 | h2 <;> subst h2 <;> norm_num)
      ⟨0, by decide, by norm_num⟩
  obtain ⟨c, hc, _, fmin, fmax, _, _, _, hlo, hhi⟩ := h 0 (by decide)
  exact ⟨t, ht, c, fmin, fmax, hc, hlo, hhi⟩

/-! ## The normalised weights -/

theorem faceMeasure_scaled {K : Type} [LinearOrderedField K] (sqrt : K → K)
    (CTRIA1 CQUAD4 : CElement K) (factor : K) (T : Topology) (val_coord : Nat → Nat → K)
    (f : Nat) :
    faceMeasure sqrt (scaledShape factor CTRIA1) (scaledShape factor CQUAD4) 3 T val_coord f
      = (faceMeasure sqrt CTRIA1 CQUAD4 3 T val_coord f).map (fun a => factor * a) := by
  rw [faceMeasure_3D, faceMeasure_3D]
  by_cases h3 : T.GetnNodesFace f = 3
  · rw [if_pos h3, if_pos h3]
    rfl
  · rw [if_neg h3, if_neg h3]
    by_cases h4 : T.GetnNodesFace f = 4
    · rw [if_pos h4, if_pos h4]
      rfl
    · rw [if_neg h4, if_neg h4]
      rfl

/-- Claim C22: for face measures `m f` that are not negative, one of them
positive, every weight that the third loop of `SetCoord_CG` computes is a
defined value in `[0, 1]`, the weight of a face whose measure is the largest
one, `MaxArea`, is `1`, and when the measures of all faces are multiplied by
one positive factor (the maximum is then multiplied by it) the weights and
their total are the same, and `SetCoord_CG` returns the same element. -/
theorem weights_normalized {K : Type} [LinearOrderedField K] (sqrt sqrt2 : K → K)
    (CTRIA1 CQUAD4 CTRIA1b CQUAD4b : CElement K) (junkA junkB : Nat → K) (nDim : Nat)
    (T : Topology) (val_coord : Nat → Nat → K) (s : CPrimalGrid K) (m : Nat → K) (factor : K)
    (halloc : storageAllocated nDim T.GetnFaces s = true)
    (hm : ∀ f, f < T.GetnFaces → faceMeasure sqrt CTRIA1 CQUAD4 nDim T val_coord f = some (m f))
    (hm2 : ∀ f, f < T.GetnFaces →
      faceMeasure sqrt2 CTRIA1b CQUAD4b nDim T val_coord f = some (factor * m f))
    (hfactor : 0 < factor)
    (hnonneg : ∀ f, f < T.GetnFaces → 0 ≤ m f)
    (hpos : ∃ f, f < T.GetnFaces ∧ 0 < m f) :
    ∃ Area MaxArea W TotalArea Area2,
      areaLoop sqrt CTRIA1 CQUAD4 junkA nDim T val_coord = some (Area, MaxArea) ∧
      (∀ f, f < T.GetnFaces → m f ≤ MaxArea) ∧ (∃ f, f < T.GetnFaces ∧ m f = MaxArea) ∧
      weightLoop T.GetnFaces MaxArea (Area.map some) = (W, some TotalArea) ∧
      (∀ f, f < T.GetnFaces → ∃ w, W.getD f none = some w ∧ 0 ≤ w ∧ w ≤ 1) ∧
      (∀ f, f < T.GetnFaces → m f = MaxArea → W.getD f none = some 1) ∧
      areaLoop sqrt2 CTRIA1b CQUAD4b junkB nDim T val_coord
        = some (Area2, factor * MaxArea) ∧
      weightLoop T.GetnFaces (factor * MaxArea) (Area2.map some) = (W, some TotalArea) ∧
      (SetCoord_CG sqrt CTRIA1 CQUAD4 junkA nDim T val_coord s).isSome = true ∧
      SetCoord_CG sqrt2 CTRIA1b CQUAD4b junkB nDim T val_coord s
        = SetCoord_CG sqrt CTRIA1 CQUAD4 junkA nDim T val_coord s := by
  obtain ⟨h0, hle, hor⟩ := maxLoop_spec m T.GetnFaces
  obtain ⟨f0, hf0, hf0pos⟩ := hpos
  have hMpos : 0 < forLoop T.GetnFaces (fun f M => max (m f) M) (0 : K) :=
    lt_of_lt_of_le hf0pos (hle f0 hf0)
  have hat : ∃ f, f < T.GetnFaces ∧ m f = forLoop T.GetnFaces (fun f M => max (m f) M) (0 : K) := by
    rcases hor with h1 | h1
    · exact absurd h1 (ne_of_gt hMpos)
    · exact h1
  have hmax2 : forLoop T.GetnFaces (fun f M => max ((fun f => factor * m f) f) M) (0 : K)
      = factor * forLoop T.GetnFaces (fun f M => max (m f) M) (0 : K) :=
    maxLoop_eq (fun f => factor * m f) T.GetnFaces _
      (fun f hf => mul_nonneg (le_of_lt hfactor) (hnonneg f hf))
      (fun f hf => mul_le_mul_of_nonneg_left (hle f hf) (le_of_lt hfactor))
      (by
        obtain ⟨f, hf, h⟩ := hat
        exact ⟨f, hf, congrArg (fun x => factor * x) h⟩)
  have hW := weightLoop_measures m T.GetnFaces _ (ne_of_gt hMpos)
  have hW2 := weightLoop_measures (fun f => factor * m f) T.GetnFaces _
    (ne_of_gt (mul_pos hfactor hMpos))
  have heq : ∀ f, (factor * m f
        / (factor * forLoop T.GetnFaces (fun f M => max (m f) M) (0 : K))) ^ 2
      = (m f / forLoop T.GetnFaces (fun f M => max (m f) M) (0 : K)) ^ 2 := by
    intro f
    rw [mul_div_mul_left _ _ (ne_of_gt hfactor)]
  simp only [heq] at hW2
  have harea := areaLoop_eq sqrt CTRIA1 CQUAD4 junkA nDim T val_coord m hm
  have harea2 := areaLoop_eq sqrt2 CTRIA1b CQUAD4b junkB nDim T val_coord
    (fun f => factor * m f) hm2
  rw [hmax2] at harea2
  have hWf : ∀ f, f < T.GetnFaces →
      ((List.range T.GetnFaces).map (fun f => some
        ((m f / forLoop T.GetnFaces (fun f M => max (m f) M) (0 : K)) ^ 2))).getD f none
        = some ((m f / forLoop T.GetnFaces (fun f M => max (m f) M) (0 : K)) ^ 2) :=
    fun f hf => getD_map_range _ _ f none hf
  have hret := SetCoord_CG_eq sqrt CTRIA1 CQUAD4 junkA nDim T val_coord s m halloc hm
  have hret2 := SetCoord_CG_eq sqrt2 CTRIA1b CQUAD4b junkB nDim T val_coord s
    (fun f => factor * m f) halloc hm2
  refine ⟨_, _, _, _, _, harea, hle, hat, hW, ?_, ?_, harea2, hW2, ?_, ?_⟩
  · intro f hf
    refine ⟨_, hWf f hf, sq_nonneg _, ?_⟩
    have h1 : 0 ≤ m f / forLoop T.GetnFaces (fun f M => max (m f) M) (0 : K) :=
      div_nonneg (hnonneg f hf) (le_of_lt hMpos)
    have h2 : m f / forLoop T.GetnFaces (fun f M => max (m f) M) (0 : K) ≤ 1 :=
      (div_le_one hMpos).mpr (hle f hf)
    calc (m f / forLoop T.GetnFaces (fun f M => max (m f) M) (0 : K)) ^ 2
        = (m f / forLoop T.GetnFaces (fun f M => max (m f) M) (0 : K))
            * (m f / forLoop T.GetnFaces (fun f M => max (m f) M) (0 : K)) := sq _
      _ ≤ 1 * 1 := mul_le_mul h2 h2 h1 zero_le_one
      _ = 1 := one_mul 1
  · intro f hf hfm
    rw [hWf f hf, hfm, div_self (ne_of_gt hMpos), one_pow]
  · rw [hret]
    rfl
  · rw [hret, hret2, hmax2, hW]
    simp only [List.map_map] at hW2 ⊢
    rw [hW2]

theorem weights_normalized_witness :
    ∃ Area MaxArea W TotalArea Area2,
      areaLoop Rat.sqrt (triangleArea Rat.sqrt) (noShape ℚ) (fun _ => 0) 3 tetrahedron
        (coordTable [[0, 0, 0], [3, 0, 0], [0, 4, 0], [0, 0, 0]]) = some (Area, MaxArea) ∧
      weightLoop 4 MaxArea (Area.map some) = (W, some TotalArea) ∧
      W.getD 0 none = some 1 ∧
      areaLoop Rat.sqrt (scaledShape 2 (triangleArea Rat.sqrt)) (scaledShape 2 (noShape ℚ))
        (fun _ => 1) 3 tetrahedron
        (coordTable [[0, 0, 0], [3, 0, 0], [0, 4, 0], [0, 0, 0]]) = some (Area2, 2 * MaxArea) ∧
      weightLoop 4 (2 * MaxArea) (Area2.map some) = (W, some TotalArea) := by
  have hm := faceMeasure_flat_tetrahedron
  obtain ⟨Area, MaxArea, W, TotalArea, Area2, h1, _, ⟨g, hg, hgm⟩, h4, _, h6, h7, h8, _, _⟩ :=
    weights_normalized Rat.sqrt Rat.sqrt (triangleArea Rat.sqrt) (noShape ℚ)
      (scaledShape 2 (triangleArea Rat.sqrt)) (scaledShape 2 (noShape ℚ))
      (fun _ => 0) (fun _ => 1) 3 tetrahedron
      (coordTable [[0, 0, 0], [3, 0, 0], [0, 4, 0], [0, 0, 0]])
      (withCentroidStorage ℚ 3 4) (fun f => ([6, 0, 0, 6] : List ℚ).getD f 0) 2
      (by decide) hm
      (fun f hf => by
        rw [faceMeasure_scaled, hm f hf]
        rfl)
      (by norm_num)
      (fun f hf => by
        have h2 : f = 0 ∨ f = 1 ∨ f = 2 ∨ f = 3 := by
          have hf4 : f < 4 := hf
          omega
        rcases h2 with h2 | h2 | h2 | h2 <;> subst h2 <;> norm_num)
      ⟨0, by decide, by norm_num⟩
  have hM : MaxArea = 6 := by
    have harea := areaLoop_eq Rat.sqrt (triangleArea Rat.sqrt) (noShape ℚ) (fun _ => 0) 3
      tetrahedron (coordTable [[0, 0, 0], [3, 0, 0], [0, 4, 0], [0, 0, 0]])
      (fun f => ([6, 0, 0, 6] : List ℚ).getD f 0) hm
    rw [h1] at harea
    have h2 : MaxArea = forLoop tetrahedron.GetnFaces
        (fun f M => max ((fun f => ([6, 0, 0, 6] : List ℚ).getD f 0) f) M) 0 :=
      congrArg Prod.snd (Option.some.inj harea)
    exact h2.trans
      (maxLoop_eq (fun f => ([6, 0, 0, 6] : List ℚ).getD f 0) tetrahedron.GetnFaces 6
        (fun f hf => by
          have h3 : f = 0 ∨ f = 1 ∨ f = 2 ∨ f = 3 := by
            have hf4 : f < 4 := hf
            omega
          rcases h3 with h3 | h3 | h3 | h3 <;> subst h3 <;> norm_num)
        (fun f hf => by
          have h3 : f = 0 ∨ f = 1 ∨ f = 2 ∨ f = 3 := by
            have hf4 : f < 4 := hf
            omega
          rcases h3 with h3 | h3 | h3 | h3 <;> subst h3 <;> norm_num)
        ⟨0, by decide, rfl⟩)
  exact ⟨Area, MaxArea, W, TotalArea, Area2, h1, h4,
    h6 0 (by decide) (by rw [hM]; rfl), h7, h8⟩

/-! ## Translation of the node coordinates -/

theorem sum_map_add_const {K : Type} [LinearOrderedField K] (xs : List K) (c : K) :
    (xs.map (fun x => x + c)).sum = xs.sum + (xs.length : K) * c := by
  induction xs with
  | nil => simp
  | cons x xs ih =>
    simp only [List.map_cons, List.sum_cons, ih, List.length_cons]
    push_cast
    ring

/-- The mean of at least one value moves with a common shift of the values. -/
theorem mean_translate {K : Type} [LinearOrderedField K] (xs : List K) (c : K)
    (h : 0 < xs.length) : mean (xs.map (fun x => x + c)) = mean xs + c := by
  have hk : (xs.length : K) ≠ 0 := Nat.cast_ne_zero.mpr (Nat.pos_iff_ne_zero.mp h)
  unfold mean
  rw [sum_map_add_const, List.length_map, add_div, mul_div_cancel_left₀ _ hk]

theorem faceNodeCoords_translate {K : Type} [LinearOrderedField K] (T : Topology)
    (val_coord : Nat → Nat → K) (tvec : Nat → K) (f d : Nat) (h : 0 < T.GetnNodesFace f) :
    mean (faceNodeCoords T (fun iNode iDim => val_coord iNode iDim + tvec iDim) f d)
      = mean (faceNodeCoords T val_coord f d) + tvec d := by
  have h1 : faceNodeCoords T (fun iNode iDim => val_coord iNode iDim + tvec iDim) f d
      = (faceNodeCoords T val_coord f d).map (fun x => x + tvec d) := by
    unfold faceNodeCoords
    rw [List.map_map]
    rfl
  rw [h1]
  exact mean_translate _ _ (by unfold faceNodeCoords; simpa using h)

/-- A weighted mean moves with a common shift of its terms. -/
theorem weighted_mean_translate {K : Type} [LinearOrderedField K] (a b w : Nat → K) (n : Nat)
    (c : K) (hb : ∀ f, f < n → b f = a f + c) (hW : (∑ f in Finset.range n, w f) ≠ 0) :
    (∑ f in Finset.range n, b f * w f) / ∑ f in Finset.range n, w f
      = (∑ f in Finset.range n, a f * w f) / (∑ f in Finset.range n, w f) + c := by
  have h1 : ∑ f in Finset.range n, b f * w f
      = ∑ f in Finset.range n, a f * w f + c * ∑ f in Finset.range n, w f := by
    rw [Finset.mul_sum, ← Finset.sum_add_distrib]
    apply Finset.sum_congr rfl
    intro f hf
    rw [hb f (Finset.mem_range.mp hf)]
    ring
  rw [h1, add_div, mul_div_assoc, div_self hW, mul_one]

/-- The measure that `SetCoord_CG` uses in two dimensions does not change
under a translation of the node coordinates. -/
theorem faceMeasure_2D_translate {K : Type} [LinearOrderedField K] (sqrt : K → K)
    (CTRIA1 CQUAD4 : CElement K) (T : Topology) (val_coord : Nat → Nat → K) (tvec : Nat → K)
    (f : Nat) :
    faceMeasure sqrt CTRIA1 CQUAD4 2 T (fun iNode iDim => val_coord iNode iDim + tvec iDim) f
      = faceMeasure sqrt CTRIA1 CQUAD4 2 T val_coord f := by
  rw [faceMeasure_2D _ _ _ _ _ _ _ (by decide), faceMeasure_2D _ _ _ _ _ _ _ (by decide)]
  simp only [add_sub_add_right_eq_sub]

/-- The common face measure of an element in two dimensions whose total
weight, as `SetCoord_CG` computes it, is defined and not zero: the element has
a face and the measure is positive. -/
theorem positive_measure_of_totalWeight {K : Type} [LinearOrderedField K] (sqrt : K → K)
    (CTRIA1 CQUAD4 : CElement K) (junkA : Nat → K) (T : Topology)
    (val_coord : Nat → Nat → K) (Area : List K) (MaxArea TotalArea : K)
    (harea : areaLoop sqrt CTRIA1 CQUAD4 junkA 2 T val_coord = some (Area, MaxArea))
    (hTot : (weightLoop T.GetnFaces MaxArea (Area.map some)).2 = some TotalArea)
    (hne : TotalArea ≠ 0) :
    0 < T.GetnFaces ∧
    0 < sqrt ((val_coord 1 0 - val_coord 0 0) ^ 2 + (val_coord 1 1 - val_coord 0 1) ^ 2) := by
  have hm : ∀ f, f < T.GetnFaces → faceMeasure sqrt CTRIA1 CQUAD4 2 T val_coord f
      = some ((fun _ => sqrt ((val_coord 1 0 - val_coord 0 0) ^ 2
          + (val_coord 1 1 - val_coord 0 1) ^ 2)) f) :=
    fun f _ => faceMeasure_2D _ _ _ _ _ _ f (by decide)
  rw [areaLoop_eq sqrt CTRIA1 CQUAD4 junkA 2 T val_coord _ hm] at harea
  have hpair := Option.some.inj harea
  have hA : Area = (List.range T.GetnFaces).map (fun _ => sqrt ((val_coord 1 0 - val_coord 0 0) ^ 2
      + (val_coord 1 1 - val_coord 0 1) ^ 2)) := (congrArg Prod.fst hpair).symm
  have hMx : MaxArea = forLoop T.GetnFaces (fun f M => max ((fun _ => sqrt
      ((val_coord 1 0 - val_coord 0 0) ^ 2 + (val_coord 1 1 - val_coord 0 1) ^ 2)) f) M) (0 : K) :=
    (congrArg Prod.snd hpair).symm
  have hn : 0 < T.GetnFaces := by
    rcases Nat.eq_zero_or_pos T.GetnFaces with h0 | h0
    · rw [h0] at hTot
      unfold weightLoop at hTot
      rw [forLoop_zero] at hTot
      exact absurd (Option.some.inj hTot).symm hne
    · exact h0
  obtain ⟨h0, _, hor⟩ := maxLoop_spec (fun _ => sqrt ((val_coord 1 0 - val_coord 0 0) ^ 2
      + (val_coord 1 1 - val_coord 0 1) ^ 2)) T.GetnFaces
  rw [← hMx] at h0 hor
  have hMne : MaxArea ≠ 0 := by
    intro hz
    rw [hz, hA, weightLoop_zero _ T.GetnFaces hn] at hTot
    cases hTot
  refine ⟨hn, ?_⟩
  rcases hor with h1 | ⟨f, _, h1⟩
  · exact absurd h1 hMne
  · have h2 : sqrt ((val_coord 1 0 - val_coord 0 0) ^ 2 + (val_coord 1 1 - val_coord 0 1) ^ 2)
        = MaxArea := h1
    rw [h2]
    exact lt_of_le_of_ne h0 (Ne.symm hMne)

/-- Claim C23: in two dimensions, for an element whose faces have at least one
node each and whose total weight, as `SetCoord_CG` computes it, is defined and
not zero, and for every vector `tvec`: the call of `SetCoord_CG` with every
node coordinate translated by `tvec` returns, as the call with the original
coordinates does, and every stored face centroid and the stored centroid are
those of the original coordinates translated by `tvec`. -/
theorem SetCoord_CG_translation {K : Type} [LinearOrderedField K] (sqrt : K → K)
    (CTRIA1 CQUAD4 : CElement K) (junkA junkB : Nat → K) (T : Topology)
    (val_coord : Nat → Nat → K) (s : CPrimalGrid K) (tvec : Nat → K)
    (Area : List K) (MaxArea TotalArea : K)
    (halloc : storageAllocated 2 T.GetnFaces s = true)
    (hnodes : ∀ f, f < T.GetnFaces → 0 < T.GetnNodesFace f)
    (harea : areaLoop sqrt CTRIA1 CQUAD4 junkA 2 T val_coord = some (Area, MaxArea))
    (hTot : (weightLoop T.GetnFaces MaxArea (Area.map some)).2 = some TotalArea)
    (hne : TotalArea ≠ 0) :
    ∃ t1 t2,
      SetCoord_CG sqrt CTRIA1 CQUAD4 junkA 2 T val_coord s = some t1 ∧
      SetCoord_CG sqrt CTRIA1 CQUAD4 junkB 2 T
        (fun iNode iDim => val_coord iNode iDim + tvec iDim) s = some t2 ∧
      (∀ f, f < T.GetnFaces → ∀ d, d < 2 →
        read2 0 (t2.Coord_FaceElems_CG.getD []) f d
          = read2 0 (t1.Coord_FaceElems_CG.getD []) f d + tvec d) ∧
      (∀ d, d < 2 → ∃ c,
        (t1.Coord_CG.getD [])[d]? = some (some c) ∧
        (t2.Coord_CG.getD [])[d]? = some (some (c + tvec d))) := by
  obtain ⟨hn, hpos⟩ := positive_measure_of_totalWeight sqrt CTRIA1 CQUAD4 junkA T val_coord
    Area MaxArea TotalArea harea hTot hne
  have hm : ∀ f, f < T.GetnFaces → faceMeasure sqrt CTRIA1 CQUAD4 2 T val_coord f
      = some ((fun _ => sqrt ((val_coord 1 0 - val_coord 0 0) ^ 2
          + (val_coord 1 1 - val_coord 0 1) ^ 2)) f) :=
    fun f _ => faceMeasure_2D _ _ _ _ _ _ f (by decide)
  have hm2 : ∀ f, f < T.GetnFaces → faceMeasure sqrt CTRIA1 CQUAD4 2 T
      (fun iNode iDim => val_coord iNode iDim + tvec iDim) f
      = some ((fun _ => sqrt ((val_coord 1 0 - val_coord 0 0) ^ 2
          + (val_coord 1 1 - val_coord 0 1) ^ 2)) f) :=
    fun f hf => by rw [faceMeasure_2D_translate, hm f hf]
  obtain ⟨t1, ht1, hc1⟩ := SetCoord_CG_formula sqrt CTRIA1 CQUAD4 junkA 2 T val_coord s
    (fun _ => sqrt ((val_coord 1 0 - val_coord 0 0) ^ 2 + (val_coord 1 1 - val_coord 0 1) ^ 2))
    _ halloc hm (fun _ _ => le_of_lt hpos) (fun _ _ => le_refl _) ⟨0, hn, rfl⟩ hpos
  obtain ⟨t2, ht2, hc2⟩ := SetCoord_CG_formula sqrt CTRIA1 CQUAD4 junkB 2 T
    (fun iNode iDim => val_coord iNode iDim + tvec iDim) s
    (fun _ => sqrt ((val_coord 1 0 - val_coord 0 0) ^ 2 + (val_coord 1 1 - val_coord 0 1) ^ 2))
    _ halloc hm2 (fun _ _ => le_of_lt hpos) (fun _ _ => le_refl _) ⟨0, hn, rfl⟩ hpos
  obtain ⟨_, _, hf1, _⟩ := SetCoord_CG_entries sqrt CTRIA1 CQUAD4 junkA 2 T val_coord s t1 ht1
  obtain ⟨_, _, hf2, _⟩ := SetCoord_CG_entries sqrt CTRIA1 CQUAD4 junkB 2 T
    (fun iNode iDim => val_coord iNode iDim + tvec iDim) s t2 ht2
  refine ⟨t1, t2, ht1, ht2, ?_, ?_⟩
  · intro f hf d hd
    rw [(hf2 f hf d hd).2, (hf1 f hf d hd).2]
    exact faceNodeCoords_translate T val_coord tvec f d (hnodes f hf)
  · intro d hd
    obtain ⟨hl1, hv1⟩ := hc1 d hd
    obtain ⟨hl2, hv2⟩ := hc2 d hd
    have hW : (∑ f in Finset.range T.GetnFaces,
        ((fun _ => sqrt ((val_coord 1 0 - val_coord 0 0) ^ 2
            + (val_coord 1 1 - val_coord 0 1) ^ 2)) f
          / sqrt ((val_coord 1 0 - val_coord 0 0) ^ 2
            + (val_coord 1 1 - val_coord 0 1) ^ 2)) ^ 2) ≠ 0 :=
      ne_of_gt (lt_of_lt_of_le one_pos (one_le_totalWeight _ T.GetnFaces _ hpos ⟨0, hn, rfl⟩))
    have htr := weighted_mean_translate (fun f => mean (faceNodeCoords T val_coord f d))
      (fun f => mean (faceNodeCoords T
        (fun iNode iDim => val_coord iNode iDim + tvec iDim) f d))
      (fun f => ((fun _ => sqrt ((val_coord 1 0 - val_coord 0 0) ^ 2
            + (val_coord 1 1 - val_coord 0 1) ^ 2)) f
          / sqrt ((val_coord 1 0 - val_coord 0 0) ^ 2
            + (val_coord 1 1 - val_coord 0 1) ^ 2)) ^ 2)
      T.GetnFaces (tvec d)
      (fun f hf => faceNodeCoords_translate T val_coord tvec f d (hnodes f hf)) hW
    have e1 : (t1.Coord_CG.getD [])[d]? = some ((t1.Coord_CG.getD []).getD d none) := by
      rw [List.getElem?_eq_getElem hl1, List.getD_eq_getElem _ none hl1]
    have e2 : (t2.Coord_CG.getD [])[d]? = some ((t2.Coord_CG.getD []).getD d none) := by
      rw [List.getElem?_eq_getElem hl2, List.getD_eq_getElem _ none hl2]
    rw [hv1] at e1
    rw [hv2] at e2
    exact ⟨_, e1, e2.trans (congrArg (fun x => some (some x)) htr)⟩

theorem SetCoord_CG_translation_witness :
    ∃ t1 t2 c,
      SetCoord_CG Rat.sqrt (noShape ℚ) (noShape ℚ) (fun _ => 0) 2 triangle
        (coordTable [[0, 0], [3, 0], [0, 4]]) (withCentroidStorage ℚ 2 3) = some t1 ∧
      SetCoord_CG Rat.sqrt (noShape ℚ) (noShape ℚ) (fun _ => 1) 2 triangle
        (fun iNode iDim => coordTable [[0, 0], [3, 0], [0, 4]] iNode iDim
          + coordTable [[10, 20]] 0 iDim) (withCentroidStorage ℚ 2 3) = some t2 ∧
      read2 0 (t2.Coord_FaceElems_CG.getD []) 1 0
        = read2 0 (t1.Coord_FaceElems_CG.getD []) 1 0 + coordTable [[10, 20]] 0 0 ∧
      (t1.Coord_CG.getD [])[1]? = some (some c) ∧
      (t2.Coord_CG.getD [])[1]? = some (some (c + coordTable [[10, 20]] 0 1)) := by
  have h9 : Rat.sqrt 9 = 3 := by
    rw [show (9 : ℚ) = 3 * 3 by norm_num, Rat.sqrt_eq, abs_of_nonneg (by norm_num)]
  have hm : ∀ f, f < triangle.GetnFaces →
      faceMeasure Rat.sqrt (noShape ℚ) (noShape ℚ) 2 triangle
        (coordTable [[0, 0], [3, 0], [0, 4]]) f = some ((fun _ => (3 : ℚ)) f) := by
    intro f _
    rw [faceMeasure_2D _ _ _ _ _ _ _ (by decide)]
    norm_num [coordTable, h9]
  have harea := areaLoop_eq Rat.sqrt (noShape ℚ) (noShape ℚ) (fun _ => 0) 2 triangle
    (coordTable [[0, 0], [3, 0], [0, 4]]) (fun _ => 3) hm
  rw [maxLoop_eq (fun _ => (3 : ℚ)) triangle.GetnFaces 3 (fun _ _ => by norm_num)
    (fun _ _ => le_refl _) ⟨0, by decide, rfl⟩] at harea
  have hW := weightLoop_measures (fun _ => (3 : ℚ)) triangle.GetnFaces 3 (by norm_num)
  obtain ⟨t1, t2, ht1, ht2, hface, hcg⟩ := SetCoord_CG_translation Rat.sqrt (noShape ℚ)
    (noShape ℚ) (fun _ => 0) (fun _ => 1) triangle (coordTable [[0, 0], [3, 0], [0, 4]])
    (withCentroidStorage ℚ 2 3) (coordTable [[10, 20]] 0) _ 3 _
    (by decide) (fun _ _ => Nat.succ_pos 1) harea (congrArg Prod.snd hW)
    (by
      have h3 : triangle.GetnFaces = 3 := rfl
      rw [h3]
      norm_num [Finset.sum_range_succ])
  obtain ⟨c, hc1, hc2⟩ := hcg 1 (by decide)
  exact ⟨t1, t2, c, ht1, ht2, hface 1 (by decide) 0 (by decide), hc1, hc2⟩

end SU2
